import Mathlib

/-!
Verification development for the order-processing core of this repository.

Texts are modelled as lists of characters (`Str`).  Python's `re` machinery
is modelled by a small backtracking regex engine (`RE` / `matchR`) with
leftmost-search semantics, greedy/lazy bounded repetition, groups,
lookarounds and word boundaries, which is enough to transcribe every pattern
the embedded functions use.  Machine-specific collaborators that the spec
declares external (the morphological name converter, the wall clock) are
threaded as explicit parameters.
-/

set_option maxHeartbeats 1000000

namespace AOC

/-- Texts are lists of characters. -/
abbrev Str := List Char

/-- Characters that Python's `str.strip()` / `\s` treat as whitespace. -/
def isPySpace (c : Char) : Bool :=
  c = ' ' || c = '\t' || c = '\n' || c = '\r' || c = '\x0b' || c = '\x0c' ||
  (0x1c ≤ c.toNat && c.toNat ≤ 0x1f) || c.toNat = 0x85 || c.toNat = 0xa0 ||
  c.toNat = 0x1680 || (0x2000 ≤ c.toNat && c.toNat ≤ 0x200a) ||
  c.toNat = 0x2028 || c.toNat = 0x2029 || c.toNat = 0x202f ||
  c.toNat = 0x205f || c.toNat = 0x3000

/-- ASCII decimal digit (regex `\d` on the documents at hand). -/
def isDigitCh (c : Char) : Bool := '0' ≤ c && c ≤ '9'

/-- Latin lowercase. -/
def isLatinL (c : Char) : Bool := 'a' ≤ c && c ≤ 'z'

/-- Latin uppercase. -/
def isLatinU (c : Char) : Bool := 'A' ≤ c && c ≤ 'Z'

/-- Cyrillic base uppercase range А..Я (U+0410..U+042F). -/
def isCyrBaseU (c : Char) : Bool := 0x410 ≤ c.toNat && c.toNat ≤ 0x42f

/-- Cyrillic base lowercase range а..я (U+0430..U+044F). -/
def isCyrBaseL (c : Char) : Bool := 0x430 ≤ c.toNat && c.toNat ≤ 0x44f

/-- Ukrainian additional uppercase letters І Ї Є Ґ. -/
def isUkrExtraU (c : Char) : Bool :=
  c.toNat = 0x406 || c.toNat = 0x407 || c.toNat = 0x404 || c.toNat = 0x490

/-- Ukrainian additional lowercase letters і ї є ґ. -/
def isUkrExtraL (c : Char) : Bool :=
  c.toNat = 0x456 || c.toNat = 0x457 || c.toNat = 0x454 || c.toNat = 0x491

/-- Regex `\w` over the alphabets appearing in the documents. -/
def isWordCh (c : Char) : Bool :=
  isLatinL c || isLatinU c || isDigitCh c || c = '_' ||
  (0x400 ≤ c.toNat && c.toNat ≤ 0x4ff)

/-- Python `str.lower()`, character-wise, over the alphabets in use. -/
def pyLowerCh (c : Char) : Char :=
  if isLatinU c then Char.ofNat (c.toNat + 32)
  else if isCyrBaseU c then Char.ofNat (c.toNat + 32)
  else if c.toNat = 0x406 then Char.ofNat 0x456      -- І → і
  else if c.toNat = 0x407 then Char.ofNat 0x457      -- Ї → ї
  else if c.toNat = 0x404 then Char.ofNat 0x454      -- Є → є
  else if c.toNat = 0x490 then Char.ofNat 0x491      -- Ґ → ґ
  else if 0x400 ≤ c.toNat && c.toNat ≤ 0x40f then Char.ofNat (c.toNat + 80)
  else c

/-- Python `str.upper()`, character-wise, over the alphabets in use. -/
def pyUpperCh (c : Char) : Char :=
  if isLatinL c then Char.ofNat (c.toNat - 32)
  else if isCyrBaseL c then Char.ofNat (c.toNat - 32)
  else if c.toNat = 0x456 then Char.ofNat 0x406
  else if c.toNat = 0x457 then Char.ofNat 0x407
  else if c.toNat = 0x454 then Char.ofNat 0x404
  else if c.toNat = 0x491 then Char.ofNat 0x490
  else if 0x450 ≤ c.toNat && c.toNat ≤ 0x45f then Char.ofNat (c.toNat - 80)
  else c

/-- The other-case variant of a letter (used for `re.IGNORECASE`). -/
def swapCaseCh (c : Char) : Char :=
  if pyLowerCh c ≠ c then pyLowerCh c
  else if pyUpperCh c ≠ c then pyUpperCh c
  else c

/-- Python `str.lower()`. -/
def pyLower (s : Str) : Str := s.map pyLowerCh

/-- Python `str.upper()`. -/
def pyUpper (s : Str) : Str := s.map pyUpperCh

/-- Does `pat` occur at the front of `s`?  (exact characters) -/
def isPrefixB : Str → Str → Bool
  | [], _ => true
  | _ :: _, [] => false
  | p :: ps, c :: cs => p = c && isPrefixB ps cs

/-- Python `pat in s` (substring containment, exact characters). -/
def containsSub (s pat : Str) : Bool :=
  match s with
  | [] => isPrefixB pat []
  | _ :: rest => isPrefixB pat s || containsSub rest pat

/-- First position at which `pat` occurs in `s` (Python `str.find`, found case). -/
def findSub : Str → Str → Option Nat
  | s, pat =>
    match s with
    | [] => if isPrefixB pat [] then some 0 else none
    | _ :: rest =>
      if isPrefixB pat s then some 0
      else (findSub rest pat).map (· + 1)

/-- All start positions of (possibly overlapping) occurrences of `pat`. -/
def allSubPositions (s pat : Str) : List Nat :=
  (List.range (s.length + 1)).filter (fun i => isPrefixB pat (s.drop i))

/-- Python `str.strip()` (both ends, Python whitespace). -/
def pyStrip (s : Str) : Str :=
  ((s.dropWhile isPySpace).reverse.dropWhile isPySpace).reverse

/-- Python `str.lstrip()`. -/
def pyLStrip (s : Str) : Str := s.dropWhile isPySpace

/-- Insert `x` after every element `y` with `le y x` (worker for the
stable sort). -/
def insSorted (le : α → α → Bool) (x : α) : List α → List α
  | [] => [x]
  | y :: ys => if le y x then y :: insSorted le x ys else x :: y :: ys

/-- Stable insertion sort (the semantics of Python `list.sort(key=...)`:
ties keep their original relative order). -/
def stableSortBy (le : α → α → Bool) (l : List α) : List α :=
  l.foldl (fun acc x => insSorted le x acc) []

/-- Split on a single character; `splitCh c s` never returns `[]`. -/
def splitCh (sep : Char) : Str → List Str
  | [] => [[]]
  | c :: rest =>
    if c = sep then [] :: splitCh sep rest
    else
      match splitCh sep rest with
      | [] => [[c]]
      | l :: ls => (c :: l) :: ls

/-- Join with a single character (inverse of `splitCh` on newline-free parts). -/
def joinCh (sep : Char) : List Str → Str
  | [] => []
  | [l] => l
  | l :: ls => l ++ sep :: joinCh sep ls

/-- Split on an exact non-empty substring separator `s0 :: stail`
(Python `str.split(sep)`).  Scans left to right, non-overlapping.  The
`fuel` argument only makes the recursion structural: every step consumes
at least one character, so `fuel = s.length` (as supplied by `splitSub`)
never runs out. -/
def splitSubNE (s0 : Char) (stail : Str) : Nat → Str → List Str
  | _, [] => [[]]
  | 0, s => [s]
  | fuel + 1, c :: rest =>
    if isPrefixB (s0 :: stail) (c :: rest) then
      [] :: splitSubNE s0 stail fuel (rest.drop stail.length)
    else
      match splitSubNE s0 stail fuel rest with
      | [] => [[c]]
      | l :: ls => (c :: l) :: ls

/-- Python `str.split(sep)` for a given separator. -/
def splitSub : Str → Str → List Str
  | [], s => [s]
  | s0 :: st, s => splitSubNE s0 st s.length s

/-! ### `text_processing.normalize_text` -/

/-- Horizontal whitespace recognized by `re.sub(r'[ \t]+', ' ', ·)`. -/
def isHT (c : Char) : Bool := c = ' ' || c = '\t'

/-- `text.replace('\r\n', '\n').replace('\r', '\n')`. -/
def replaceNewlines : Str → Str
  | [] => []
  | '\r' :: '\n' :: rest => '\n' :: replaceNewlines rest
  | '\r' :: rest => '\n' :: replaceNewlines rest
  | c :: rest => c :: replaceNewlines rest

mutual
/-- `re.sub(r'[ \t]+', ' ', ·)`: collapse runs of spaces/tabs to one space. -/
def collapseWS : Str → Str
  | [] => []
  | c :: rest => if isHT c then ' ' :: skipHT rest else c :: collapseWS rest

/-- Helper of `collapseWS`: drop the rest of the current whitespace run. -/
def skipHT : Str → Str
  | [] => []
  | c :: rest => if isHT c then skipHT rest else c :: collapseWS rest
end

/-- Quote characters normalized by `re.sub(r'[«»""„"]', '"', ·)`.
(In the source that character class consists of « » „ and the straight
quote itself, the curly-quote slots being literal `0x22` characters.) -/
def isQuoteCh (c : Char) : Bool :=
  c.toNat = 0xab || c.toNat = 0xbb || c.toNat = 0x22 || c.toNat = 0x201e

/-- Replace each quote variant by the straight quote. -/
def normQuoteCh (c : Char) : Char := if isQuoteCh c then '"' else c

/-- `text_processing.normalize_text`. -/
def normalize_text (text : Str) : Str :=
  if text = [] then []
  else
    let n1 := replaceNewlines text
    let n2 := collapseWS n1
    let lines := splitCh '\n' n2
    let strippedLines := lines.map pyStrip
    let nonEmpty := strippedLines.filter (fun l => decide (l ≠ []))
    let joined := joinCh '\n' nonEmpty
    let quoted := joined.map normQuoteCh
    pyStrip quoted

/-! ### A small backtracking regex engine, modelling `re` semantics:
leftmost search, ordered alternation, greedy/lazy repetition with
backtracking, capture groups, lookarounds and zero-width assertions. -/

/-- Zero-width assertions. -/
inductive AKind where
  | bos    -- `^` without MULTILINE (also `\A`)
  | eosZ   -- `\Z`
  | bolM   -- `^` with MULTILINE
  | eolM   -- `$` with MULTILINE
  | eolN   -- `$` without MULTILINE (end, or just before a final newline)
  | wordB  -- `\b`
deriving Repr

/-- Regex abstract syntax. -/
inductive RE where
  | eps
  | cls (p : Char → Bool)
  | alt (a b : RE)
  | seq (a b : RE)
  | rep (a : RE) (lo : Nat) (hi : Option Nat) (greedy : Bool)
  | grp (i : Nat) (a : RE)
  | look (neg : Bool) (a : RE)
  | lookb (neg : Bool) (w : Nat) (a : RE)
  | anchor (k : AKind)

/-- Matcher state: consumed prefix (reversed), remaining input, position. -/
structure MSt where
  left : Str
  right : Str
  pos : Nat

/-- Captured group spans `(index, start, end)`, most recent first. -/
abbrev Caps := List (Nat × Nat × Nat)

/-- Matcher result: end position and captures on success. -/
abbrev MRes := Option (Nat × Caps)

/-- Last recorded span of a group. -/
def capLookup (i : Nat) : Caps → Option (Nat × Nat)
  | [] => none
  | (j, s, e) :: rest => if j = i then some (s, e) else capLookup i rest

/-- Evaluate a zero-width assertion at the current state. -/
def anchorOK : AKind → MSt → Bool
  | .bos, st => st.pos = 0
  | .eosZ, st => st.right.isEmpty
  | .bolM, st => match st.left with | [] => true | c :: _ => c = '\n'
  | .eolM, st => match st.right with | [] => true | c :: _ => c = '\n'
  | .eolN, st => match st.right with | [] => true | ['\n'] => true | _ => false
  | .wordB, st =>
    (match st.left with | [] => false | c :: _ => isWordCh c) ≠
    (match st.right with | [] => false | c :: _ => isWordCh c)

/-- The type of a full matcher: regex, state, captures, continuation. -/
abbrev MFun := RE → MSt → Caps → (MSt → Caps → MRes) → MRes

/-- Bounded repetition worker: `ma` matches one copy of the body `a` at
the current fuel layer, `next?` is the whole matcher one fuel layer down
(absent when the fuel is exhausted), used for the unbounded tail exactly
as in `matchR`'s repetition case. -/
def matchRep (next? : Option MFun) (a : RE)
    (ma : MSt → Caps → (MSt → Caps → MRes) → MRes) :
    Nat → Option Nat → Bool → MSt → Caps → (MSt → Caps → MRes) → MRes
  | lo' + 1, hi, g, st, caps, k =>
    ma st caps (fun st1 caps1 =>
      matchRep next? a ma lo' (hi.map (· - 1)) g st1 caps1 k)
  | 0, hi, g, st, caps, k =>
    match hi with
    | some 0 => k st caps
    | _ =>
      match next? with
      | none => none
      | some next =>
        let once : MRes := next a st caps (fun st1 caps1 =>
          if st.pos < st1.pos then
            next (.rep a 0 (hi.map (· - 1)) g) st1 caps1 k
          else none)
        if g then once.orElse (fun _ => k st caps)
        else (k st caps).orElse (fun _ => once)

/-- One fuel layer of the backtracking matcher, structurally recursive
over the regex; `next?` is the matcher one fuel layer down. -/
def matchS (next? : Option MFun) : MFun
  | .eps, st, caps, k => k st caps
  | .cls p, st, caps, k =>
    match st.right with
    | [] => none
    | c :: rest => if p c then k ⟨c :: st.left, rest, st.pos + 1⟩ caps else none
  | .alt a b, st, caps, k =>
    (matchS next? a st caps k).orElse (fun _ => matchS next? b st caps k)
  | .seq a b, st, caps, k =>
    matchS next? a st caps (fun st1 caps1 => matchS next? b st1 caps1 k)
  | .grp i a, st, caps, k =>
    matchS next? a st caps (fun st1 caps1 => k st1 ((i, st.pos, st1.pos) :: caps1))
  | .look neg a, st, caps, k =>
    let r := matchS next? a st caps (fun st1 caps1 => some (st1.pos, caps1))
    if neg then (if r.isSome then none else k st caps)
    else (if r.isSome then k st caps else none)
  | .lookb neg a_w a, st, caps, k =>
    let avail := st.left.take a_w
    let ok := avail.length = a_w &&
      (matchS next? a ⟨[], avail.reverse, 0⟩ caps
        (fun st1 _ => if st1.right.isEmpty then some (st1.pos, caps) else none)).isSome
    if neg then (if ok then none else k st caps)
    else (if ok then k st caps else none)
  | .anchor kind, st, caps, k => if anchorOK kind st then k st caps else none
  | .rep a lo hi g, st, caps, k =>
    matchRep next? a (matchS next? a) lo hi g st caps k

/-- Backtracking matcher in continuation-passing style.  `fuel` bounds the
iterations of unbounded repetitions (each iteration must consume input, so
`input length + slack` is always enough). -/
def matchR : Nat → RE → MSt → Caps → (MSt → Caps → MRes) → MRes
  | 0, re, st, caps, k => matchS none re st caps k
  | fuel + 1, re, st, caps, k => matchS (some (matchR fuel)) re st caps k

/-- A successful match: start, end, captures. -/
structure RMatch where
  mstart : Nat
  mend : Nat
  caps : Caps
deriving Repr

/-- Try to match `re` at the current position only (Python `re.match` when
the state is at position 0). -/
def tryAt (re : RE) (st : MSt) : Option RMatch :=
  match matchR (st.right.length + 64) re st []
      (fun st1 caps1 => some (st1.pos, caps1)) with
  | some (e, caps) => some ⟨st.pos, e, caps⟩
  | none => none

/-- Worker for leftmost search, structurally recursive on the remaining
input. -/
def searchFrom (re : RE) : Str → Str → Nat → Option RMatch
  | left, [], pos => tryAt re ⟨left, [], pos⟩
  | left, c :: rest, pos =>
    match tryAt re ⟨left, c :: rest, pos⟩ with
    | some m => some m
    | none => searchFrom re (c :: left) rest (pos + 1)

/-- Leftmost search (Python `re.search`). -/
def searchAux (re : RE) (st : MSt) : Option RMatch :=
  searchFrom re st.left st.right st.pos

/-- `re.search(pattern, s)`. -/
def reSearch (re : RE) (s : Str) : Option RMatch := searchAux re ⟨[], s, 0⟩

/-- `re.match(pattern, s)` (anchored at the start). -/
def reMatch (re : RE) (s : Str) : Option RMatch := tryAt re ⟨[], s, 0⟩

/-- Advance the state by `n` characters (stopping at the end). -/
def advanceSt : MSt → Nat → MSt
  | st, 0 => st
  | st, n + 1 =>
    match st.right with
    | [] => st
    | c :: rest => advanceSt ⟨c :: st.left, rest, st.pos + 1⟩ n

/-- Worker for `reFinditer`. -/
def finditAux (re : RE) : MSt → Nat → List RMatch
  | _, 0 => []
  | st, fuel + 1 =>
    match searchAux re st with
    | none => []
    | some m =>
      if m.mend = m.mstart then
        if st.right.length ≤ m.mend - st.pos then [m]
        else m :: finditAux re (advanceSt st (m.mend - st.pos + 1)) fuel
      else m :: finditAux re (advanceSt st (m.mend - st.pos)) fuel

/-- `re.finditer(pattern, s)`: non-overlapping matches, left to right. -/
def reFinditer (re : RE) (s : Str) : List RMatch :=
  finditAux re ⟨[], s, 0⟩ (s.length + 1)

/-- `m.group(i)` (`i = 0` for the whole match), `none` when the group did
not participate. -/
def matchGroup (inp : Str) (m : RMatch) (i : Nat) : Option Str :=
  if i = 0 then some ((inp.drop m.mstart).take (m.mend - m.mstart))
  else (capLookup i m.caps).map (fun se => (inp.drop se.1).take (se.2 - se.1))

/-- `m.span(i)`; `(-1, -1)` is represented as `none`. -/
def matchSpan (m : RMatch) (i : Nat) : Option (Nat × Nat) :=
  if i = 0 then some (m.mstart, m.mend) else capLookup i m.caps

/-! Smart constructors used when transcribing the source patterns. -/

/-- Literal character. -/
def RE.ch (c : Char) : RE := .cls (fun x => x = c)

/-- Literal character, case-insensitive. -/
def RE.chCI (c : Char) : RE := .cls (fun x => pyLowerCh x = pyLowerCh c)

/-- Sequence of regexes. -/
def RE.cat (l : List RE) : RE := l.foldr .seq .eps

/-- Literal string. -/
def RE.str (s : Str) : RE := RE.cat (s.map RE.ch)

/-- Literal string, case-insensitive. -/
def RE.strCI (s : Str) : RE := RE.cat (s.map RE.chCI)

/-- Ordered alternation of a non-empty list; `[]` behaves like the empty
pattern (as `"|".join([])` does in the source). -/
def RE.alts : List RE → RE
  | [] => .eps
  | [r] => r
  | r :: rest => .alt r (RE.alts rest)

/-- `r?` -/
def RE.opt (a : RE) : RE := .rep a 0 (some 1) true

/-- `r*` -/
def RE.star (a : RE) : RE := .rep a 0 none true

/-- `r+` -/
def RE.plus (a : RE) : RE := .rep a 1 none true

/-- `r*?` -/
def RE.lazyStar (a : RE) : RE := .rep a 0 none false

/-- `r{lo,hi}` (greedy) -/
def RE.between (lo hi : Nat) (a : RE) : RE := .rep a lo (some hi) true

/-- Case-insensitive closure of a character class (`re.IGNORECASE`). -/
def ciCls (p : Char → Bool) : RE := .cls (fun c => p c || p (swapCaseCh c))

/-- `\s` -/
def wsC : RE := .cls isPySpace

/-- `\s*` -/
def ws0 : RE := RE.star wsC

/-- `\s+` -/
def ws1 : RE := RE.plus wsC

/-- `\d` -/
def dC : RE := .cls isDigitCh

/-- `\w` -/
def wC : RE := .cls isWordCh

/-- `.` (no DOTALL: anything but newline) -/
def dotC : RE := .cls (fun c => c ≠ '\n')

/-- `.` under DOTALL -/
def dotAll : RE := .cls (fun _ => true)

/-- `text[a:b]` for `0 ≤ a ≤ b`. -/
def sliceStr (s : Str) (a b : Nat) : Str := (s.drop a).take (b - a)

/-- `text[a:]`. -/
def sliceFrom (s : Str) (a : Nat) : Str := s.drop a

/-! ### `utils.py`: `parse_date`, `extract_location`,
`determine_paragraph_location` -/

/-- Ukrainian month names (genitive) to two-digit month numbers. -/
def monthsMap : List (Str × Str) :=
  [("січня".data, "01".data), ("лютого".data, "02".data),
   ("березня".data, "03".data), ("квітня".data, "04".data),
   ("травня".data, "05".data), ("червня".data, "06".data),
   ("липня".data, "07".data), ("серпня".data, "08".data),
   ("вересня".data, "09".data), ("жовтня".data, "10".data),
   ("листопада".data, "11".data), ("грудня".data, "12".data)]

/-- `str.zfill(2)` for the day group. -/
def zfill2 (s : Str) : Str := if s.length < 2 then '0' :: s else s

/-- `(\d{1,2})\s+(\w+)\s+(\d{4})` -/
def parseDateRE : RE :=
  RE.cat [.grp 1 (.rep dC 1 (some 2) true), ws1, .grp 2 (RE.plus wC), ws1,
          .grp 3 (.rep dC 4 (some 4) true)]

/-- `utils.parse_date`. -/
def parse_date (date_text : Str) : Option Str :=
  if date_text = [] then none
  else
    let dt := date_text.map (fun c => if isQuoteCh c then ' ' else c)
    match reSearch parseDateRE dt with
    | none => none
    | some m =>
      let day := zfill2 ((matchGroup dt m 1).getD [])
      let monthName := pyLower ((matchGroup dt m 2).getD [])
      let year := (matchGroup dt m 3).getD []
      match (monthsMap.find? (fun kv => kv.1 = monthName)).map (·.2) with
      | some mo => some (day ++ '.' :: mo ++ '.' :: year)
      | none => none

/-- Location-trigger table: ordered `(location, triggers)` pairs. -/
abbrev LocTriggers := List (Str × List Str)

/-- `utils.extract_location`. -/
def extract_location (text : Str) (location_triggers : LocTriggers) : Option Str :=
  let normalized := pyLower text
  location_triggers.findSome? (fun lt =>
    if lt.2.any (fun trigger => containsSub normalized (pyLower trigger))
    then some lt.1 else none)

/-- `(\d+)[\s-]?(?:го|й|ї)?\s+навчальн(?:ого|ий|ому)\s+батальйон(?:у)?`
(IGNORECASE). -/
def nbLocRE : RE :=
  RE.cat [.grp 1 (RE.plus dC),
          RE.opt (.cls (fun c => isPySpace c || c = '-')),
          RE.opt (RE.alts [RE.strCI "го".data, RE.strCI "й".data, RE.strCI "ї".data]),
          ws1, RE.strCI "навчальн".data,
          RE.alts [RE.strCI "ого".data, RE.strCI "ий".data, RE.strCI "ому".data],
          ws1, RE.strCI "батальйон".data, RE.opt (RE.strCI "у".data)]

/-- `utils.determine_paragraph_location`. -/
def determine_paragraph_location (paragraph_norm : Str)
    (location_triggers : LocTriggers) : Option Str :=
  match reSearch nbLocRE paragraph_norm with
  | some m => some (((matchGroup paragraph_norm m 1).getD []) ++ " НБ".data)
  | none => extract_location paragraph_norm location_triggers

/-! ### `section_detection.py` -/

/-- `(?:\d+\.\d+\.\s*)?` — the optional numbering prefix that
`find_sections` puts in front of every (escaped) marker. -/
def numPrefixRE : RE :=
  RE.opt (RE.cat [RE.plus dC, .ch '.', RE.plus dC, .ch '.', ws0])

/-- The pattern `find_sections` builds for one marker:
`re.escape(marker.replace(':', ''))` preceded by the optional numbering,
searched case-insensitively.  (`re.escape` makes the marker text literal.) -/
def markerRE (marker : Str) : RE :=
  .seq numPrefixRE (RE.strCI (marker.filter (fun c => c ≠ ':')))

/-- Context phrases deciding training vs duty in `detect_section_type`. -/
def trainingPhrases : List Str :=
  ["з метою проходження навчання".data,
   "для проходження навчання".data,
   "з метою навчання".data,
   "навчального батальйону".data,
   "школи індивідуальної підготовки".data]

/-- Duty phrases in `detect_section_type`. -/
def dutyPhrases : List Str :=
  ["з метою виконання службового завдання".data,
   "для виконання службового завдання".data,
   "для виконання службових обов\x27язків".data]

/-- `до\s+військової\s+частини\s+[АA][-]?\d{4}` (IGNORECASE);
the class `[АA]` holds Cyrillic А and Latin A. -/
def toVchRE : RE :=
  RE.cat [RE.strCI "до".data, ws1, RE.strCI "військової".data, ws1,
          RE.strCI "частини".data, ws1,
          ciCls (fun c => c.toNat = 0x410 || c = 'A'),
          RE.opt (.ch '-'), .rep dC 4 (some 4) true]

/-- `до\s+\d+[-]?(?:го|й|й)?\s+навчальн(?:ого|ий)\s+батальйон` (IGNORECASE). -/
def toNbRE : RE :=
  RE.cat [RE.strCI "до".data, ws1, RE.plus dC, RE.opt (.ch '-'),
          RE.opt (RE.alts [RE.strCI "го".data, RE.strCI "й".data, RE.strCI "й".data]),
          ws1, RE.strCI "навчальн".data,
          RE.alts [RE.strCI "ого".data, RE.strCI "ий".data],
          ws1, RE.strCI "батальйон".data]

/-- `section_detection.detect_section_type`. -/
def detect_section_type (text : Str) (start_pos : Nat) (initial_type : Str) : Str :=
  let context_end := min (start_pos + 500) text.length
  let context_text := sliceStr text start_pos context_end
  let lower := pyLower context_text
  if initial_type = "Прибуття у відрядження".data then
    if trainingPhrases.any (fun p => containsSub lower p) then
      "Прибуття у відрядження (навчання)".data
    else if dutyPhrases.any (fun p => containsSub lower p) then
      "Прибуття у відрядження".data
    else if (reSearch toVchRE context_text).isSome then
      "Прибуття у відрядження".data
    else if (reSearch toNbRE context_text).isSome ||
        containsSub lower "школи".data then
      "Прибуття у відрядження (навчання)".data
    else initial_type
  else initial_type

/-- Keywords confirming a hospital section in `detect_hospital_section`. -/
def hospitalKeywords : List Str :=
  ["лікувальний заклад".data, "лікарня".data, "медичний заклад".data,
   "медична установа".data, "виписаний".data, "виписана".data,
   "виписаних".data, "виписний епікриз".data]

/-- `section_detection.detect_hospital_section` (always returns the initial
type; the keyword checks only influence logging). -/
def detect_hospital_section (text : Str) (start_pos : Nat)
    (initial_type : Str) : Str :=
  let context_end := min (start_pos + 500) text.length
  let context_text := sliceStr text start_pos context_end
  let lower := pyLower context_text
  if hospitalKeywords.any (fun k => containsSub lower k) then initial_type
  else if containsSub lower "з лікувального закладу".data ||
      containsSub lower "з лікарні".data then initial_type
  else initial_type

/-- The four hard-coded alternative hospital patterns of `find_sections`,
without their common optional numbering prefix. -/
def hospitalAltMarkers : List Str :=
  ["з лікувального закладу".data, "з лікарні".data,
   "з медичного закладу".data, "з медичного установи".data]

/-- `з\s+X\s+Y`-shaped hospital pattern with the numbering prefix. -/
def hospitalAltRE (words : Str) : RE :=
  .seq numPrefixRE
    (RE.cat (((splitCh ' ' words).map (fun w => RE.strCI w)).intersperse ws1))

/-- One found section start: `(position, section type)`. -/
abbrev SectStart := Nat × Str

/-- The marker scan of `find_sections`: every `(position, type)` start the
configured markers and the hard-coded alternative hospital patterns
produce, sorted by position (stable). -/
def sectionStarts (text : Str) (section_markers : List (Str × Str)) :
    List SectStart :=
  let starts₀ : List SectStart :=
    section_markers.flatMap (fun ms =>
      (reFinditer (markerRE ms.1) text).map (fun m =>
        let t :=
          if ms.2 = "Прибуття у відрядження".data then
            detect_section_type text m.mstart ms.2
          else if ms.2 = "Лікарня".data then
            detect_hospital_section text m.mstart ms.2
          else ms.2
        (m.mstart, t)))
  let starts : List SectStart :=
    hospitalAltMarkers.foldl (fun acc hm =>
      acc ++ ((reFinditer (hospitalAltRE hm) text).filterMap (fun m =>
        if acc.any (fun s => s.1 = m.mstart) then none
        else some (m.mstart, "Лікарня".data)))) starts₀
  stableSortBy (fun a b => a.1 ≤ b.1) starts

/-- `section_detection.find_sections`.  Returns
`(section_type, section_text, start_position)` triples. -/
def find_sections (text : Str) (section_markers : List (Str × Str)) :
    List (Str × Str × Nat) :=
  let sorted := sectionStarts text section_markers
  if sorted = [] then [("ППОС".data, text, 0)]
  else
    (List.range sorted.length).map (fun i =>
      let s := sorted.getD i (0, [])
      let endPos := if i < sorted.length - 1
        then (sorted.getD (i + 1) (0, [])).1 else text.length
      (s.2, sliceStr text s.1 endPos, s.1))

/-- `''(\d{1,2})''\s+(\w+)\s+(\d{4})\s+року` -/
def sectionDateRE1 : RE :=
  RE.cat [RE.str "\x27\x27".data, .grp 1 (.rep dC 1 (some 2) true),
          RE.str "\x27\x27".data, ws1, .grp 2 (RE.plus wC), ws1,
          .grp 3 (.rep dC 4 (some 4) true), ws1, RE.str "року".data]

/-- `''(\d{1,2})''\s+(\w+)\s+(\d{4})` -/
def sectionDateRE2 : RE :=
  RE.cat [RE.str "\x27\x27".data, .grp 1 (.rep dC 1 (some 2) true),
          RE.str "\x27\x27".data, ws1, .grp 2 (RE.plus wC), ws1,
          .grp 3 (.rep dC 4 (some 4) true)]

/-- `section_detection.extract_section_date`. -/
def extract_section_date (section_text : Str) (default_date : Option Str) :
    Option Str :=
  let m := match reSearch sectionDateRE1 section_text with
    | some m => some m
    | none => reSearch sectionDateRE2 section_text
  match m with
  | some m =>
    parse_date (((matchGroup section_text m 1).getD []) ++ ' ' ::
      ((matchGroup section_text m 2).getD []) ++ ' ' ::
      ((matchGroup section_text m 3).getD []))
  | none => default_date

/-- `(?:зі|з)\s+(?:сніданку|вечері|обіду)` -/
def mealHeadRE : RE :=
  RE.cat [RE.alts [RE.strCI "зі".data, RE.strCI "з".data], ws1,
          RE.alts [RE.strCI "сніданку".data, RE.strCI "вечері".data,
                   RE.strCI "обіду".data]]

/-- `''(\d{1,2})''\s+(\w+)\s+(\d{4})` — the date tail of the meal patterns. -/
def mealDateTailRE : RE :=
  RE.cat [RE.str "\x27\x27".data, .grp 1 (.rep dC 1 (some 2) true),
          RE.str "\x27\x27".data, ws1, .grp 2 (RE.plus wC), ws1,
          .grp 3 (.rep dC 4 (some 4) true)]

/-- `[\d\w\s]+` -/
def dwsPlus : RE :=
  RE.plus (.cls (fun c => isDigitCh c || isWordCh c || isPySpace c))

/-- `зарахувати\s+на\s+котлов(?:е|ого)\s+забезпечення` -/
def zarahKotlovRE : RE :=
  RE.cat [RE.strCI "зарахувати".data, ws1, RE.strCI "на".data, ws1,
          RE.strCI "котлов".data,
          RE.alts [RE.strCI "е".data, RE.strCI "ого".data], ws1,
          RE.strCI "забезпечення".data]

/-- `в\s+місці\s+тимчасового\s+розміщення\s+особового\s+складу` -/
def vMisciRE : RE :=
  RE.cat [RE.strCI "в".data, ws1, RE.strCI "місці".data, ws1,
          RE.strCI "тимчасового".data, ws1, RE.strCI "розміщення".data, ws1,
          RE.strCI "особового".data, ws1, RE.strCI "складу".data]

/-- Meal-date pattern 1 of `extract_meal_info`. -/
def mealP1 : RE := RE.cat [mealHeadRE, ws1, mealDateTailRE]

/-- Meal-date pattern 2: after the enrollment phrase with an optional
location clause. -/
def mealP2 : RE :=
  RE.cat [zarahKotlovRE, ws1,
          RE.opt (RE.alts [RE.strCI "частини".data,
            RE.cat [vMisciRE, .ch ',', ws1, dwsPlus]]),
          ws1, mealHeadRE, ws1, mealDateTailRE]

/-- Meal-date pattern 3. -/
def mealP3 : RE :=
  RE.cat [RE.strCI "котлове".data, ws1, RE.strCI "забезпечення".data, ws1,
          RE.opt (RE.cat [RE.strCI "частини".data, ws1]),
          mealHeadRE, ws1, mealDateTailRE]

/-- Meal-date pattern 4: with a mandatory comma-separated location clause. -/
def mealP4 : RE :=
  RE.cat [zarahKotlovRE, ws1,
          RE.alts [RE.strCI "частини".data, vMisciRE],
          .ch ',', ws1, dwsPlus, ws1, mealHeadRE, ws1, mealDateTailRE]

/-- Meal-date pattern 5: generic with a lazy gap. -/
def mealP5 : RE :=
  RE.cat [zarahKotlovRE, ws1, RE.lazyStar dotC, mealHeadRE, ws1, mealDateTailRE]

/-- The ordered list of meal-date patterns. -/
def mealDatePatterns : List RE := [mealP1, mealP2, mealP3, mealP4, mealP5]

/-- Fallback return-date pattern `з\s+''(\d{1,2})''\s+(\w+)\s+(\d{4})\s+року`
(case-sensitive). -/
def mealFallbackRE : RE :=
  RE.cat [RE.str "з".data, ws1, mealDateTailRE, ws1, RE.str "року".data]

/-- `section_detection.extract_meal_info`. -/
def extract_meal_info (section_text : Str) (default_meal : Option Str) :
    Option Str × Option Str :=
  let normalized := pyLower section_text
  let meal_type : Option Str :=
    if containsSub normalized "зі сніданку".data then some "зі сніданку".data
    else if containsSub normalized "з обіду".data then some "з обіду".data
    else if containsSub normalized "з вечері".data then some "з вечері".data
    else default_meal
  let found := mealDatePatterns.findSome? (fun p =>
    (reSearch p section_text).map (fun m => m))
  let (meal_type, meal_date) :=
    match found with
    | some m =>
      let md := parse_date (((matchGroup section_text m 1).getD []) ++ ' ' ::
        ((matchGroup section_text m 2).getD []) ++ ' ' ::
        ((matchGroup section_text m 3).getD []))
      let mt :=
        if meal_type = none then
          let ctx := pyLower ((matchGroup section_text m 0).getD [])
          if containsSub ctx "зі сніданку".data then some "зі сніданку".data
          else if containsSub ctx "з обіду".data then some "з обіду".data
          else if containsSub ctx "з вечері".data then some "з вечері".data
          else none
        else meal_type
      (mt, md)
    | none => (meal_type, none)
  let meal_date :=
    match meal_date with
    | some d => some d
    | none =>
      match reSearch mealFallbackRE section_text with
      | some m =>
        parse_date (((matchGroup section_text m 1).getD []) ++ ' ' ::
          ((matchGroup section_text m 2).getD []) ++ ' ' ::
          ((matchGroup section_text m 3).getD []))
      | none => none
  (meal_type, meal_date)

/-! ### `military_personnel.py` -/

/-- `rank_map`: ordered surface-form → canonical-form pairs (a Python dict
preserves insertion order). -/
abbrev RankMap := List (Str × Str)

/-- `rank_map.get(k)`. -/
def rmGet (rm : RankMap) (k : Str) : Option Str :=
  (rm.find? (fun kv => kv.1 = k)).map (·.2)

/-- `rank_map.get(k, d)`. -/
def rmGetD (rm : RankMap) (k : Str) (d : Str) : Str := (rmGet rm k).getD d

/-- Worker for `pySplitWS`, structurally recursive on its fuel. -/
def pySplitWSF : Nat → Str → List Str
  | _, [] => []
  | 0, _ => []
  | fuel + 1, c :: rest =>
    if isPySpace c then pySplitWSF fuel rest
    else (c :: rest.takeWhile (fun x => !isPySpace x)) ::
      pySplitWSF fuel (rest.dropWhile (fun x => !isPySpace x))

/-- Python `str.split()` (no separator): split on whitespace runs.  The
`fuel` of the worker is only to make the recursion structural; every step
consumes at least one character, so `s.length` never runs out. -/
def pySplitWS (s : Str) : List Str := pySplitWSF s.length s

/-- `int(·)` on a digit string. -/
def strToNat (s : Str) : Nat := s.foldl (fun a c => a * 10 + (c.toNat - 48)) 0

/-- `re.split(pattern, s)` for group-free patterns. -/
def splitByMatches (s : Str) : Nat → List RMatch → List Str
  | pos, [] => [sliceStr s pos s.length]
  | pos, m :: rest => sliceStr s pos m.mstart :: splitByMatches s m.mend rest

/-- `re.split(pattern, s)`. -/
def splitByRE (r : RE) (s : Str) : List Str :=
  splitByMatches s 0 (reFinditer r s)

/-- The class `[А-ЯІЇЄҐ]`. -/
def clsUkrU (c : Char) : Bool := isCyrBaseU c || isUkrExtraU c

/-- The class `[а-яіїєґ'-]`. -/
def clsNameTail (c : Char) : Bool :=
  isCyrBaseL c || isUkrExtraL c || c = '\x27' || c = '-'

/-- `[А-ЯІЇЄҐ][а-яіїєґ'-]+` case-insensitively. -/
def upWordCI : RE := .seq (ciCls clsUkrU) (RE.plus (ciCls clsNameTail))

/-- `[А-ЯІЇЄҐ][а-яіїєґ'-]+` case-sensitively. -/
def upWordCS : RE := .seq (.cls clsUkrU) (RE.plus (.cls clsNameTail))

/-- The module's `name_pattern` (three capitalized words with a negative
lookahead), case-insensitive context, capturing as group `i`. -/
def namePatG (i : Nat) : RE :=
  .seq (.grp i (.seq upWordCI (.rep (.seq ws1 upWordCI) 2 (some 2) true)))
    (.look true (RE.alts
      [RE.cat [ws1, RE.strCI "забезпечення".data],
       RE.cat [ws1, RE.strCI "з".data, ws1, RE.strCI "матеріального".data]]))

/-- Three plain capitalized words (the mobilization name shape), group `i`. -/
def mobNameG (i : Nat) : RE :=
  .grp i (RE.cat [upWordCI, ws1, upWordCI, ws1, upWordCI])

/-- `[А-ЯІЇЄҐ][а-яіїєґ'-]+(?:\s+[А-ЯІЇЄҐ][а-яіїєґ'-]+){1,2}` (ci), group `i`. -/
def name12G (i : Nat) : RE :=
  .grp i (.seq upWordCI (.rep (.seq ws1 upWordCI) 1 (some 2) true))

/-- Same shape, case-sensitive, group `i`. -/
def name12csG (i : Nat) : RE :=
  .grp i (.seq upWordCS (.rep (.seq ws1 upWordCS) 1 (some 2) true))

/-- `([А-ЯІЇЄҐ][а-яіїєґ'-]+(?:\s+[А-ЯІЇЄҐ][а-яіїєґ'-]+){2})` (cs), group `i`. -/
def name3csG (i : Nat) : RE :=
  .grp i (.seq upWordCS (.rep (.seq ws1 upWordCS) 2 (some 2) true))

/-- `"|".join(map(re.escape, rank_map.keys()))` as an ordered alternation
(case-insensitive contexts); an empty map yields the empty pattern. -/
def ranksAlt (rm : RankMap) : RE := RE.alts (rm.map (fun kv => RE.strCI kv.1))

/-- The class `[АA]` (Cyrillic А and Latin A), case-insensitive. -/
def vchHeadCI : RE := ciCls (fun c => c.toNat = 0x410 || c = 'A')

/-- `([АA][-]?\d{4})`, group `i`. -/
def vchG (i : Nat) : RE :=
  .grp i (RE.cat [vchHeadCI, RE.opt (.ch '-'), .rep dC 4 (some 4) true])

/-- `({rank_names})\s+за\s+призовом\s+по\s+мобілізації\s+(3 words)`
(IGNORECASE) — both `clean_mob_pattern` and `mobilization_pattern`. -/
def cleanMobRE (rm : RankMap) : RE :=
  RE.cat [.grp 1 (ranksAlt rm), ws1, RE.strCI "за".data, ws1,
          RE.strCI "призовом".data, ws1, RE.strCI "по".data, ws1,
          RE.strCI "мобілізації".data, ws1, mobNameG 2]

/-- The big VERBOSE `list_pattern` (DOTALL, IGNORECASE). -/
def listPatternRE (rm : RankMap) : RE :=
  let _ := rm
  RE.cat
    [RE.alts
      [RE.cat [RE.strCI "військовослужбовців".data, ws1,
               RE.strCI "військової".data, ws1, RE.strCI "частини".data, ws1,
               vchG 1,
               RE.opt (RE.cat [.ch ',', ws0, RE.strCI "у".data, ws1,
                 RE.strCI "кількості".data, ws1, .grp 2 (RE.plus dC), ws1,
                 RE.strCI "осіб".data])],
       RE.cat [RE.alts [RE.strCI "з".data, RE.strCI "зі".data,
                        RE.strCI "із".data], ws1,
               RE.strCI "військовослужбовців".data, ws1,
               RE.strCI "військової".data, ws1, RE.strCI "частини".data, ws1,
               vchG 3],
       RE.cat [RE.strCI "у".data, ws1, RE.strCI "кількості".data, ws1,
               .grp 4 (RE.plus dC), ws1, RE.strCI "осіб".data]],
     ws0, .ch ':', ws0,
     .grp 5 (RE.lazyStar dotAll),
     .look false (RE.alts
       [RE.cat [.ch '\n', ws0, RE.strCI "Підстава:".data],
        RE.cat [.ch '\n', ws0, RE.plus dC, .ch '.', ws0],
        .anchor .eosZ])]

/-- `destination_unit_pattern` (DOTALL, IGNORECASE). -/
def destinationUnitRE : RE :=
  RE.cat
    [RE.alts [RE.strCI "до".data, RE.strCI "у".data], ws1,
     RE.strCI "військов".data,
     RE.alts [RE.strCI "ої".data, RE.strCI "у".data], ws1,
     RE.strCI "частин".data,
     RE.alts [RE.strCI "и".data, RE.strCI "у".data], ws1,
     vchG 1, ws0, .ch ':', ws0,
     .grp 2 (RE.lazyStar dotAll),
     .look false (RE.alts
       [RE.cat [.ch '\n', ws0, RE.strCI "Видати".data],
        RE.cat [.ch '\n', ws0, RE.strCI "Підстава:".data],
        RE.cat [.ch '\n', ws0, RE.plus dC, .ch '.', RE.plus dC, .ch '.',
                RE.plus dC],
        .anchor .eosZ])]

/-- `extended_list_pattern` (DOTALL, IGNORECASE). -/
def extendedListRE : RE :=
  RE.cat
    [RE.strCI "у".data, ws1, RE.strCI "кількості".data, ws1,
     .grp 1 (RE.plus dC), ws1, RE.strCI "осіб".data, RE.opt (.ch ':'), ws0,
     .grp 2 (RE.lazyStar dotAll),
     .look false (RE.alts
       [RE.cat [.ch '\n', ws0, RE.strCI "Підстава:".data],
        RE.cat [.ch '\n', ws0, RE.plus dC, .ch '.', RE.plus dC],
        RE.cat [.ch '\n', ws0, RE.strCI "зарахувати".data],
        RE.cat [.ch '\n', ws0, RE.strCI "військов".data],
        .anchor .eosZ])]

/-- `^\s*\d+\.\s+({rank_names})\s+(name{1,2})` (MULTILINE, IGNORECASE). -/
def numberedListRE (rm : RankMap) : RE :=
  RE.cat [.anchor .bolM, ws0, RE.plus dC, .ch '.', ws1,
          .grp 1 (ranksAlt rm), ws1, name12G 2]

/-- `^({rank_names})\s+(name{1,2})` (MULTILINE, IGNORECASE). -/
def lineByLineRE (rm : RankMap) : RE :=
  RE.cat [.anchor .bolM, .grp 1 (ranksAlt rm), ws1, name12G 2]

/-- `(?i)(?:^|\s*,\s*|(?<=:)\s*)({rank_names})\s+(name{1,2})`. -/
def largeListRE (rm : RankMap) : RE :=
  RE.cat [RE.alts [.anchor .bos,
                   RE.cat [ws0, .ch ',', ws0],
                   RE.cat [.lookb false 1 (.ch ':'), ws0]],
          .grp 1 (ranksAlt rm), ws1, name12G 2]

/-- `(?i)\s*({rank_names})\b` (used with `re.match`). -/
def leadingRankRE (rm : RankMap) : RE :=
  RE.cat [ws0, .grp 1 (ranksAlt rm), .anchor .wordB]

/-- `,\s*` -/
def commaSplitRE : RE := .seq (.ch ',') ws0

/-- `(?i)({rank_names})\s+(name{1,2})`. -/
def rankNameRE (rm : RankMap) : RE :=
  RE.cat [.grp 1 (ranksAlt rm), ws1, name12G 2]

/-- Case-sensitive `(name{1,2})`. -/
def nameOnlyRE : RE := name12csG 1

/-- Case-sensitive `simple_name_pattern` (three words). -/
def simpleNameRE : RE := name3csG 1

/-- `(?<!мобілізації\s)` (12 characters wide). -/
def nlbMob : RE := .lookb true 12 (.seq (RE.strCI "мобілізації".data) wsC)

/-- `(?<!за\sпризовом\sпо\sмобілізації\s)` (27 characters wide). -/
def nlbZaMob : RE :=
  .lookb true 27 (RE.cat [RE.strCI "за".data, wsC, RE.strCI "призовом".data,
    wsC, RE.strCI "по".data, wsC, RE.strCI "мобілізації".data, wsC])

/-- `за\s+призовом\s+по\s+мобілізації` (ci). -/
def zaMobRE : RE :=
  RE.cat [RE.strCI "за".data, ws1, RE.strCI "призовом".data, ws1,
          RE.strCI "по".data, ws1, RE.strCI "мобілізації".data]

/-- The ordered standard-pattern cascade (`patterns_ordered`). -/
def patternsOrdered (rm : RankMap) : List RE :=
  [RE.cat [.anchor .wordB, .grp 1 (ranksAlt rm), ws1, zaMobRE, ws1, namePatG 2],
   RE.cat [RE.plus dC, .ch '.', ws1, .grp 1 (ranksAlt rm), ws1, zaMobRE, ws1,
           namePatG 2],
   RE.cat [.anchor .wordB, .grp 1 (ranksAlt rm), ws1, namePatG 2,
           RE.opt (.ch ','), ws1, RE.strCI "зарахувати".data],
   RE.cat [nlbMob, RE.plus dC, .ch '.', ws1, .grp 1 (ranksAlt rm), ws1,
           namePatG 2],
   RE.cat [nlbMob, .ch ',', ws0, .grp 1 (ranksAlt rm), ws1, namePatG 2],
   RE.cat [nlbZaMob, .anchor .wordB, .grp 1 (ranksAlt rm), .anchor .wordB,
           ws1, namePatG 2]]

/-- One extracted serviceman: rank, full name, match span. -/
structure Person where
  rank : Str
  name : Str
  span : Nat × Nat
deriving DecidableEq, Repr

/-- The dedup key `f"{rank.lower()}|{name.lower()}"`. -/
def personKey (rank name : Str) : Str :=
  pyLower rank ++ '|' :: pyLower name

/-- The exclusion phrases checked at the top of
`extract_military_personnel`. -/
def exclusionPhrases : List Str :=
  ["тимчасове виконання обов\x27язків".data,
   "виконання обов\x27язків покласти на".data,
   "покласти на".data,
   "призначити".data,
   "признач".data,
   "виконуючим обов\x27язки".data,
   "тво".data]

/-- One priority list block (real or synthetic match), reduced to the data
the processing loop reads: groups 1–4, the list text (group 5) and its span. -/
structure ListBlock where
  g1 : Option Str
  g2 : Option Str
  g3 : Option Str
  g4 : Option Str
  listText : Str
  span5 : Nat × Nat
deriving Repr

/-- `re.sub(r'^[AА]-?', 'А', vch)` (Cyrillic А = U+0410). -/
def normVch : Str → Str
  | [] => []
  | c :: rest =>
    if c = 'A' || c.toNat = 0x410 then
      match rest with
      | '-' :: rest2 => 'А' :: rest2
      | _ => 'А' :: rest
    else c :: rest

/-- Do two half-open ranges overlap? (`not (e1 ≤ s2 or s1 ≥ e2)`) -/
def rangesOverlap (a b : Nat × Nat) : Bool :=
  !(a.2 ≤ b.1 || a.1 ≥ b.2)

/-- Collect the priority list blocks: real `list_pattern` matches, then the
non-overlapping `destination_unit_pattern` synthetics, then the
non-contained `extended_list_pattern` synthetics. -/
def collectListBlocks (section_text : Str) (rm : RankMap) : List ListBlock :=
  let real : List ListBlock :=
    (reFinditer (listPatternRE rm) section_text).map (fun m =>
      { g1 := matchGroup section_text m 1, g2 := matchGroup section_text m 2,
        g3 := matchGroup section_text m 3, g4 := matchGroup section_text m 4,
        listText := (matchGroup section_text m 5).getD [],
        span5 := (matchSpan m 5).getD (0, 0) })
  let withDest : List ListBlock :=
    (reFinditer destinationUnitRE section_text).foldl (fun acc dm =>
      let vch := normVch (pyUpper (pyStrip ((matchGroup section_text dm 1).getD [])))
      let listText := pyStrip ((matchGroup section_text dm 2).getD [])
      let sp := (matchSpan dm 2).getD (0, 0)
      if acc.any (fun b => rangesOverlap sp b.span5) then acc
      else acc ++ [{ g1 := some vch, g2 := none, g3 := none, g4 := none,
                     listText := listText, span5 := sp }]) real
  (reFinditer extendedListRE section_text).foldl (fun acc em =>
    let count := (matchGroup section_text em 1).getD []
    let listText := pyStrip ((matchGroup section_text em 2).getD [])
    let sp := (matchSpan em 2).getD (0, 0)
    if acc.any (fun b => b.span5.1 ≤ sp.1 && b.span5.2 ≥ sp.2) then acc
    else acc ++ [{ g1 := none, g2 := none, g3 := none, g4 := some count,
                   listText := listText, span5 := sp }]) withDest

/-- Extraction state: collected personnel and the `seen_keys` set. -/
structure ExtState where
  personnel : List Person
  seen : List Str
deriving Repr

/-- Add a person if the dedup key is fresh. -/
def addPerson (st : ExtState) (rank name : Str) (span : Nat × Nat) : ExtState :=
  let key := personKey rank name
  if st.seen.contains key then st
  else { personnel := st.personnel ++ [⟨rank, name, span⟩],
         seen := st.seen ++ [key] }

/-- Was a person added? (used to count `found_in_block`) -/
def addPersonCount (st : ExtState) (rank name : Str) (span : Nat × Nat) :
    ExtState × Nat :=
  let key := personKey rank name
  if st.seen.contains key then (st, 0)
  else ({ personnel := st.personnel ++ [⟨rank, name, span⟩],
          seen := st.seen ++ [key] }, 1)

/-- The shared handling of one rank+name match inside a list block
(the `numbered`, `line-by-line` and `large` sub-formats). -/
def addBlockMatch (rm : RankMap) (list_text : Str) (m : RMatch)
    (acc : ExtState × Nat) : ExtState × Nat :=
  let rank_raw := pyLower ((matchGroup list_text m 1).getD [])
  let name := pyStrip ((matchGroup list_text m 2).getD [])
  let rank := rmGetD rm rank_raw "солдат".data
  if containsSub (pyLower name) "за призовом по".data ||
      (pySplitWS name).length < 2 then acc
  else
    let (st, n) := addPersonCount acc.1 rank name (m.mstart, m.mend)
    (st, acc.2 + n)

/-- Process one priority list block (`extract_military_personnel`, step 1
body): returns the new state and the block's `span5` (its processed range). -/
def processListBlock (rm : RankMap) (st : ExtState) (b : ListBlock) :
    ExtState :=
  let expected_count : Option Nat := ((b.g2).orElse (fun _ => b.g4)).map strToNat
  let list_text := pyStrip b.listText
  -- numbered sub-format
  let numbered := reFinditer (numberedListRE rm) list_text
  let acc0 : ExtState × Nat := (st, 0)
  let acc1 := numbered.foldl (fun a m => addBlockMatch rm list_text m a) acc0
  -- line-by-line sub-format (only when no numbered entries)
  let acc2 :=
    if numbered.isEmpty then
      (reFinditer (lineByLineRE rm) list_text).foldl
        (fun a m => addBlockMatch rm list_text m a) acc1
    else acc1
  -- `rank name` large-list sub-format (always applied)
  let acc3 := (reFinditer (largeListRE rm) list_text).foldl
    (fun a m => addBlockMatch rm list_text m a) acc2
  -- comma-separated fallback when the declared count is not reached
  let current_rank : Option Str :=
    match expected_count with
    | some n =>
      if acc3.2 < n && 0 < n then
        match reMatch (leadingRankRE rm) list_text with
        | some lm => rmGet rm (pyLower ((matchGroup list_text lm 1).getD []))
        | none => none
      else none
    | none => none
  let acc4 :=
    match expected_count with
    | some n =>
      if acc3.2 < n && 0 < n then
        let comma_items := ((splitByRE commaSplitRE list_text).map pyStrip).filter
          (fun i => i ≠ [])
        comma_items.foldl (fun (a : ExtState × Nat) item =>
          let item_personnel : List (Str × Str × (Nat × Nat)) :=
            match reSearch (rankNameRE rm) item with
            | some m =>
              [(rmGetD rm (pyLower ((matchGroup item m 1).getD [])) "солдат".data,
                pyStrip ((matchGroup item m 2).getD []), (m.mstart, m.mend))]
            | none =>
              match reSearch nameOnlyRE item, current_rank with
              | some m, some cr =>
                [(cr, pyStrip ((matchGroup item m 1).getD []), (m.mstart, m.mend))]
              | _, _ => []
          item_personnel.foldl (fun (a : ExtState × Nat)
              (p : Str × Str × (Nat × Nat)) =>
            if !(a.1.seen.contains (personKey p.1 p.2.1)) &&
                2 ≤ (pySplitWS p.2.1).length then
              let (st', n) := addPersonCount a.1 p.1 p.2.1 p.2.2
              (st', a.2 + n)
            else a) a) acc3
      else acc3
    | none => acc3
  -- emergency bare-name scan when the count is still not reached
  let acc5 :=
    match expected_count with
    | some n =>
      if acc4.2 < n && 0 < n then
        let simpleMs := reFinditer simpleNameRE list_text
        let filtered := simpleMs.filterMap (fun m =>
          let name := pyStrip ((matchGroup list_text m 1).getD [])
          let ranksToCheck := (match current_rank with
            | some cr => [cr] | none => []) ++ ["солдат".data]
          if ranksToCheck.any (fun r =>
              acc4.1.seen.contains (personKey r name)) then none
          else some (name, (m.mstart, m.mend)))
        if filtered ≠ [] then
          let rank_to_use := current_rank.getD "солдат".data
          filtered.foldl (fun (a : ExtState × Nat) (p : Str × (Nat × Nat)) =>
            if (pySplitWS p.1).length < 2 then a
            else
              let (st', n) := addPersonCount a.1 rank_to_use p.1 p.2
              (st', a.2 + n)) acc4
        else acc4
      else acc4
    | none => acc4
  acc5.1

/-- Is a position inside one of the processed ranges? -/
def inProcessedRanges (ranges : List (Nat × Nat)) (pos : Nat) : Bool :=
  ranges.any (fun r => r.1 ≤ pos && pos < r.2)

/-- Step-2 handling of one standard-cascade match. -/
def addStandardMatch (rm : RankMap) (section_text : Str)
    (ranges : List (Nat × Nat)) (st : ExtState) (m : RMatch) : ExtState :=
  if inProcessedRanges ranges m.mstart then st
  else
    let rank_raw := (matchGroup section_text m 1).getD []
    let name := (matchGroup section_text m 2).getD []
    if rank_raw ≠ [] && name ≠ [] then
      let rank := rmGetD rm (pyLower rank_raw) rank_raw
      let name := pyStrip name
      let lname := pyLower name
      if containsSub lname "за призовом по".data ||
          containsSub lname "військовослужбовця військової частини".data ||
          containsSub lname "з матеріального".data ||
          containsSub lname "матеріального забезпечення".data then st
      else addPerson st rank name (m.mstart, m.mend)
    else st

/-- `military_personnel.extract_military_personnel`. -/
def extract_military_personnel (section_text : Str) (rm : RankMap) :
    List Person :=
  if exclusionPhrases.any (fun p =>
      containsSub (pyLower section_text) (pyLower p)) then []
  else
    -- direct mobilization mentions (`clean_mob_pattern`)
    let st0 : ExtState :=
      (reFinditer (cleanMobRE rm) section_text).foldl (fun st m =>
        let rank_raw := pyLower (pyStrip ((matchGroup section_text m 1).getD []))
        let name := pyStrip ((matchGroup section_text m 2).getD [])
        if rank_raw = [] || name = [] || (pySplitWS name).length < 3 then st
        else addPerson st (rmGetD rm rank_raw rank_raw) name (m.mstart, m.mend))
        ⟨[], []⟩
    -- step 1: priority list blocks
    let blocks := collectListBlocks section_text rm
    let ranges := blocks.map (·.span5)
    let st1 := blocks.foldl (processListBlock rm) st0
    -- step 2: `mobilization_pattern` outside the processed ranges
    let st2 := (reFinditer (cleanMobRE rm) section_text).foldl (fun st m =>
      if inProcessedRanges ranges m.mstart then st
      else
        let rank_raw := (matchGroup section_text m 1).getD []
        let name := (matchGroup section_text m 2).getD []
        if rank_raw ≠ [] && name ≠ [] then
          addPerson st (rmGetD rm (pyLower rank_raw) rank_raw) (pyStrip name)
            (m.mstart, m.mend)
        else st) st1
    -- step 2: the ordered standard cascade
    let st3 := (patternsOrdered rm).foldl (fun st p =>
      (reFinditer p section_text).foldl
        (fun st m => addStandardMatch rm section_text ranges st m) st) st2
    st3.personnel

/-- `(?:^|\b|[0-9.]\s+)` — the prefix shared by the
`extract_rank_and_name` patterns. -/
def ranPrefix : RE :=
  RE.alts [.anchor .bos, .anchor .wordB,
           RE.cat [.cls (fun c => isDigitCh c || c = '.'), ws1]]

/-- The hard-coded `direct_pattern` of `extract_rank_and_name`
(IGNORECASE). -/
def ranDirectRE : RE :=
  RE.cat [ranPrefix,
    .grp 1 (RE.cat [RE.strCI "молодш".data,
      RE.alts [RE.strCI "ого".data, RE.strCI "ий".data], ws1,
      RE.strCI "сержант".data, RE.opt (RE.strCI "а".data)]),
    ws1, zaMobRE, ws1,
    .grp 2 (RE.cat [RE.strCI "КУЛИКА".data, ws1, RE.strCI "Віталія".data,
      ws1, RE.strCI "Борисовича".data])]

/-- `(?i)(?:^|\b|[0-9.]\s+)({rank_names})\s+за\s+призовом\s+по\s+мобілізації\s+(3 words)`. -/
def ranMobRE (rm : RankMap) : RE :=
  RE.cat [ranPrefix, .grp 1 (ranksAlt rm), ws1, zaMobRE, ws1, mobNameG 2]

/-- Same with the lookahead-guarded `name_pattern`. -/
def ranStdMobRE (rm : RankMap) : RE :=
  RE.cat [ranPrefix, .grp 1 (ranksAlt rm), ws1, zaMobRE, ws1, namePatG 2]

/-- `(?i)(?:^|\b|[0-9.]\s+)({rank_names})\b\s+{name_pattern}`. -/
def ranStdRE (rm : RankMap) : RE :=
  RE.cat [ranPrefix, .grp 1 (ranksAlt rm), .anchor .wordB, ws1, namePatG 2]

/-- The basic three-word name with its negative lookahead, group `i`. -/
def basicNameG (i : Nat) : RE :=
  .seq (mobNameG i)
    (.look true (RE.alts
      [RE.cat [ws1, RE.strCI "забезпечення".data],
       RE.cat [ws1, RE.strCI "з".data, ws1, RE.strCI "матеріального".data]]))

/-- `(?i)(?:^|\b|[0-9.]\s+)({rank_names})\b\s+{basic_name_pattern}`. -/
def ranBasicRE (rm : RankMap) : RE :=
  RE.cat [ranPrefix, .grp 1 (ranksAlt rm), .anchor .wordB, ws1, basicNameG 2]

/-- The bad-name rejection shared by the `extract_rank_and_name` branches. -/
def ranBadName (name : Str) : Bool :=
  containsSub (pyLower name) "з матеріального".data ||
  containsSub (pyLower name) "матеріального забезпечення".data

/-- One `extract_rank_and_name` branch: a search result to (rank, name). -/
def ranOfMatch (text : Str) (rm : RankMap) (m : RMatch) :
    Option Str × Option Str :=
  let rank_raw := pyStrip ((matchGroup text m 1).getD [])
  let name := pyStrip ((matchGroup text m 2).getD [])
  if ranBadName name then (none, none)
  else (some (rmGetD rm (pyLower rank_raw) rank_raw), some name)

/-- `military_personnel.extract_rank_and_name`. -/
def extract_rank_and_name (text : Str) (rm : RankMap) :
    Option Str × Option Str :=
  match reSearch ranDirectRE text with
  | some m =>
    let rank_raw := pyStrip ((matchGroup text m 1).getD [])
    let name := pyStrip ((matchGroup text m 2).getD [])
    (some (rmGetD rm (pyLower rank_raw) rank_raw), some name)
  | none =>
    match reSearch (ranMobRE rm) text with
    | some m => ranOfMatch text rm m
    | none =>
      match reSearch (ranStdMobRE rm) text with
      | some m => ranOfMatch text rm m
      | none =>
        match reSearch (ranStdRE rm) text with
        | some m => ranOfMatch text rm m
        | none =>
          match reSearch (ranBasicRE rm) text with
          | some m => ranOfMatch text rm m
          | none => (none, none)

/-- The class `[А-ЯA-Z]`. -/
def clsUpAny (c : Char) : Bool := isCyrBaseU c || isLatinU c

/-- `([А-ЯA-Z][-]?\d{4})` (group `i`). -/
def vchAnyG (i : Nat) : RE :=
  .grp i (RE.cat [ciCls clsUpAny, RE.opt (.ch '-'), .rep dC 4 (some 4) true])

/-- `військовослужбовц(?:ів|я)` (ci). -/
def vslzh1 : RE :=
  .seq (RE.strCI "військовослужбовц".data)
    (RE.alts [RE.strCI "ів".data, RE.strCI "я".data])

/-- `військовослужбовц[а-яіїєґ]*` (ci). -/
def vslzh2 : RE :=
  .seq (RE.strCI "військовослужбовц".data)
    (RE.star (ciCls (fun c => isCyrBaseL c || isUkrExtraL c)))

/-- `військової\s+частини\s+` (ci). -/
def vchPrefixWords : RE :=
  RE.cat [RE.strCI "військової".data, ws1, RE.strCI "частини".data, ws1]

/-- The default `SPECIAL_UNITS_PREFIXES` from the module's fallback
configuration. -/
def specialUnitsPrefixes : List Str :=
  ["національн".data, "військов".data, "медичн".data, "клінічн".data,
   "центр".data, "управлінн".data, "командуванн".data, "окрем".data,
   "механізован".data, "бригад".data, "батальйон".data, "полк".data,
   "дивізіон".data, "рот".data, "взвод".data, "груп".data, "збор".data,
   "підрозділ".data, "загон".data, "частин".data, "академі".data,
   "інститут".data, "училищ".data, "школ".data, "коледж".data,
   "госпітал".data, "пункт".data, "територіальн".data, "зональн".data,
   "відділ".data, "служб".data]

/-- The genitive rank list excluded from special-unit names. -/
def specialUnitRanks : List Str :=
  ["солдата".data, "старшого солдата".data, "сержанта".data,
   "старшого сержанта".data, "прапорщика".data, "лейтенанта".data,
   "капітана".data, "майора".data, "підполковника".data, "полковника".data]

/-- `(?!військової\s+частини\s+[А-ЯA-Z][-]?\d{4})`. -/
def notVchLook : RE :=
  .look true (RE.cat [vchPrefixWords, ciCls clsUpAny, RE.opt (.ch '-'),
    .rep dC 4 (some 4) true])

/-- The special-unit name core
`(\d*\s*(?:{prefixes})[а-яіїєґ'-]*(?:\s+[-а-яіїєґА-ЯІЇЄҐ'']+){0,10})`. -/
def specialUnitNameG : RE :=
  .grp 1 (RE.cat
    [RE.star dC, ws0,
     RE.alts (specialUnitsPrefixes.map (fun p => RE.strCI p)),
     RE.star (ciCls clsNameTail),
     .rep (.seq ws1 (RE.plus (ciCls (fun c =>
        c = '-' || isCyrBaseL c || isUkrExtraL c || isCyrBaseU c ||
        isUkrExtraU c || c = '\x27')))) 0 (some 10) true])

/-- `special_unit_pattern` (ci). -/
def specialUnitRE : RE :=
  RE.cat [vslzh2, ws1, notVchLook, specialUnitNameG,
    RE.alts
      [RE.cat [RE.alts [RE.cat [ws0, .ch ':', ws0],
                        RE.cat [.ch ',', ws0], ws1],
               RE.alts (specialUnitRanks.map (fun r => RE.strCI r))],
       RE.cat [ws0, .ch ':', ws0]]]

/-- `simple_special_unit_pattern` (ci). -/
def simpleSpecialUnitRE : RE :=
  RE.cat [vslzh2, ws1, notVchLook, specialUnitNameG, ws1,
          RE.strCI "у".data, ws1, RE.strCI "кількості".data]

/-- `military_personnel.extract_military_unit`. -/
def extract_military_unit (text : Str) : Option Str :=
  let g1up := fun (m : RMatch) => pyUpper (pyStrip ((matchGroup text m 1).getD []))
  match reSearch (RE.cat [vslzh1, ws1, vchPrefixWords, vchAnyG 1]) text with
  | some m => some (g1up m)
  | none =>
  match reSearch (RE.cat [RE.strCI "військов".data,
      RE.alts [RE.strCI "ої".data, RE.strCI "у".data], ws1,
      RE.strCI "частин".data,
      RE.alts [RE.strCI "и".data, RE.strCI "у".data], ws1, vchAnyG 1]) text with
  | some m => some (g1up m)
  | none =>
  match reSearch (RE.cat [vslzh2, ws1, vchPrefixWords, vchAnyG 1]) text with
  | some m => some (g1up m)
  | none =>
  match reSearch (RE.cat [RE.strCI "в/ч".data, ws1, vchAnyG 1]) text with
  | some m => some (g1up m)
  | none =>
  match reSearch (RE.cat
      [RE.alts [RE.strCI "з".data, RE.strCI "зі".data, RE.strCI "із".data],
       ws1, RE.opt (RE.alts [vchPrefixWords,
         RE.cat [RE.strCI "в/ч".data, ws1]]), vchAnyG 1]) text with
  | some m => some (g1up m)
  | none =>
  match reSearch specialUnitRE text with
  | some m => some (pyStrip ((matchGroup text m 1).getD []))
  | none =>
  match reSearch simpleSpecialUnitRE text with
  | some m => some (pyStrip ((matchGroup text m 1).getD []))
  | none => none

/-- One output row (`PersonnelRecord` of the spec). -/
structure PRecord where
  rank : Str
  name : Str
  name_normal : Str
  vch : Str
  location : Str
  os : Str
  date_k : Option Str
  meal : Option Str
  cause : Str
  action : Option Str
deriving DecidableEq, Repr

/-- `military_personnel.create_personnel_record` (the `action` key is not
set at creation). -/
def create_personnel_record (rank name : Str) (vch : Option Str)
    (location : Str) (os_type : Str) (date_k : Option Str)
    (meal : Option Str) (cause : Str) : PRecord :=
  let effective_vch : Str :=
    match vch with
    | some v =>
      if v ≠ [] &&
          !(pyLower v = "невідомо".data || pyLower v = "не визначено".data)
      then v else "А1890".data
    | none => "А1890".data
  { rank := rank, name := name, name_normal := [], vch := effective_vch,
    location := location, os := os_type, date_k := date_k, meal := meal,
    cause := cause, action := none }

/-- Stored dedup metadata for one person id. -/
structure PPInfo where
  action : Option Str
  date : Option Str
deriving DecidableEq, Repr

/-- The dict shape of `processed_persons`. -/
abbrev PPDict := List (Str × PPInfo)

/-- The dynamic shape of `processed_persons`: a plain set of ids or a
dict with per-id metadata. -/
inductive PP where
  | set (s : List Str)
  | dict (m : PPDict)
deriving DecidableEq, Repr

/-- `d[k] = v` for the dict shape (insertion order preserved). -/
def dictSet (m : PPDict) (k : Str) (v : PPInfo) : PPDict :=
  if m.any (fun kv => kv.1 = k) then
    m.map (fun kv => if kv.1 = k then (k, v) else kv)
  else m ++ [(k, v)]

/-- `military_personnel.is_person_duplicate`. -/
def is_person_duplicate (person_id : Str) (pp : PP) (action : Option Str)
    (date : Option Str) : Bool :=
  match pp with
  | .set s => s.contains (pyLower person_id)
  | .dict m =>
    match m.find? (fun kv => kv.1 = pyLower person_id) with
    | none => false
    | some kv =>
      match action with
      | none => true
      | some a =>
        match kv.2.action with
        | none => false
        | some ia =>
          if ia ≠ a then false
          else
            match date, kv.2.date with
            | some d, some idd => if idd ≠ d then false else true
            | _, _ => true

/-- `military_personnel.determine_personnel_type`. -/
def determine_personnel_type (text : Str) : Str :=
  if text = [] then "Постійний склад".data
  else if containsSub (pyLower text) "курсант".data then "Курсант".data
  else "Постійний склад".data

/-! ### `processors/transfer_processor.py` -/

/-- Python runtime errors the embedding can surface. -/
inductive PyErr where
  | unboundLocal
  | attrError
deriving DecidableEq, Repr

/-- `f"{x}"` for an optional string (Python prints `None`). -/
def optIdStr (o : Option Str) : Str := o.getD "None".data

/-- Set `name_normal` on every record with a non-empty name, using the
external name-conversion collaborator `pfn` (falling back to the original
name when it fails). -/
def normalizeNames (pfn : Str → Option Str) (rs : List PRecord) :
    List PRecord :=
  rs.map (fun r =>
    if r.name ≠ [] then { r with name_normal := (pfn r.name).getD r.name }
    else r)

/-- `^\d+\.\d+\.\d+` (searched: the anchor restricts it to the start). -/
def transferHeaderRE : RE :=
  RE.cat [.anchor .bos, RE.plus dC, .ch '.', RE.plus dC, .ch '.', RE.plus dC]

/-- `до\s+(\d+)\s+навчального\s+батальйону` (case-sensitive). -/
def destNbRE : RE :=
  RE.cat [RE.str "до".data, ws1, .grp 1 (RE.plus dC), ws1,
          RE.str "навчального".data, ws1, RE.str "батальйону".data]

/-- `[Вв]иключити\s+з\s+котлового\s+забезпечення`. -/
def hasExclRE : RE :=
  RE.cat [.cls (fun c => c = 'В' || c = 'в'), RE.str "иключити".data, ws1,
          RE.str "з".data, ws1, RE.str "котлового".data, ws1,
          RE.str "забезпечення".data]

/-- `[Зз]арахувати\s+на\s+котлове\s+забезпечення`. -/
def hasEnrolRE : RE :=
  RE.cat [.cls (fun c => c = 'З' || c = 'з'), RE.str "арахувати".data, ws1,
          RE.str "на".data, ws1, RE.str "котлове".data, ws1,
          RE.str "забезпечення".data]

/-- `(\d+)\s+навчального\s+батальйону` (case-sensitive). -/
def specialLocRE : RE :=
  RE.cat [.grp 1 (RE.plus dC), ws1, RE.str "навчального".data, ws1,
          RE.str "батальйону".data]

/-- `(?:''|\")(\d{1,2})(?:''|\")\s+([а-яіїєґ]+)\s+(\d{4})`. -/
def anyDateRE : RE :=
  RE.cat [RE.alts [RE.str "\x27\x27".data, .ch '"'],
          .grp 1 (.rep dC 1 (some 2) true),
          RE.alts [RE.str "\x27\x27".data, .ch '"'], ws1,
          .grp 2 (RE.plus (.cls (fun c => isCyrBaseL c || isUkrExtraL c))),
          ws1, .grp 3 (.rep dC 4 (some 4) true)]

/-- `(зі|з)\s+([а-яіїєґ]+)`. -/
def specialMealRE : RE :=
  RE.cat [.grp 1 (RE.alts [RE.str "зі".data, RE.str "з".data]), ws1,
          .grp 2 (RE.plus (.cls (fun c => isCyrBaseL c || isUkrExtraL c)))]

/-- `^\d+\.\s+([AА]\d+)\s+([а-яіїєґ\s]+)\s+([А-ЯІЇЄҐ]+\s+[А-ЯІЇЄҐа-яіїєґ]+\s+[А-ЯІЇЄҐа-яіїєґ]+)`
(used with `re.match`; `[AА]` holds Latin A and Cyrillic А). -/
def specialPersonnelRE : RE :=
  RE.cat [RE.plus dC, .ch '.', ws1,
          .grp 1 (.seq (.cls (fun c => c = 'A' || c.toNat = 0x410))
                       (RE.plus dC)), ws1,
          .grp 2 (RE.plus (.cls (fun c =>
            isCyrBaseL c || isUkrExtraL c || isPySpace c))), ws1,
          .grp 3 (RE.cat
            [RE.plus (.cls clsUkrU), ws1,
             RE.plus (.cls (fun c => clsUkrU c || isCyrBaseL c || isUkrExtraL c)),
             ws1,
             RE.plus (.cls (fun c => clsUkrU c || isCyrBaseL c || isUkrExtraL c))])]

/-- The `(з|зі)\s+(word)` meal sub-part of the full exclusion/enrollment
patterns (groups are renumbered by the caller). -/
def transferMealPart (g : Nat) : RE :=
  RE.cat [.grp g (RE.alts [RE.str "з".data, RE.str "зі".data]), ws1,
          .grp (g + 1) (RE.plus (.cls (fun c => isCyrBaseL c || isUkrExtraL c)))]

/-- `(?:\'\'|\"?)` — two apostrophes, or one optional double quote. -/
def quoteOptRE : RE := RE.alts [RE.str "\x27\x27".data, RE.opt (.ch '"')]

/-- The date tail `(?:\'\'|\"?)(\d{1,2})(?:\'\'|\"?)\s+([а-яіїєґ]+)\s+(\d{4})`
with group numbering starting at `g`. -/
def transferDatePart (g : Nat) : RE :=
  RE.cat [quoteOptRE, .grp g (.rep dC 1 (some 2) true), quoteOptRE, ws1,
          .grp (g + 1) (RE.plus (.cls (fun c => isCyrBaseL c || isUkrExtraL c))),
          ws1, .grp (g + 2) (.rep dC 4 (some 4) true)]

/-- The full exclusion pattern of the general transfer path. -/
def exclFullRE : RE :=
  RE.cat [hasExclRE, RE.lazyStar dotC, .grp 1 (RE.plus dC), ws1,
          RE.str "навчального".data, ws1, RE.str "батальйону".data,
          RE.lazyStar dotC, transferMealPart 2, ws1, transferDatePart 4]

/-- The full enrollment pattern of the general transfer path. -/
def enrolFullRE : RE :=
  RE.cat [hasEnrolRE, RE.lazyStar dotC, .grp 1 (RE.plus dC), ws1,
          RE.str "навчального".data, ws1, RE.str "батальйону".data,
          RE.lazyStar dotC, transferMealPart 2, ws1, transferDatePart 4]

/-- `виключити\s+з\s+котлового\s+забезпечення[^,]*?(\d+)\s*навчального\s+батальйону`
(IGNORECASE). -/
def altLocRE : RE :=
  RE.cat [RE.strCI "виключити".data, ws1, RE.strCI "з".data, ws1,
          RE.strCI "котлового".data, ws1, RE.strCI "забезпечення".data,
          .rep (.cls (fun c => c ≠ ',')) 0 none false,
          .grp 1 (RE.plus dC), ws0, RE.strCI "навчального".data, ws1,
          RE.strCI "батальйону".data]

/-- `військової\s+частини\s+([АA]\d+)` (case-sensitive). -/
def transferVchRE : RE :=
  RE.cat [RE.str "військової".data, ws1, RE.str "частини".data, ws1,
          .grp 1 (.seq (.cls (fun c => c.toNat = 0x410 || c = 'A'))
                       (RE.plus dC))]

/-- State while processing the special-format personnel lines. -/
structure SpecialSt where
  results : List PRecord
  ppd : PPDict
  found : Bool
  tf : Option Nat

/-- Process one line of a special-format personnel paragraph.  An error
carries the dedup dict as mutated up to the failing statement (in the
source, `results.append` and the `processed_persons[...] = ...` item
assignment complete before the unbound `total_found += 1` raises). -/
def transferSpecialLine (exclusion_loc enrollment_loc : Str)
    (exclusion_date enrollment_date : Option Str)
    (exclusion_meal enrollment_meal : Str) (allParas : List Str)
    (st : SpecialSt) (line : Str) : Except (PyErr × PPDict) SpecialSt := do
  match reMatch specialPersonnelRE line with
  | none => return st
  | some m =>
    let vch := (matchGroup line m 1).getD []
    let rank := pyStrip ((matchGroup line m 2).getD [])
    let name := pyStrip ((matchGroup line m 3).getD [])
    let os_type := determine_personnel_type (joinCh ' ' allParas)
    let id_ex := rank ++ '_' :: name ++ "_exclusion_".data ++ optIdStr exclusion_date
    let id_en := rank ++ '_' :: name ++ "_enrollment_".data ++ optIdStr enrollment_date
    let st := { st with found := true }
    let st ←
      if !(is_person_duplicate id_ex (.dict st.ppd) (some "виключити".data)
          exclusion_date) then do
        let r0 := create_personnel_record rank name (some vch) exclusion_loc
          os_type exclusion_date (some exclusion_meal) "Переміщення".data
        let r1 := { r0 with action := some "виключити".data }
        let st1 := { st with
          results := st.results ++ [r1],
          ppd := dictSet st.ppd (pyLower id_ex)
            ⟨some "виключити".data, exclusion_date⟩ }
        match st.tf with
        | none => throw (.unboundLocal, st1.ppd)
        | some n => pure { st1 with tf := some (n + 1) }
      else pure st
    if !(is_person_duplicate id_en (.dict st.ppd) (some "зарахувати".data)
        enrollment_date) then do
      let r0 := create_personnel_record rank name (some vch) enrollment_loc
        os_type enrollment_date (some enrollment_meal) "Переміщення".data
      let r1 := { r0 with action := some "зарахувати".data }
      let st1 := { st with
        results := st.results ++ [r1],
        ppd := dictSet st.ppd (pyLower id_en)
          ⟨some "зарахувати".data, enrollment_date⟩ }
      match st.tf with
      | none => throw (.unboundLocal, st1.ppd)
      | some n => return { st1 with tf := some (n + 1) }
    else return st

/-- The special-format branch of `process_transfer_records`; `none` means
the branch did not fire (`special_format_found` stayed false).  The final
`match st.tf` models the reference to `total_found` in the summary
`print` that runs before the branch returns. -/
def transferSpecial (pfn : Str → Option Str) (today : Str)
    (paragraphs : List Str) (ppd : PPDict) :
    Except (PyErr × PPDict) (Option (List PRecord × PPDict)) := do
  let p0 := paragraphs.getD 0 []
  let p1 := paragraphs.getD 1 []
  let exclusion_loc := ((reSearch specialLocRE p0).map (fun m =>
    ((matchGroup p0 m 1).getD []) ++ " НБ".data)).getD "ППД".data
  let exclusion_dateKey : Option (Option Str) :=
    (reSearch anyDateRE p0).map (fun m =>
      parse_date (((matchGroup p0 m 1).getD []) ++ ' ' ::
        ((matchGroup p0 m 2).getD []) ++ ' ' :: ((matchGroup p0 m 3).getD [])))
  let exclusion_date : Option Str :=
    match exclusion_dateKey with
    | some v => v
    | none => some today
  let exclusion_meal := ((reSearch specialMealRE p0).map (fun m =>
    ((matchGroup p0 m 1).getD []) ++ ' ' ::
      ((matchGroup p0 m 2).getD []))).getD "зі сніданку".data
  let enrollment_loc := ((reSearch specialLocRE p1).map (fun m =>
    ((matchGroup p1 m 1).getD []) ++ " НБ".data)).getD "ППД".data
  let enrollment_dateKey : Option (Option Str) :=
    (reSearch anyDateRE p1).map (fun m =>
      parse_date (((matchGroup p1 m 1).getD []) ++ ' ' ::
        ((matchGroup p1 m 2).getD []) ++ ' ' :: ((matchGroup p1 m 3).getD [])))
  let enrollment_date : Option Str :=
    match enrollment_dateKey with
    | some v => v
    | none => exclusion_date
  let enrollment_meal := ((reSearch specialMealRE p1).map (fun m =>
    ((matchGroup p1 m 1).getD []) ++ ' ' ::
      ((matchGroup p1 m 2).getD []))).getD exclusion_meal
  let midParas := (paragraphs.drop 2).dropLast
  let st ← midParas.foldlM (fun (st : SpecialSt) para =>
    (splitCh '\n' (pyStrip para)).foldlM
      (transferSpecialLine exclusion_loc enrollment_loc exclusion_date
        enrollment_date exclusion_meal enrollment_meal paragraphs) st)
    ⟨[], ppd, false, none⟩
  if st.found then
    match st.tf with
    | none => throw (.unboundLocal, st.ppd)
    | some _ => return some (normalizeNames pfn st.results, st.ppd)
  else return none

/-- Loop-carried state of the general transfer path. -/
structure TransferSt where
  results : List PRecord
  ppd : PPDict
  destination_location : Option Str
  total_found : Nat

/-- Process one paragraph of the general transfer path. -/
def transferParagraph (today : Str) (rm : RankMap) (st : TransferSt)
    (paragraph : Str) : TransferSt :=
  let mp := extract_military_personnel paragraph rm
  let persons : List (Str × Str) :=
    if mp = [] then
      match extract_rank_and_name paragraph rm with
      | (some r, some n) => if r ≠ [] && n ≠ [] then [(r, n)] else []
      | _ => []
    else mp.map (fun p => (p.rank, p.name))
  if persons = [] then st
  else
    let cause := "Переміщення".data
    let excl := reSearch exclFullRE paragraph
    let (source_location0, exclusion_meal0, exclusion_date0) :
        Option Str × Option Str × Option Str :=
      match excl with
      | some m =>
        (some (((matchGroup paragraph m 1).getD []) ++ " НБ".data),
         some (((matchGroup paragraph m 2).getD []) ++ ' ' ::
           ((matchGroup paragraph m 3).getD [])),
         parse_date (((matchGroup paragraph m 4).getD []) ++ ' ' ::
           ((matchGroup paragraph m 5).getD []) ++ ' ' ::
           ((matchGroup paragraph m 6).getD [])))
      | none =>
        ((reSearch altLocRE paragraph).map (fun m =>
          ((matchGroup paragraph m 1).getD []) ++ " НБ".data), none, none)
    let enrol := reSearch enrolFullRE paragraph
    let dest1 : Option Str :=
      match st.destination_location, enrol with
      | none, some m =>
        some (((matchGroup paragraph m 1).getD []) ++ " НБ".data)
      | d, _ => d
    let (enrollment_meal0, enrollment_date0) : Option Str × Option Str :=
      match enrol with
      | some m =>
        (some (((matchGroup paragraph m 2).getD []) ++ ' ' ::
           ((matchGroup paragraph m 3).getD [])),
         parse_date (((matchGroup paragraph m 4).getD []) ++ ' ' ::
           ((matchGroup paragraph m 5).getD []) ++ ' ' ::
           ((matchGroup paragraph m 6).getD [])))
      | none => (none, none)
    let dest2 : Option Str :=
      match dest1 with
      | none => (reSearch destNbRE paragraph).map (fun m =>
          ((matchGroup paragraph m 1).getD []) ++ " НБ".data)
      | d => d
    let source_location := source_location0.getD "ППД".data
    let dest3 : Option Str := some (dest2.getD "ППД".data)
    let exclusion_meal := exclusion_meal0.getD "зі сніданку".data
    let enrollment_meal := enrollment_meal0.getD exclusion_meal
    let exclusion_date : Option Str :=
      match exclusion_date0 with
      | some d => some d
      | none =>
        match reSearch anyDateRE paragraph with
        | some m =>
          parse_date (((matchGroup paragraph m 1).getD []) ++ ' ' ::
            ((matchGroup paragraph m 2).getD []) ++ ' ' ::
            ((matchGroup paragraph m 3).getD []))
        | none => some today
    let enrollment_date : Option Str :=
      match enrollment_date0 with
      | some d => some d
      | none => exclusion_date
    let vch := ((reSearch transferVchRE paragraph).map (fun m =>
      (matchGroup paragraph m 1).getD [])).getD "А1890".data
    persons.foldl (fun (st : TransferSt) rn =>
      let (rank, name) := rn
      let os_type := determine_personnel_type paragraph
      let id_ex := rank ++ '_' :: name ++ "_exclusion_".data ++
        optIdStr exclusion_date
      let id_en := rank ++ '_' :: name ++ "_enrollment_".data ++
        optIdStr enrollment_date
      let st :=
        if is_person_duplicate id_ex (.dict st.ppd) (some "виключити".data)
            exclusion_date then st
        else
          let r0 := create_personnel_record rank name (some vch)
            source_location os_type exclusion_date (some exclusion_meal) cause
          let r1 := { r0 with action := some "виключити".data }
          { st with
            results := st.results ++ [r1],
            ppd := dictSet st.ppd (pyLower id_ex)
              ⟨some "виключити".data, exclusion_date⟩,
            total_found := st.total_found + 1 }
      if is_person_duplicate id_en (.dict st.ppd) (some "зарахувати".data)
          enrollment_date then st
      else
        let r0 := create_personnel_record rank name (some vch)
          (dest3.getD "ППД".data) os_type enrollment_date
          (some enrollment_meal) cause
        let r1 := { r0 with action := some "зарахувати".data }
        { st with
          results := st.results ++ [r1],
          ppd := dictSet st.ppd (pyLower id_en)
            ⟨some "зарахувати".data, enrollment_date⟩,
          total_found := st.total_found + 1 })
      { st with destination_location := dest3 }

/-- `transfer_processor.process_transfer_records`.  `pfn` is the external
name-conversion collaborator, `today` the ambient `datetime.now()` date
string.  The `PP` in either outcome is the state of the caller's dedup
object: a `set` comes back unchanged (the processor replaces it by a
fresh local dict), a `dict` comes back mutated — also when the special
branch raises, since the item assignments preceding the raise act on the
caller's aliased dict. -/
def process_transfer_records (pfn : Str → Option Str) (today : Str)
    (section_text : Str) (rm : RankMap) (lt : LocTriggers)
    (pp? : Option PP) : Except (PyErr × PP) (List PRecord × PP) := do
  let _ := lt
  let ppd : PPDict :=
    match pp? with
    | none => []
    | some (.dict m) => m
    | some (.set s) => s.map (fun p => (p, ⟨none, none⟩))
  let wrap : PPDict → PP := fun final =>
    match pp? with
    | some (.set s) => .set s
    | _ => .dict final
  let paragraphs0 := ((splitSub "\n\n".data section_text).map pyStrip).filter
    (fun p => p ≠ [])
  let (header?, paragraphs) :=
    match paragraphs0 with
    | p0 :: rest =>
      if (reSearch transferHeaderRE p0).isSome then (some p0, rest)
      else (none, paragraphs0)
    | [] => (none, paragraphs0)
  let destination_location0 : Option Str :=
    header?.bind (fun h => (reSearch destNbRE h).map (fun m =>
      ((matchGroup h m 1).getD []) ++ " НБ".data))
  let special ←
    match paragraphs with
    | p0 :: p1 :: _ :: _ =>
      if (reSearch hasExclRE p0).isSome && (reSearch hasEnrolRE p1).isSome then
        match transferSpecial pfn today paragraphs ppd with
        | .error (e, ppd') => throw (e, wrap ppd')
        | .ok v => pure v
      else pure none
    | _ => pure none
  match special with
  | some (res, ppd') => return (res, wrap ppd')
  | none =>
    let st := paragraphs.foldl (transferParagraph today rm)
      ⟨[], ppd, destination_location0, 0⟩
    return (normalizeNames pfn st.results, wrap st.ppd)

/-! ### `processors/szch_processor.py` -/

/-- The keyword list of `process_szch_section`. -/
def szchKeywords : List Str :=
  ["самовільним залишенням".data,
   "виключити з усіх видів забезпечення".data,
   "самовільним залишенням частини".data,
   "самовільним залишенням лікувального закладу".data]

/-- The class `[А-ЯІЇЄa-яіїє\s]` of the СЗЧ point patterns (note the
`a-я` range runs from Latin `a` (U+0061) up to Cyrillic `я` (U+044F)). -/
def clsSzchRank (c : Char) : Bool :=
  (0x410 ≤ c.toNat && c.toNat ≤ 0x42f) ||
  c.toNat = 0x406 || c.toNat = 0x407 || c.toNat = 0x404 ||
  (0x61 ≤ c.toNat && c.toNat ≤ 0x44f) ||
  c.toNat = 0x456 || c.toNat = 0x457 || c.toNat = 0x454 || isPySpace c

/-- The class `[А-ЯІЇЄ]` (no Ґ). -/
def clsCapNoG (c : Char) : Bool :=
  (0x410 ≤ c.toNat && c.toNat ≤ 0x42f) ||
  c.toNat = 0x406 || c.toNat = 0x407 || c.toNat = 0x404

/-- The class `[а-яіїє]` (no ґ). -/
def clsLowNoG (c : Char) : Bool :=
  (0x430 ≤ c.toNat && c.toNat ≤ 0x44f) ||
  c.toNat = 0x456 || c.toNat = 0x457 || c.toNat = 0x454

/-- The class `[А-ЯІЇЄа-яіїє']`. -/
def clsAnyAposNoG (c : Char) : Bool :=
  clsCapNoG c || clsLowNoG c || c = '\x27'

/-- The class `[А-ЯІЇЄа-яіїє]`. -/
def clsAnyNoG (c : Char) : Bool := clsCapNoG c || clsLowNoG c

/-- The main СЗЧ point pattern (case-sensitive, lazy rank text). -/
def szchPointRE : RE :=
  RE.cat [.grp 1 (RE.plus dC), .ch '.', ws1,
          .grp 2 (.rep (.cls clsSzchRank) 1 none false), ws1,
          .grp 3 (RE.cat [.cls clsCapNoG, RE.star (.cls clsAnyAposNoG),
            .rep (RE.cat [ws1, .cls clsAnyNoG,
              RE.star (.cls clsAnyAposNoG)]) 1 (some 2) true])]

/-- The alternative СЗЧ point pattern (all-caps surname). -/
def szchAltPointRE : RE :=
  RE.cat [.grp 1 (RE.plus dC), .ch '.', ws1,
          .grp 2 (.rep (.cls clsSzchRank) 1 none false), ws1,
          .grp 3 (RE.plus (.cls clsCapNoG)), ws1,
          .grp 4 (RE.cat [.cls clsCapNoG,
            RE.plus (.cls (fun c => clsLowNoG c || c = '\x27')), ws1,
            .cls clsCapNoG,
            RE.plus (.cls (fun c => clsLowNoG c || c = '\x27'))])]

/-- `\n\s*\d+\.\s+` — the next-point boundary inside
`process_szch_section`. -/
def szchNextPointRE : RE :=
  RE.cat [.ch '\n', ws0, RE.plus dC, .ch '.', ws1]

/-- `(?:'|\")` -/
def oneQuoteRE : RE := .cls (fun c => c = '\x27' || c = '"')

/-- The five departure-date patterns of `process_szch_section`
(case-sensitive; the quoted forms contain a literal space after the
closing quote). -/
def szchDatePatterns : List (RE × Bool) :=
  [(RE.cat [RE.str "з".data, ws1, oneQuoteRE, .grp 1 (.rep dC 1 (some 2) true),
      oneQuoteRE, .ch ' ', ws0, .grp 2 (RE.plus wC), ws1,
      .grp 3 (.rep dC 4 (some 4) true), ws1, RE.str "року".data], false),
   (RE.cat [oneQuoteRE, .grp 1 (.rep dC 1 (some 2) true), oneQuoteRE,
      .ch ' ', ws0, .grp 2 (RE.plus wC), ws1,
      .grp 3 (.rep dC 4 (some 4) true)], false),
   (RE.cat [.grp 1 (.rep dC 1 (some 2) true), ws1, .grp 2 (RE.plus wC), ws1,
      .grp 3 (.rep dC 4 (some 4) true), ws1, RE.str "року".data], false),
   (RE.cat [RE.str "з".data, ws1, .grp 1 (.rep dC 1 (some 2) true), ws1,
      .grp 2 (RE.plus wC), ws1, .grp 3 (.rep dC 4 (some 4) true)], false),
   (RE.cat [.grp 1 (.rep dC 1 (some 2) true), .ch '.',
      .grp 2 (.rep dC 1 (some 2) true), .ch '.',
      .grp 3 (.rep dC 4 (some 4) true)], true)]

/-- Days per month with the Gregorian leap rule (`datetime` validation). -/
def daysInMonth (y m : Nat) : Nat :=
  if m = 2 then
    if y % 4 = 0 && (y % 100 ≠ 0 || y % 400 = 0) then 29 else 28
  else if m = 4 || m = 6 || m = 9 || m = 11 then 30
  else 31

/-- `datetime(year, month, day).strftime("%d.%m.%Y")` with validity check. -/
def datetimeFmt (y m d : Nat) : Option Str :=
  if 1 ≤ y && y ≤ 9999 && 1 ≤ m && m ≤ 12 && 1 ≤ d && d ≤ daysInMonth y m then
    some (zfill2 (Nat.toDigits 10 d) ++ '.' ::
      zfill2 (Nat.toDigits 10 m) ++ '.' ::
      Nat.toDigits 10 y)
  else none

/-- `самовільно залишив.*?(\d{1,2})[\s\.]+(\w+)[\s\.]+(\d{4})`
(IGNORECASE, DOTALL). -/
def szchComplexDateRE : RE :=
  RE.cat [RE.strCI "самовільно залишив".data, RE.lazyStar dotAll,
          .grp 1 (.rep dC 1 (some 2) true),
          RE.plus (.cls (fun c => isPySpace c || c = '.')),
          .grp 2 (RE.plus wC),
          RE.plus (.cls (fun c => isPySpace c || c = '.')),
          .grp 3 (.rep dC 4 (some 4) true)]

/-- `(\d+)\s*навчальн(?:ого|ий)\s*батальйон` (IGNORECASE). -/
def szchNbRE : RE :=
  RE.cat [.grp 1 (RE.plus dC), ws0, RE.strCI "навчальн".data,
          RE.alts [RE.strCI "ого".data, RE.strCI "ий".data], ws0,
          RE.strCI "батальйон".data]

/-- Extract the departure date of one СЗЧ point. -/
def szchDepartureDate (point_text : Str) : Option Str :=
  let fromPatterns := szchDatePatterns.findSome? (fun pr =>
    match reSearch pr.1 point_text with
    | none => none
    | some m =>
      let g := fun i => (matchGroup point_text m i).getD []
      if pr.2 then datetimeFmt (strToNat (g 3)) (strToNat (g 2)) (strToNat (g 1))
      else parse_date (g 1 ++ ' ' :: g 2 ++ ' ' :: g 3))
  match fromPatterns with
  | some d => some d
  | none =>
    (reSearch szchComplexDateRE point_text).bind (fun m =>
      parse_date (((matchGroup point_text m 1).getD []) ++ ' ' ::
        ((matchGroup point_text m 2).getD []) ++ ' ' ::
        ((matchGroup point_text m 3).getD [])))

/-- One parsed СЗЧ point: number, rank text, name, start position. -/
structure SzchPoint where
  rank_text : Str
  name_start : Str
  pstart : Nat

/-- The end of an СЗЧ point: next numbered point, or an end marker, or the
end of the text. -/
def szchPointEnd (text : Str) (point_start : Nat) : Str :=
  match reSearch szchNextPointRE (sliceFrom text (point_start + 1)) with
  | some nm => sliceStr text point_start (point_start + 1 + nm.mstart)
  | none =>
    let cands := (["Підстава:".data, "\nПідстава:".data]).filterMap
      (fun mk => (findSub (sliceFrom text (point_start + 1)) mk).map
        (fun p => p + point_start + 1))
    match cands with
    | [] => sliceFrom text point_start
    | c :: cs =>
      let e := cs.foldl min c
      if e ≠ 0 then sliceStr text point_start e else sliceFrom text point_start

/-- `process_szch_section`: handle the extracted persons of one point. -/
def szchPersonRecords (point_text : Str)
    (persons : List Person) (pp : PP) :
    Except PyErr (List PRecord × PP) := do
  persons.foldlM (fun (acc : List PRecord × PP) person => do
    let person_id := person.rank ++ '_' :: person.name
    let isMember :=
      match acc.2 with
      | .set s => s.contains person_id
      | .dict m => m.any (fun kv => kv.1 = person_id)
    if isMember then
      return acc
    else do
      let pp' ← match acc.2 with
        | .set s => pure (PP.set (s ++ [person_id]))
        | .dict _ => throw PyErr.attrError
      let military_unit := extract_military_unit point_text
      let departure_date := szchDepartureDate point_text
      let (meal_info, meal_date) := extract_meal_info point_text none
      let personnel_status :=
        if containsSub (pyLower point_text) "курсант".data
        then "Курсант".data else "Постійний склад".data
      let location := ((reSearch szchNbRE point_text).map (fun m =>
        ((matchGroup point_text m 1).getD []) ++ " НБ".data)).getD "ППД".data
      let effective_date :=
        match meal_date with
        | some d => some d
        | none => departure_date
      let record : PRecord :=
        { rank := person.rank, name := person.name, name_normal := [],
          vch := military_unit.getD "A1890".data, location := location,
          os := personnel_status, date_k := effective_date,
          meal := some (meal_info.getD "зі сніданку".data),
          cause := "СЗЧ".data, action := some "виключити".data }
      return (acc.1 ++ [record], pp')) ([], pp)

/-- `szch_processor.process_szch_section`. -/
def process_szch_section (text : Str) (rm : RankMap)
    (pp? : Option PP) : Except PyErr (List PRecord × PP) := do
  let pp := pp?.getD (.set [])
  if (pyStrip text).length < 10 then return ([], pp)
  else if !(szchKeywords.any (fun k => containsSub (pyLower text) k)) then
    return ([], pp)
  else
    let ms := reFinditer szchPointRE text
    let points : List SzchPoint :=
      if !ms.isEmpty then
        ms.map (fun m =>
          { rank_text := pyStrip ((matchGroup text m 2).getD []),
            name_start := (matchGroup text m 3).getD [],
            pstart := m.mstart })
      else
        (reFinditer szchAltPointRE text).map (fun m =>
          { rank_text := pyStrip ((matchGroup text m 2).getD []),
            name_start := ((matchGroup text m 3).getD []) ++ ' ' ::
              ((matchGroup text m 4).getD []),
            pstart := m.mstart })
    points.foldlM (fun (acc : List PRecord × PP) pt => do
      let point_text := szchPointEnd text pt.pstart
      if !(szchKeywords.any (fun k =>
          containsSub (pyLower point_text) k)) then
        return acc
      else
        let combined_text := pt.rank_text ++ ' ' :: pt.name_start ++
          '.' :: ' ' :: point_text
        let personnel_info := extract_military_personnel combined_text rm
        if personnel_info = [] then return acc
        else do
          let (recs, pp') ← szchPersonRecords point_text personnel_info acc.2
          return (acc.1 ++ recs, pp')) (([] : List PRecord), pp)

/-- The extended keyword list of `find_szch_sections`. -/
def szchKeys : List Str :=
  ["самовільним залишенням частини".data,
   "самовільним залишенням лікувального закладу".data,
   "самовільне залишення".data,
   "самовільно залишив".data,
   "самовільно залишивши".data,
   "залишенням частини".data,
   "залишенням лікувального".data,
   "виключити з усіх видів забезпечення".data,
   "виключити з котлового забезпечення".data,
   "виключити зі всіх видів забезпечення".data,
   "виключити з забезпечення".data,
   "у зв\x27язку з самовільним".data,
   "вважати таким, що самовільно залишив".data]

/-- `(\d+)\.\s+` -/
def szchNumberedRE : RE := RE.cat [.grp 1 (RE.plus dC), .ch '.', ws1]

/-- `виключити.{1,50}забезпеч` (on lowered text). -/
def szchExclRE : RE :=
  RE.cat [RE.str "виключити".data, .rep dotC 1 (some 50) true,
          RE.str "забезпеч".data]

/-- `самовільн.{1,30}залиш` (on lowered text). -/
def szchSamovRE : RE :=
  RE.cat [RE.str "самовільн".data, .rep dotC 1 (some 30) true,
          RE.str "залиш".data]

/-- `з\s+(?:котлового|усіх|всіх).{1,20}забезпечення` (on lowered text). -/
def szchZabezpRE : RE :=
  RE.cat [RE.str "з".data, ws1,
          RE.alts [RE.str "котлового".data, RE.str "усіх".data,
                   RE.str "всіх".data],
          .rep dotC 1 (some 20) true, RE.str "забезпечення".data]

/-- The three general СЗЧ patterns (IGNORECASE). -/
def szchGeneralPatterns : List RE :=
  [RE.cat [RE.strCI "виключити".data, ws1, RE.strCI "з".data, ws1,
     RE.alts [RE.strCI "усіх".data, RE.strCI "всіх".data,
              RE.strCI "котлового".data], ws1, RE.strCI "видів".data, ws1,
     RE.strCI "забезпечення".data],
   RE.cat [RE.strCI "самовільн".data,
     RE.plus (ciCls (fun c => isCyrBaseL c || isUkrExtraL c)), ws1,
     RE.strCI "залиш".data,
     RE.plus (ciCls (fun c => isCyrBaseL c || isUkrExtraL c))],
   RE.cat [RE.strCI "у".data, ws1, RE.strCI "зв\x27язку".data, ws1,
     RE.strCI "з".data, ws1, RE.strCI "самовільн".data,
     RE.plus (ciCls (fun c => isCyrBaseL c || isUkrExtraL c))]]

/-- Does a numbered point in `find_szch_sections` qualify as СЗЧ? -/
def szchPointQualifies (rm : RankMap) (point_text : Str) : Bool :=
  let lower := pyLower point_text
  szchKeys.any (fun k => containsSub lower k) ||
  (reSearch szchExclRE lower).isSome ||
  (reSearch szchSamovRE lower).isSome ||
  (containsSub point_text "за призовом".data &&
    (containsSub lower "самовільн".data ||
     containsSub lower "виключити".data ||
     containsSub lower "залишенн".data)) ||
  (rm.any (fun kv => containsSub lower (pyLower kv.1)) &&
    ((reSearch szchZabezpRE lower).isSome ||
     (containsSub lower "виключити".data &&
      containsSub lower "забезпечення".data)))

/-- The accumulating state of `find_szch_sections`. -/
structure SzchFind where
  sections : List (Str × Str × Nat)
  added : List Nat

/-- Phase 1 of `find_szch_sections`: numbered points.
(The wall-clock budget of the source is modelled as never expiring.) -/
def szchFindNumbered (rm : RankMap) (search_text : Str) : SzchFind :=
  (reFinditer szchNumberedRE search_text).foldl (fun st pm =>
    let point_start := pm.mstart
    if st.added.contains point_start then st
    else
      let point_end :=
        match reSearch szchNumberedRE
            (sliceStr search_text pm.mend (point_start + 2500)) with
        | some nm => pm.mend + nm.mstart
        | none => min (point_start + 2000) search_text.length
      let point_text := sliceStr search_text point_start point_end
      if szchPointQualifies rm point_text then
        { sections := st.sections ++ [("СЗЧ".data, point_text, point_start)],
          added := st.added ++ [point_start] }
      else st) ⟨[], []⟩

/-- Phase 2 of `find_szch_sections`: thorough keyword search (only when
phase 1 found nothing). -/
def szchFindByKeywords (rm : RankMap) (search_text : Str) (st0 : SzchFind) :
    SzchFind :=
  szchKeys.foldl (fun st key =>
    ((reFinditer (RE.strCI key) search_text).map (fun m => m.mstart)).foldl
      (fun st ms =>
      if st.added.any (fun pos => pos < ms + 50 && ms < pos + 50) then st
      else
        let context_start := ms - 500
        let context_end := min search_text.length (ms + 1500)
        let context_before := sliceStr search_text context_start ms
        let (section_start, section_end) :=
          match reSearch szchNumberedRE context_before with
          | some pm =>
            (context_start + pm.mstart,
             match reSearch (RE.cat [RE.plus dC, .ch '.', ws1])
                 (sliceStr search_text ms context_end) with
             | some nm => ms + nm.mstart
             | none => context_end)
          | none => (context_start, context_end)
        let section_text := sliceStr search_text section_start section_end
        if rm.any (fun kv =>
            containsSub (pyLower section_text) (pyLower kv.1)) then
          { sections := st.sections ++
              [("СЗЧ".data, section_text, section_start)],
            added := st.added ++ [section_start] }
        else st) st) st0

/-- Phase 3 of `find_szch_sections`: the general patterns (only while
fewer than 10 sections are known). -/
def szchFindGeneral (rm : RankMap) (search_text : Str) (st0 : SzchFind) :
    SzchFind :=
  szchGeneralPatterns.foldl (fun st p =>
    if 10 ≤ st.sections.length then st
    else
      (reFinditer p search_text).foldl (fun st m =>
        let ms := m.mstart
        if st.added.any (fun pos => pos < ms + 100 && ms < pos + 100) then st
        else
          let context_start := ms - 500
          let context_end := min search_text.length (ms + 1500)
          let section_text := sliceStr search_text context_start context_end
          if rm.any (fun kv =>
              containsSub (pyLower section_text) (pyLower kv.1)) then
            { sections := st.sections ++
                [("СЗЧ".data, section_text, context_start)],
              added := st.added ++ [context_start] }
          else st) st) st0

/-- `szch_processor.find_szch_sections` (the 20-second wall-clock budget
is modelled as never expiring; Python's `max(0, ms - 500)` is `Nat`
truncated subtraction here). -/
def find_szch_sections (text : Str) (rm : RankMap) :
    List (Str × Str × Nat) :=
  let search_text := text.take 100000
  let st1 := szchFindNumbered rm search_text
  let st2 := if st1.sections = [] then szchFindByKeywords rm search_text st1
    else st1
  let st3 := if st2.sections.length < 3 then szchFindGeneral rm search_text st2
    else st2
  st3.sections

/-! ### Python helpers used by the remaining processors -/

/-- Python truthiness of an optional string (`None` and `""` are falsy). -/
def truthyS : Option Str → Bool
  | some s => s ≠ []
  | none => false

/-- Python `a or b` on optional strings. -/
def pyOrS (a b : Option Str) : Option Str := if truthyS a then a else b

/-- Python `a or b` where `b` is a plain string. -/
def pyOrStr (a : Option Str) (b : Str) : Str :=
  if truthyS a then a.getD [] else b

/-- `person_id in processed_persons` for either dedup shape. -/
def ppMem (pp : PP) (k : Str) : Bool :=
  match pp with
  | .set s => s.contains k
  | .dict m => m.any (fun kv => kv.1 = k)

/-- `processed_persons.add(person_id)`: works on a set, raises
`AttributeError` on a dict. -/
def ppAdd : PP → Str → Except PyErr PP
  | .set s, k => .ok (.set (if s.contains k then s else s ++ [k]))
  | .dict _, _ => .error .attrError

/-- The departure processors' entry conversion: `None` becomes `{}`, a
`set` becomes a fresh dict of `{'action': None, 'date': None}` entries. -/
def ppToDict : Option PP → PPDict
  | none => []
  | some (.dict m) => m
  | some (.set s) => s.map (fun p => (p, ⟨none, none⟩))

/-- The caller-visible dedup state after a departure processor returns: a
`set` argument is untouched (the processor worked on a fresh local dict),
a `dict` argument is the mutated dict. -/
def ppWrap : Option PP → PPDict → PP
  | some (.set s), _ => .set s
  | _, m => .dict m

/-- Python `str.find` (`-1` when absent). -/
def pyFindI (s pat : Str) : Int :=
  match findSub s pat with
  | some i => (i : Int)
  | none => -1

/-- Clamp one Python slice index (negative counts from the end). -/
def pySliceBound (n : Nat) (i : Int) : Nat :=
  if i < 0 then (if (n : Int) + i < 0 then 0 else ((n : Int) + i).toNat)
  else min i.toNat n

/-- `s[a:b]` with full Python index semantics. -/
def pySlice (s : Str) (a b : Int) : Str :=
  sliceStr s (pySliceBound s.length a) (pySliceBound s.length b)

/-- `section_text.rfind('\n', 0, e)` (found case). -/
def rfindNl (s : Str) (e : Nat) : Option Nat :=
  match (s.take e).reverse.findIdx? (fun c => c = '\n') with
  | some k => some ((s.take e).length - 1 - k)
  | none => none

/-- Line-break characters of Python `str.splitlines`. -/
def isLineBreak (c : Char) : Bool :=
  c = '\n' || c = '\r' || c = '\x0b' || c = '\x0c' ||
  c.toNat = 0x1c || c.toNat = 0x1d || c.toNat = 0x1e || c.toNat = 0x85 ||
  c.toNat = 0x2028 || c.toNat = 0x2029

/-- Python `str.splitlines()`. -/
def pySplitlines : Str → List Str
  | [] => []
  | '\r' :: '\n' :: r => [] :: pySplitlines r
  | c :: rest =>
    if isLineBreak c then [] :: pySplitlines rest
    else
      match pySplitlines rest with
      | [] => [[c]]
      | l :: ls => (c :: l) :: ls

/-- `str.rstrip(':')`. -/
def pyRStripColon (s : Str) : Str :=
  (s.reverse.dropWhile (fun c => c = ':')).reverse

/-- The class `[а-яіїєґ]`. -/
def clsUkrLow (c : Char) : Bool := isCyrBaseL c || isUkrExtraL c

/-- The class `[а-яіїєґА-ЯІЇЄҐ]`. -/
def clsUkrAny (c : Char) : Bool := clsUkrLow c || clsUkrU c

/-- The literal `''` (two apostrophes). -/
def apos2 : RE := RE.str "\x27\x27".data

/-- `(?:''|\")` — two apostrophes or one double quote. -/
def quoteAlt : RE := RE.alts [apos2, .ch '"']

/-! ### `section_detection.split_section_into_subsections` -/

/-- `\n\s*\n+` — the paragraph separator used with `re.split`. -/
def paraBreakRE : RE :=
  RE.cat [.ch '\n', ws0, RE.plus (.ch '\n')]

/-- `[p.strip() for p in re.split(r'\n\s*\n+', t) if p.strip()]`. -/
def splitParas (t : Str) : List Str :=
  ((splitByRE paraBreakRE t).map pyStrip).filter (fun p => p ≠ [])

/-- `(?:^|\n)\s*(\d+(?:\.\d+)+\.?)\s+` (MULTILINE). -/
def subsecNumRE : RE :=
  RE.cat [RE.alts [.anchor .bolM, .ch '\n'], ws0,
          .grp 1 (RE.cat [RE.plus dC,
            RE.plus (RE.cat [.ch '.', RE.plus dC]), RE.opt (.ch '.')]),
          ws1]

/-- `(?:^|\n)\s*(\d+\.\d+\.\d+)\s+військовослужбовців\s+військової\s+частини`
(MULTILINE, case-sensitive). -/
def subsecAltRE : RE :=
  RE.cat [RE.alts [.anchor .bolM, .ch '\n'], ws0,
          .grp 1 (RE.cat [RE.plus dC, .ch '.', RE.plus dC, .ch '.',
            RE.plus dC]),
          ws1, RE.str "військовослужбовців".data, ws1,
          RE.str "військової".data, ws1, RE.str "частини".data]

/-- `(?:^|\n)\s*(\d+\.\d+)(?:$|\s|\n)` (MULTILINE). -/
def subsecSimpleRE : RE :=
  RE.cat [RE.alts [.anchor .bolM, .ch '\n'], ws0,
          .grp 1 (RE.cat [RE.plus dC, .ch '.', RE.plus dC]),
          RE.alts [.anchor .eolM, wsC, .ch '\n']]

/-- Keep `(start(1), group(1), end())` of the matches whose group 1 is
non-empty. -/
def subsecTriples (s : Str) (ms : List RMatch) : List (Nat × Str × Nat) :=
  ms.filterMap (fun m =>
    match matchSpan m 1, matchGroup s m 1 with
    | some (st, _), some g => if g ≠ [] then some (st, g, m.mend) else none
    | _, _ => none)

/-- Cut the numbered chunks: each subsection runs from its match end to
the newline before the next number (or the end of the text), and is split
into stripped paragraphs. -/
def subsecChunks (section_text : Str) :
    List (Nat × Str × Nat) → List (Str × List Str)
  | [] => []
  | (_, num, mEnd) :: rest =>
    let end_pos :=
      match rest with
      | [] => section_text.length
      | (next, _, _) :: _ =>
        match rfindNl section_text next with
        | some p => p
        | none => next
    let raw := pyStrip (sliceStr section_text mEnd end_pos)
    let tail := subsecChunks section_text rest
    if raw = [] then tail
    else
      let paragraphs := splitParas raw
      let paragraphs := if paragraphs = [] then [raw] else paragraphs
      (num, paragraphs) :: tail

/-- `section_detection.split_section_into_subsections` (the unused
`section_type` parameter is dropped; its only use is a `pass` branch).
Returns `(subsection number?, paragraphs)` pairs. -/
def split_section_into_subsections (section_text : Str) :
    List (Option Str × List Str) :=
  let ms := reFinditer subsecNumRE section_text
  let alt := reFinditer subsecAltRE section_text
  let merged :=
    if !alt.isEmpty then
      stableSortBy (fun a b => a.mstart ≤ b.mstart) (ms ++ alt)
    else ms
  let triples := subsecTriples section_text merged
  let triples :=
    if triples = [] then
      stableSortBy (fun a b => a.1 ≤ b.1)
        (subsecTriples section_text (reFinditer subsecSimpleRE section_text))
    else triples
  if triples = [] then
    let paragraphs := splitParas section_text
    let paragraphs :=
      if paragraphs = [] && pyStrip section_text ≠ [] then
        [pyStrip section_text]
      else paragraphs
    [(none, paragraphs)]
  else
    (subsecChunks section_text triples).map (fun c => (some c.1, c.2))

/-! ### Shared subsection-header helper of the paragraph-mode processors -/

/-- `section_text[section_text.find(num) : section_text.find(paragraphs[0])]
if subsection_number else paragraphs[0]` (Python slice semantics: a `find`
miss yields `-1`, which indexes from the end). -/
def headerSearchArea (section_text : Str) (num? : Option Str)
    (firstPara : Str) : Str :=
  match num? with
  | some num =>
    pySlice section_text (pyFindI section_text num)
      (pyFindI section_text firstPara)
  | none => firstPara

/-! ### `processors/mobilization_processor.py` -/

/-- `^\s*1\.\s+` (MULTILINE). -/
def mobFirstEntryRE : RE :=
  RE.cat [.anchor .bolM, ws0, .ch '1', .ch '.', ws1]

/-- `(^\s*\d+\.\s+.+?)(?=\n\s*\d+\.\s+|\nПідстава:|\Z)`
(MULTILINE | DOTALL). -/
def mobEntryRE : RE :=
  RE.cat [.grp 1 (RE.cat [.anchor .bolM, ws0, RE.plus dC, .ch '.', ws1,
            .rep dotAll 1 none false]),
          .look false (RE.alts
            [RE.cat [.ch '\n', ws0, RE.plus dC, .ch '.', ws1],
             RE.cat [.ch '\n', RE.str "Підстава:".data],
             .anchor .eosZ])]

/-- `(\d+)\s+навчального\s+батальйону` (IGNORECASE). -/
def mobNbPreambleRE : RE :=
  RE.cat [.grp 1 (RE.plus dC), ws1, RE.strCI "навчального".data, ws1,
          RE.strCI "батальйону".data]

/-- `який\s+прибув\s+з\s+(.*?)(?:;|\n|Підстава:|\Z)` (IGNORECASE). -/
def mobOriginRE : RE :=
  RE.cat [RE.strCI "який".data, ws1, RE.strCI "прибув".data, ws1,
          RE.strCI "з".data, ws1, .grp 1 (RE.lazyStar dotC),
          RE.alts [.ch ';', .ch '\n', RE.strCI "Підстава:".data,
                   .anchor .eosZ]]

/-- `mobilization_processor.process_mobilization`. -/
def process_mobilization (section_text : Str) (rm : RankMap)
    (lt : LocTriggers) (default_date default_meal : Option Str) (pp : PP) :
    Except PyErr (List PRecord × PP) := do
  let preamble_text :=
    match reSearch mobFirstEntryRE section_text with
    | some m => pyStrip (sliceStr section_text 0 m.mstart)
    | none => section_text
  let preamble_norm := normalize_text preamble_text
  let vch_to := pyOrStr (extract_military_unit preamble_norm) "А1890".data
  let arrival_date_preamble := extract_section_date preamble_norm default_date
  let (meal_type_preamble, meal_date_preamble) :=
    extract_meal_info preamble_norm default_meal
  let location_preamble :=
    let l0 := extract_location preamble_norm lt
    if truthyS l0 then l0.getD []
    else
      match reSearch mobNbPreambleRE preamble_norm with
      | some m => ((matchGroup preamble_norm m 1).getD []) ++ " НБ".data
      | none => "НЦ".data
  let personnel_section_text :=
    pyStrip (sliceFrom section_text preamble_text.length)
  let paragraphs := (reFinditer mobEntryRE personnel_section_text).filterMap
    (fun m => matchGroup personnel_section_text m 1)
  paragraphs.foldlM (fun (acc : List PRecord × PP) paragraph_text => do
    let paragraph_norm := normalize_text paragraph_text
    let persons := extract_military_personnel paragraph_text rm
    if persons = [] then
      return acc
    else
      let location_para := determine_paragraph_location paragraph_norm lt
      let final_location := pyOrStr location_para location_preamble
      let origin_location :=
        match reSearch mobOriginRE paragraph_norm with
        | some m => pyStrip ((matchGroup paragraph_norm m 1).getD [])
        | none => "Не вказано".data
      let final_date := pyOrS meal_date_preamble arrival_date_preamble
      let final_meal :=
        pyOrStr (pyOrS meal_type_preamble default_meal) "зі сніданку".data
      persons.foldlM (fun (acc : List PRecord × PP) p => do
        let os0 := determine_personnel_type paragraph_norm
        let os_type :=
          if containsSub (pyLower paragraph_norm) "курсант".data then
            "Курсант".data
          else if containsSub (pyLower paragraph_norm) "мобілізації".data then
            "Мобілізований".data
          else os0
        let person_id := p.rank ++ '_' :: p.name
        if ppMem acc.2 person_id then
          return acc
        else do
          let record := create_personnel_record p.rank p.name (some vch_to)
            final_location os_type final_date (some final_meal)
            ("ППОС (прибув з: ".data ++ origin_location ++ ")".data)
          let pp' ← ppAdd acc.2 person_id
          return (acc.1 ++ [record], pp')) acc) ([], pp)

/-! ### `processors/arrival_processor.py` -/

/-- The `process_arrival_at_assignment` header pattern
`з\\s+військової\\s+частини\\s+([А-Я]\\d{4})` (IGNORECASE).  In the
source's raw string each `\\s` is an escaped backslash followed by a
literal `s+`, and `\\d{4}` is an escaped backslash followed by `d{4}`, so
the pattern only matches text containing literal backslashes. -/
def rawAssignHeaderRE : RE :=
  RE.cat [RE.chCI 'з', .ch '\\', RE.plus (RE.chCI 's'),
          RE.strCI "військової".data, .ch '\\', RE.plus (RE.chCI 's'),
          RE.strCI "частини".data, .ch '\\', RE.plus (RE.chCI 's'),
          .grp 1 (RE.cat [ciCls isCyrBaseU, .ch '\\',
            .rep (RE.chCI 'd') 4 (some 4) true])]

/-- The `process_arrival_at_training` header pattern
`(?:з|до)\s+військової\\s+частини\\s+([А-Я]\\d{4})` (IGNORECASE; only the
first `\s+` is a real whitespace escape, see `rawAssignHeaderRE`). -/
def rawTrainHeaderRE : RE :=
  RE.cat [RE.alts [RE.strCI "з".data, RE.strCI "до".data], ws1,
          RE.strCI "військової".data, .ch '\\', RE.plus (RE.chCI 's'),
          RE.strCI "частини".data, .ch '\\', RE.plus (RE.chCI 's'),
          .grp 1 (RE.cat [ciCls isCyrBaseU, .ch '\\',
            .rep (RE.chCI 'd') 4 (some 4) true])]

/-- `arrival_processor.process_arrival_at_assignment`. -/
def process_arrival_at_assignment (section_text : Str) (rm : RankMap)
    (lt : LocTriggers) (default_date default_meal : Option Str) (pp : PP) :
    Except PyErr (List PRecord × PP) := do
  let subs := split_section_into_subsections section_text
  subs.foldlM (fun (acc : List PRecord × PP) sub => do
    let (num?, paragraphs) := sub
    let header_vch : Option Str :=
      match paragraphs with
      | [] => none
      | p0 :: _ =>
        let area := headerSearchArea section_text num? p0
        (reSearch rawAssignHeaderRE area).bind (fun m => matchGroup area m 1)
    paragraphs.foldlM (fun (acc : List PRecord × PP) paragraph_text => do
      let paragraph_norm := normalize_text paragraph_text
      let vch_from : Option Str :=
        let v0 := extract_military_unit paragraph_norm
        if truthyS v0 then v0
        else if truthyS header_vch then header_vch
        else none
      let vch_to := "A1890".data
      let location :=
        pyOrStr (determine_paragraph_location paragraph_norm lt) "ППД".data
      let return_date := extract_section_date paragraph_norm default_date
      let (meal_info, meal_date) := extract_meal_info paragraph_norm default_meal
      let persons := extract_military_personnel paragraph_text rm
      persons.foldlM (fun (acc : List PRecord × PP) p => do
        let os_type := determine_personnel_type paragraph_norm
        let person_id := p.rank ++ '_' :: p.name
        if ppMem acc.2 person_id then
          return acc
        else do
          let record := create_personnel_record p.rank p.name
            (some (if truthyS vch_from then vch_from.getD [] else vch_to))
            location os_type (pyOrS meal_date return_date)
            (pyOrS meal_info default_meal) "Відрядження (завдання)".data
          if record.vch = [] then
            return acc
          else do
            let pp' ← ppAdd acc.2 person_id
            return (acc.1 ++ [record], pp')) acc) acc) ([], pp)

/-- `arrival_processor.process_arrival_at_training`.  (The source's
`if not record['VCH']: record['VCH'] = None` touch-up is unreachable:
`create_personnel_record` never returns a falsy VCH.) -/
def process_arrival_at_training (section_text : Str) (rm : RankMap)
    (lt : LocTriggers) (default_date default_meal : Option Str) (pp : PP) :
    Except PyErr (List PRecord × PP) := do
  let subs := split_section_into_subsections section_text
  subs.foldlM (fun (acc : List PRecord × PP) sub => do
    let (num?, paragraphs) := sub
    let header_vch : Option Str :=
      match paragraphs with
      | [] => none
      | p0 :: _ =>
        let area := headerSearchArea section_text num? p0
        (reSearch rawTrainHeaderRE area).bind (fun m => matchGroup area m 1)
    paragraphs.foldlM (fun (acc : List PRecord × PP) paragraph_text => do
      let paragraph_norm := normalize_text paragraph_text
      let vch_from : Option Str :=
        let v0 := extract_military_unit paragraph_norm
        if truthyS v0 then v0
        else if truthyS header_vch then header_vch
        else none
      let vch_to := "A1890".data
      let location :=
        pyOrStr (determine_paragraph_location paragraph_norm lt) "НЦ".data
      let arrival_date := extract_section_date paragraph_norm default_date
      let (meal_info, meal_date) := extract_meal_info paragraph_norm default_meal
      let persons := extract_military_personnel paragraph_text rm
      persons.foldlM (fun (acc : List PRecord × PP) p => do
        let os_type := determine_personnel_type paragraph_norm
        let person_id := p.rank ++ '_' :: p.name
        if ppMem acc.2 person_id then
          return acc
        else do
          let record := create_personnel_record p.rank p.name
            (some (if truthyS vch_from then vch_from.getD [] else vch_to))
            location os_type (pyOrS meal_date arrival_date)
            (pyOrS meal_info default_meal)
            "Прибуття у відрядження для навчання".data
          let pp' ← ppAdd acc.2 person_id
          return (acc.1 ++ [record], pp')) acc) acc) ([], pp)

/-! ### `processors/hospital_processor.py` -/

/-- `з\s+(.+?)(?:\s+з\s+''\d{1,2}''|:|$)` (IGNORECASE, searched on the
stripped header area; `$` is the non-MULTILINE end anchor). -/
def hospitalNameRE : RE :=
  RE.cat [RE.chCI 'з', ws1, .grp 1 (.rep dotC 1 none false),
          RE.alts [RE.cat [ws1, RE.chCI 'з', ws1, apos2,
                     .rep dC 1 (some 2) true, apos2],
                   .ch ':', .anchor .eolN]]

/-- `hospital_processor.process_hospital_return`. -/
def process_hospital_return (section_text : Str) (rm : RankMap)
    (lt : LocTriggers) (pp : PP) (cause_override : Option Str) :
    Except PyErr (List PRecord × PP) := do
  let subs := split_section_into_subsections section_text
  let return_vch := "A1890".data
  subs.foldlM (fun (acc : List PRecord × PP) sub => do
    let (num?, paragraphs) := sub
    let hospital_name :=
      match paragraphs with
      | [] => "Невідомий лікувальний заклад".data
      | p0 :: _ =>
        let area := pyStrip (headerSearchArea section_text num? p0)
        match reSearch hospitalNameRE area with
        | some m => pyRStripColon (pyStrip ((matchGroup area m 1).getD []))
        | none => "Невідомий лікувальний заклад".data
    paragraphs.foldlM (fun (acc : List PRecord × PP) paragraph_text => do
      let paragraph_norm := normalize_text paragraph_text
      let lowerN := pyLower paragraph_norm
      let is_illness :=
        containsSub lowerN "звільнені від виконання службових обов\x27язків".data ||
        containsSub lowerN "звільнений від виконання службових обов\x27язків".data
      let has_meal_enrollment :=
        containsSub lowerN "зарахувати на котлове забезпечення".data ||
        containsSub lowerN "зарахувати на котлов".data
      if is_illness && !has_meal_enrollment then
        return acc
      else
        let current_cause :=
          if is_illness then
            pyOrStr cause_override "Звільнення від обов\x27язків через хворобу".data
          else
            pyOrStr cause_override
              ("Повернення з лікувального закладу (".data ++
                hospital_name ++ ")".data)
        let event_date := extract_section_date paragraph_norm none
        let (meal_type, meal_date) := extract_meal_info paragraph_norm none
        let location :=
          pyOrStr (determine_paragraph_location paragraph_norm lt) "ППД".data
        let persons := extract_military_personnel paragraph_text rm
        persons.foldlM (fun (acc : List PRecord × PP) p => do
          let os_type := determine_personnel_type paragraph_norm
          let vch_in_para := extract_military_unit paragraph_norm
          let current_vch := pyOrStr vch_in_para return_vch
          let person_id := p.rank ++ '_' :: p.name
          if ppMem acc.2 person_id then
            return acc
          else do
            let record := create_personnel_record p.rank p.name
              (some current_vch) location os_type
              (pyOrS meal_date event_date)
              (some (pyOrStr meal_type "зі сніданку".data)) current_cause
            let pp' ← ppAdd acc.2 person_id
            return (acc.1 ++ [record], pp')) acc) acc) ([], pp)

/-! ### `processors/return_processor.py` -/

/-- `з\s+((?:військової\s+частини\s+[А-Я]\d{4})|[^,\n]+?)(?:,|\s+з\s+)?''\d{1,2}''`
(IGNORECASE). -/
def returnOriginRE : RE :=
  RE.cat [RE.chCI 'з', ws1,
          .grp 1 (RE.alts
            [RE.cat [RE.strCI "військової".data, ws1, RE.strCI "частини".data,
               ws1, ciCls isCyrBaseU, .rep dC 4 (some 4) true],
             .rep (.cls (fun c => c ≠ ',' && c ≠ '\n')) 1 none false]),
          RE.opt (RE.alts [.ch ',', RE.cat [ws1, RE.chCI 'з', ws1]]),
          apos2, .rep dC 1 (some 2) true, apos2]

/-- `з\s+(.*?):?$` (IGNORECASE, searched on the stripped header area). -/
def returnSimpleOriginRE : RE :=
  RE.cat [RE.chCI 'з', ws1, .grp 1 (RE.lazyStar dotC), RE.opt (.ch ':'),
          .anchor .eolN]

/-- `return_processor.process_return_from_assignment`. -/
def process_return_from_assignment (section_text : Str) (rm : RankMap)
    (lt : LocTriggers) (default_date default_meal : Option Str) (pp : PP) :
    Except PyErr (List PRecord × PP) := do
  let subs := split_section_into_subsections section_text
  let return_vch := "A1890".data
  subs.foldlM (fun (acc : List PRecord × PP) sub => do
    let (num?, paragraphs) := sub
    let origin :=
      match paragraphs with
      | [] => "Unknown Origin".data
      | p0 :: _ =>
        let area := headerSearchArea section_text num? p0
        match reSearch returnOriginRE area with
        | some m => pyStrip ((matchGroup area m 1).getD [])
        | none =>
          match reSearch returnSimpleOriginRE (pyStrip area) with
          | some m =>
            pyStrip ((matchGroup (pyStrip area) m 1).getD [])
          | none => "Unknown Origin".data
    paragraphs.foldlM (fun (acc : List PRecord × PP) paragraph_text => do
      let paragraph_norm := normalize_text paragraph_text
      let return_date := extract_section_date paragraph_norm default_date
      let (meal_type, meal_date) := extract_meal_info paragraph_norm default_meal
      let location :=
        pyOrStr (determine_paragraph_location paragraph_norm lt) "ППД".data
      let persons := extract_military_personnel paragraph_text rm
      persons.foldlM (fun (acc : List PRecord × PP) p => do
        let os_type := determine_personnel_type paragraph_norm
        let person_id := p.rank ++ '_' :: p.name
        if ppMem acc.2 person_id then
          return acc
        else do
          let record := create_personnel_record p.rank p.name
            (some return_vch) location os_type (pyOrS meal_date return_date)
            (pyOrS meal_type default_meal)
            ("Повернення з відрядження (".data ++ origin ++ ")".data)
          let pp' ← ppAdd acc.2 person_id
          return (acc.1 ++ [record], pp')) acc) acc) ([], pp)

/-! ### `processors/vacation_return_processor.py` -/

/-- `vacation_return_processor.determine_vacation_type`. -/
def determine_vacation_type (section_text : Str) : Str :=
  let lower := pyLower section_text
  if containsSub lower "щорічної основної відпустки".data ||
     containsSub lower "частини щорічної".data then
    "щорічної основної відпустки".data
  else if containsSub lower "відпустки за сімейними обставинами".data then
    "відпустки за сімейними обставинами".data
  else if containsSub lower "відпустки для лікування".data ||
     containsSub lower "відпустки у зв\x27язку з хворобою".data then
    "відпустки для лікування".data
  else if containsSub lower "відпустки за іншими поважними причинами".data then
    "відпустки за іншими поважними причинами".data
  else if containsSub lower "відпустки".data then
    "відпустки (тип не уточнено)".data
  else "відпустки (тип не знайдено)".data

/-- `vacation_return_processor.process_vacation_return`. -/
def process_vacation_return (section_text : Str) (rm : RankMap)
    (lt : LocTriggers) (default_date default_meal : Option Str) (pp : PP) :
    Except PyErr (List PRecord × PP) := do
  let base_vacation_type := determine_vacation_type section_text
  let subs := split_section_into_subsections section_text
  let return_vch := "A1890".data
  subs.foldlM (fun (acc : List PRecord × PP) sub => do
    let (num?, paragraphs) := sub
    let subsection_vacation_type :=
      match paragraphs with
      | [] => base_vacation_type
      | p0 :: _ =>
        determine_vacation_type (headerSearchArea section_text num? p0)
    paragraphs.foldlM (fun (acc : List PRecord × PP) paragraph_text => do
      let paragraph_norm := normalize_text paragraph_text
      let current_cause := "Повернення з ".data ++ subsection_vacation_type
      let return_date := extract_section_date paragraph_norm default_date
      let (meal_type, meal_date) := extract_meal_info paragraph_norm default_meal
      let location :=
        pyOrStr (determine_paragraph_location paragraph_norm lt) "ППД".data
      let persons := extract_military_personnel paragraph_text rm
      persons.foldlM (fun (acc : List PRecord × PP) p => do
        let os_type := determine_personnel_type paragraph_norm
        let person_id := p.rank ++ '_' :: p.name
        if ppMem acc.2 person_id then
          return acc
        else do
          let record := create_personnel_record p.rank p.name
            (some return_vch) location os_type (pyOrS meal_date return_date)
            (pyOrS meal_type default_meal) current_cause
          let pp' ← ppAdd acc.2 person_id
          return (acc.1 ++ [record], pp')) acc) acc) ([], pp)

/-! ### `processors/departure_processor.py` -/

/-- `months[int(month) - 1]` guarded by `month.isdigit()` with the
`try/except (ValueError, IndexError): pass` of the source: `"0"` hits the
Python index `-1` (the last month), out-of-range stays unchanged. -/
def convertMonth (month : Str) : Str :=
  if month ≠ [] && month.all isDigitCh then
    let k := strToNat month
    if k = 0 then "грудня".data
    else if k ≤ 12 then (monthsMap.map (fun kv => kv.1)).getD (k - 1) month
    else month
  else month

/-- Run a date-pattern list the way the departure loops do: the first
pattern that MATCHES wins (a failing `parse_date` on its groups still
ends the loop with `None`). -/
def firstDateFrom (patterns : List RE) (conv : Bool) (text : Str) :
    Option Str :=
  (patterns.findSome? (fun p => (reSearch p text).map (fun m =>
    let day := (matchGroup text m 1).getD []
    let mo0 := (matchGroup text m 2).getD []
    let mo := if conv then convertMonth mo0 else mo0
    let yr := (matchGroup text m 3).getD []
    parse_date (day ++ ' ' :: mo ++ ' ' :: yr)))).getD none

/-- `(?:з|З)\s+"(\d{1,2})"\s+(\w+)\s+(\d{4})\s+року` (case-sensitive). -/
def depDateP1 : RE :=
  RE.cat [RE.alts [.ch 'з', .ch 'З'], ws1, .ch '"',
          .grp 1 (.rep dC 1 (some 2) true), .ch '"', ws1,
          .grp 2 (RE.plus wC), ws1, .grp 3 (.rep dC 4 (some 4) true),
          ws1, RE.str "року".data]

/-- `(?:з|З)\s+''(\d{1,2})''\s+(\w+)\s+(\d{4})` (case-sensitive). -/
def depDateP2 : RE :=
  RE.cat [RE.alts [.ch 'з', .ch 'З'], ws1, apos2,
          .grp 1 (.rep dC 1 (some 2) true), apos2, ws1,
          .grp 2 (RE.plus wC), ws1, .grp 3 (.rep dC 4 (some 4) true)]

/-- `"(\d{1,2})"\s+(\w+)\s+(\d{4})` (case-sensitive). -/
def depDateP3 : RE :=
  RE.cat [.ch '"', .grp 1 (.rep dC 1 (some 2) true), .ch '"', ws1,
          .grp 2 (RE.plus wC), ws1, .grp 3 (.rep dC 4 (some 4) true)]

/-- `''(\d{1,2})''\s+(\w+)\s+(\d{4})` (case-sensitive). -/
def depDateP4 : RE :=
  RE.cat [apos2, .grp 1 (.rep dC 1 (some 2) true), apos2, ws1,
          .grp 2 (RE.plus wC), ws1, .grp 3 (.rep dC 4 (some 4) true)]

/-- The date-pattern list of `process_direct_departure_entries`. -/
def depDatePatterns : List RE := [depDateP1, depDateP2, depDateP3, depDateP4]

/-- `(\d+\.\d+\.\d+)\s+(.*?)(?=\n\d+\.\d+\.\d+|\Z)` (DOTALL | IGNORECASE). -/
def directSubRE : RE :=
  RE.cat [.grp 1 (RE.cat [RE.plus dC, .ch '.', RE.plus dC, .ch '.',
            RE.plus dC]),
          ws1, .grp 2 (RE.lazyStar dotAll),
          .look false (RE.alts
            [RE.cat [.ch '\n', RE.plus dC, .ch '.', RE.plus dC, .ch '.',
               RE.plus dC],
             .anchor .eosZ])]

/-- `departure_processor.process_direct_departure_entries` (`today` stands
for `datetime.now().strftime("%d.%m.%Y")`; `location_triggers` is unused
by the source body). -/
def process_direct_departure_entries (today : Str) (section_text : Str)
    (rm : RankMap) (pp? : Option PP) : List PRecord × PP :=
  let ppd0 := ppToDict pp?
  let ms := reFinditer directSubRE section_text
  let (results, ppd) := ms.foldl
    (fun (acc : List PRecord × PPDict) m =>
      let subsection_text := pyStrip ((matchGroup section_text m 2).getD [])
      let persons := extract_military_personnel subsection_text rm
      if persons = [] then acc
      else
        let lower := pyLower subsection_text
        let cause :=
          if containsSub lower "для подальшого проходження служби".data ||
             containsSub lower "нового місця служби".data then
            "Вибув для подальшого".data
          else if containsSub lower "звільнити у запас".data ||
             containsSub lower "у звільнення в запас".data then
            "Звільнення в запас".data
          else if containsSub lower "відрядження".data then "Відрядження".data
          else "Вибуття".data
        let dd0 := firstDateFrom depDatePatterns true subsection_text
        let departure_date := if truthyS dd0 then dd0.getD [] else today
        persons.foldl (fun (acc : List PRecord × PPDict) p =>
          let os_type := determine_personnel_type subsection_text
          let person_id := p.rank ++ '_' :: p.name
          if is_person_duplicate person_id (.dict acc.2)
              (some "виключити".data) (some departure_date) then acc
          else
            let r0 := create_personnel_record p.rank p.name
              (some "А1890".data) "ППД".data os_type (some departure_date)
              (some "зі сніданку".data) cause
            let r1 := { r0 with action := some "виключити".data }
            (acc.1 ++ [r1], dictSet acc.2 (pyLower person_id)
              ⟨some "виключити".data, some departure_date⟩)) acc)
    ([], ppd0)
  (results, ppWrap pp? ppd)

/-- `departure_processor.process_departure_for_further_service`: returns
`process_direct_departure_entries` on its first statement, so everything
after that `return` is dead code. -/
def process_departure_for_further_service (today : Str) (section_text : Str)
    (rm : RankMap) (pp? : Option PP) : List PRecord × PP :=
  process_direct_departure_entries today section_text rm pp?

/-- `(\d+)[-\s]*(?:[а-яіїєґ]+\s+)?навчальн(?:ого|ий)\s+батальйон`
(IGNORECASE). -/
def reserveBatRE : RE :=
  RE.cat [.grp 1 (RE.plus dC),
          RE.star (.cls (fun c => c = '-' || isPySpace c)),
          RE.opt (RE.cat [RE.plus (ciCls clsUkrLow), ws1]),
          RE.strCI "навчальн".data,
          RE.alts [RE.strCI "ого".data, RE.strCI "ий".data],
          ws1, RE.strCI "батальйон".data]

/-- The `get_location_from_config` closure of
`process_departure_to_reserve`. -/
def get_location_from_config (lt : LocTriggers) (text : Str) : Str :=
  let l0 := determine_paragraph_location text lt
  if truthyS l0 then l0.getD []
  else
    match lt.findSome? (fun kv => kv.2.findSome? (fun trigger =>
        if containsSub (pyLower text) (pyLower (pyStrip trigger)) then
          some kv.1 else none)) with
    | some k => k
    | none =>
      if containsSub (pyLower text) "навчальн".data &&
         containsSub (pyLower text) "батальйон".data then
        match reSearch reserveBatRE text with
        | some m => ((matchGroup text m 1).getD []) ++ " НБ".data
        | none => "3 НБ".data
      else "3 НБ".data

/-- `([а-яіїєґА-ЯІЇЄҐ]+)\s+за\s+призовом\s+по\s+мобілізації\s+([А-ЯІЇЄҐ]+\s+[А-ЯІЇЄҐ][а-яіїєґ]+\s+[А-ЯІЇЄҐ][а-яіїєґ]+)`
(case-sensitive). -/
def reserveDirectRE : RE :=
  RE.cat [.grp 1 (RE.plus (.cls clsUkrAny)), ws1, RE.str "за".data, ws1,
          RE.str "призовом".data, ws1, RE.str "по".data, ws1,
          RE.str "мобілізації".data, ws1,
          .grp 2 (RE.cat [RE.plus (.cls clsUkrU), ws1, .cls clsUkrU,
            RE.plus (.cls clsUkrLow), ws1, .cls clsUkrU,
            RE.plus (.cls clsUkrLow)])]

/-- `([а-яіїєґА-ЯІЇЄҐ]+)\s+за\s+призовом\s+по\s+мобілізації\s+([А-ЯІЇЄҐ]+[А-ЯІЇЄҐа-яіїєґ'-]+\s+[А-ЯІЇЄҐ][а-яіїєґ'-]+\s+[А-ЯІЇЄҐ][а-яіїєґ'-]+)`
(case-sensitive). -/
def reserveSpecialRE : RE :=
  RE.cat [.grp 1 (RE.plus (.cls clsUkrAny)), ws1, RE.str "за".data, ws1,
          RE.str "призовом".data, ws1, RE.str "по".data, ws1,
          RE.str "мобілізації".data, ws1,
          .grp 2 (RE.cat [RE.plus (.cls clsUkrU),
            RE.plus (.cls (fun c => clsUkrAny c || c = '\x27' || c = '-')),
            ws1, .cls clsUkrU, RE.plus (.cls clsNameTail), ws1,
            .cls clsUkrU, RE.plus (.cls clsNameTail)])]

/-- `З\s+"(\d{1,2})"\s+(\w+)\s+(\d{4})\s+року\s+виключити\s+зі\s+списків`
(IGNORECASE). -/
def reserveSpecificRE : RE :=
  RE.cat [RE.chCI 'З', ws1, .ch '"', .grp 1 (.rep dC 1 (some 2) true),
          .ch '"', ws1, .grp 2 (RE.plus wC), ws1,
          .grp 3 (.rep dC 4 (some 4) true), ws1, RE.strCI "року".data, ws1,
          RE.strCI "виключити".data, ws1, RE.strCI "зі".data, ws1,
          RE.strCI "списків".data]

/-- `З\s+"(\d{1,2})"\s+(\w+)\s+(\d{4})` (IGNORECASE). -/
def rsvDateP1 : RE :=
  RE.cat [RE.chCI 'З', ws1, .ch '"', .grp 1 (.rep dC 1 (some 2) true),
          .ch '"', ws1, .grp 2 (RE.plus wC), ws1,
          .grp 3 (.rep dC 4 (some 4) true)]

/-- `з\s+"(\d{1,2})"\s+(\w+)\s+(\d{4})` (IGNORECASE; coincides with
`rsvDateP1` under the flag but is listed separately in the source). -/
def rsvDateP2 : RE :=
  RE.cat [RE.chCI 'з', ws1, .ch '"', .grp 1 (.rep dC 1 (some 2) true),
          .ch '"', ws1, .grp 2 (RE.plus wC), ws1,
          .grp 3 (.rep dC 4 (some 4) true)]

/-- `"(\d{1,2})"\s+(\w+)\s+(\d{4})\s+року` (IGNORECASE). -/
def rsvDateP3 : RE :=
  RE.cat [.ch '"', .grp 1 (.rep dC 1 (some 2) true), .ch '"', ws1,
          .grp 2 (RE.plus wC), ws1, .grp 3 (.rep dC 4 (some 4) true),
          ws1, RE.strCI "року".data]

/-- `''(\d{1,2})''\s+(\w+)\s+(\d{4})\s+року` (IGNORECASE). -/
def rsvDateP4 : RE :=
  RE.cat [apos2, .grp 1 (.rep dC 1 (some 2) true), apos2, ws1,
          .grp 2 (RE.plus wC), ws1, .grp 3 (.rep dC 4 (some 4) true),
          ws1, RE.strCI "року".data]

/-- `''(\d{1,2})''\s+(\w+)\s+(\d{4})` (IGNORECASE). -/
def rsvDateP5 : RE :=
  RE.cat [apos2, .grp 1 (.rep dC 1 (some 2) true), apos2, ws1,
          .grp 2 (RE.plus wC), ws1, .grp 3 (.rep dC 4 (some 4) true)]

/-- `виключити.*?з\s+(?:списків|котлового).*?"(\d{1,2})"\s+(\w+)\s+(\d{4})`
(IGNORECASE). -/
def rsvDateP6 : RE :=
  RE.cat [RE.strCI "виключити".data, RE.lazyStar dotC, RE.strCI "з".data,
          ws1, RE.alts [RE.strCI "списків".data, RE.strCI "котлового".data],
          RE.lazyStar dotC, .ch '"', .grp 1 (.rep dC 1 (some 2) true),
          .ch '"', ws1, .grp 2 (RE.plus wC), ws1,
          .grp 3 (.rep dC 4 (some 4) true)]

/-- The standard date-pattern list of `process_departure_to_reserve`. -/
def rsvDatePatterns : List RE :=
  [rsvDateP1, rsvDateP2, rsvDateP3, rsvDateP4, rsvDateP5, rsvDateP6]

/-- The reserve date search: the specific phrase first, then the
standard patterns. -/
def reserveFindDate (text : Str) : Option Str :=
  let dd0 :=
    match reSearch reserveSpecificRE text with
    | some m =>
      parse_date (((matchGroup text m 1).getD []) ++ ' ' ::
        ((matchGroup text m 2).getD []) ++ ' ' ::
        ((matchGroup text m 3).getD []))
    | none => none
  if truthyS dd0 then dd0 else firstDateFrom rsvDatePatterns false text

/-- The person-search chain of the reserve complex paragraphs: special
pattern, then `extract_military_personnel`, then the direct pattern, then
`extract_rank_and_name`. -/
def reserveFindPersons (paragraph : Str) (rm : RankMap) :
    List (Str × Str) :=
  match reSearch reserveSpecialRE paragraph with
  | some m =>
    let rank_raw := pyLower (pyStrip ((matchGroup paragraph m 1).getD []))
    let name := pyStrip ((matchGroup paragraph m 2).getD [])
    [(rmGetD rm rank_raw rank_raw, name)]
  | none =>
    let mp := extract_military_personnel paragraph rm
    if mp ≠ [] then mp.map (fun p => (p.rank, p.name))
    else
      match reSearch reserveDirectRE paragraph with
      | some m =>
        let rank_raw := pyLower (pyStrip ((matchGroup paragraph m 1).getD []))
        let name := pyStrip ((matchGroup paragraph m 2).getD [])
        [(rmGetD rm rank_raw rank_raw, name)]
      | none =>
        match extract_rank_and_name paragraph rm with
        | (some r, some n) => if r ≠ [] && n ≠ [] then [(r, n)] else []
        | _ => []

/-- `departure_processor.process_departure_to_reserve`. -/
def process_departure_to_reserve (today : Str) (section_text : Str)
    (rm : RankMap) (lt : LocTriggers) (pp? : Option PP) :
    List PRecord × PP :=
  let ppd0 := ppToDict pp?
  -- direct search for the mobilization-phrase shape
  let (results, ppd) :=
    match reSearch reserveDirectRE section_text with
    | none => (([] : List PRecord), ppd0)
    | some m =>
      let rank_raw := pyLower (pyStrip ((matchGroup section_text m 1).getD []))
      let name := pyStrip ((matchGroup section_text m 2).getD [])
      let rank := rmGetD rm rank_raw rank_raw
      let location := get_location_from_config lt section_text
      let dd := reserveFindDate section_text
      let departure_date := if truthyS dd then dd.getD [] else today
      let r0 := create_personnel_record rank name (some "А1890".data)
        location "Постійний склад".data (some departure_date)
        (some "зі сніданку".data) "Звільнення в запас".data
      let r1 := { r0 with action := some "виключити".data }
      ([r1], dictSet ppd0 (pyLower (rank ++ '_' :: name))
        ⟨some "виключити".data, some departure_date⟩)
  let subs := split_section_into_subsections section_text
  -- long complex paragraphs, searched directly
  let complex_paragraphs := (splitSub "\n\n".data section_text).filter
    (fun p => 200 < p.length &&
      containsSub (pyLower p) "звільнення в запас".data)
  let (results, ppd) := complex_paragraphs.foldl
    (fun (acc : List PRecord × PPDict) paragraph =>
      let persons := reserveFindPersons paragraph rm
      if persons = [] then acc
      else
        let location := get_location_from_config lt paragraph
        let dd := reserveFindDate paragraph
        let departure_date := if truthyS dd then dd.getD [] else today
        let (meal_type, _) := extract_meal_info paragraph
          (some "зі сніданку".data)
        let meal_type := pyOrStr meal_type "зі сніданку".data
        persons.foldl (fun (acc : List PRecord × PPDict) rn =>
          let (rank, name) := rn
          let os_type := determine_personnel_type paragraph
          let person_id := rank ++ '_' :: name
          if is_person_duplicate person_id (.dict acc.2)
              (some "виключити".data) (some departure_date) then acc
          else
            let r0 := create_personnel_record rank name (some "А1890".data)
              location os_type (some departure_date) (some meal_type)
              "Звільнення в запас".data
            let r1 := { r0 with action := some "виключити".data }
            (acc.1 ++ [r1], dictSet acc.2 (pyLower person_id)
              ⟨some "виключити".data, some departure_date⟩)) acc)
    (results, ppd)
  -- numbered subsections
  let (results, ppd) := subs.foldl
    (fun (acc : List PRecord × PPDict) sub =>
      let paragraphs := sub.2
      match paragraphs with
      | [] => acc
      | first_paragraph :: _ =>
        let persons :=
          match reSearch reserveSpecialRE first_paragraph with
          | some m =>
            let rank_raw :=
              pyLower (pyStrip ((matchGroup first_paragraph m 1).getD []))
            let name := pyStrip ((matchGroup first_paragraph m 2).getD [])
            [(rmGetD rm rank_raw rank_raw, name)]
          | none =>
            let mp := extract_military_personnel first_paragraph rm
            if mp ≠ [] then mp.map (fun p => (p.rank, p.name))
            else
              match extract_rank_and_name first_paragraph rm with
              | (some r, some n) => if r ≠ [] && n ≠ [] then [(r, n)] else []
              | _ => []
        if persons = [] then acc
        else
          let all_text := joinCh '\n' paragraphs
          let location := get_location_from_config lt all_text
          let date_meal_paragraph := paragraphs.getD 1 []
          let (meal_type, meal_date) := extract_meal_info date_meal_paragraph
            (some "зі сніданку".data)
          let dd0 :=
            match reSearch reserveSpecificRE all_text with
            | some m =>
              parse_date (((matchGroup all_text m 1).getD []) ++ ' ' ::
                ((matchGroup all_text m 2).getD []) ++ ' ' ::
                ((matchGroup all_text m 3).getD []))
            | none => none
          let dd1 :=
            if truthyS dd0 then dd0
            else
              let fromMealPara :=
                if date_meal_paragraph ≠ [] then
                  firstDateFrom rsvDatePatterns false date_meal_paragraph
                else none
              if truthyS fromMealPara then fromMealPara
              else paragraphs.findSome? (fun para =>
                firstDateFrom rsvDatePatterns false para)
          let dd2 :=
            if truthyS dd1 then dd1
            else paragraphs.findSome? (fun para =>
              extract_section_date para none)
          let departure_date :=
            if truthyS dd2 then dd2.getD []
            else if truthyS meal_date then meal_date.getD []
            else today
          let meal_type := pyOrStr meal_type "зі сніданку".data
          persons.foldl (fun (acc : List PRecord × PPDict) rn =>
            let (rank, name) := rn
            let os_type := determine_personnel_type first_paragraph
            let person_id := rank ++ '_' :: name
            if is_person_duplicate person_id (.dict acc.2)
                (some "виключити".data) (some departure_date) then acc
            else
              let r0 := create_personnel_record rank name (some "А1890".data)
                location os_type
                (pyOrS (some departure_date) meal_date)
                (some (pyOrStr (some meal_type) "зі сніданку".data))
                "Звільнення в запас".data
              let r1 := { r0 with action := some "виключити".data }
              (acc.1 ++ [r1], dictSet acc.2 (pyLower person_id)
                ⟨some "виключити".data, some departure_date⟩)) acc)
    (results, ppd)
  (results, ppWrap pp? ppd)

/-- `departure_processor.process_departure_to_assignment`. -/
def process_departure_to_assignment (section_text : Str) (rm : RankMap)
    (pp? : Option PP) : List PRecord × PP :=
  let ppd0 := ppToDict pp?
  let subs := split_section_into_subsections section_text
  let (results, ppd) := subs.foldl
    (fun (acc : List PRecord × PPDict) sub =>
      match sub.2 with
      | [] => acc
      | _ :: restParas =>
        restParas.foldl (fun (acc : List PRecord × PPDict) paragraph =>
          let persons := extract_military_personnel paragraph rm
          if persons = [] then acc
          else
            let (meal_type, meal_date) := extract_meal_info paragraph
              (some "зі сніданку".data)
            let departure_date :=
              pyOrS (extract_section_date paragraph none) meal_date
            persons.foldl (fun (acc : List PRecord × PPDict) p =>
              let os_type := determine_personnel_type paragraph
              let person_id := p.rank ++ '_' :: p.name
              if is_person_duplicate person_id (.dict acc.2)
                  (some "виключити".data) departure_date then acc
              else
                let r0 := create_personnel_record p.rank p.name
                  (some "А1890".data) "ППД".data os_type
                  (pyOrS departure_date meal_date)
                  (some (pyOrStr meal_type "зі сніданку".data))
                  "Відрядження".data
                let r1 := { r0 with action := some "виключити".data }
                (acc.1 ++ [r1], dictSet acc.2 (pyLower person_id)
                  ⟨some "виключити".data, departure_date⟩)) acc) acc)
    ([], ppd0)
  (results, ppWrap pp? ppd)

/-- `[Вв]иключити\s+з\s+котлового\s+забезпечення\s+(?:частини)?.*?(?:зі|з)\s+(?:сніданку|вечері|обіду)\s+(?:''|\")?(\d{1,2})(?:''|\")?\s+(\w+)\s+(\d{4})`
(case-sensitive). -/
def vacExclDateRE : RE :=
  RE.cat [.cls (fun c => c = 'В' || c = 'в'), RE.str "иключити".data, ws1,
          RE.str "з".data, ws1, RE.str "котлового".data, ws1,
          RE.str "забезпечення".data, ws1, RE.opt (RE.str "частини".data),
          RE.lazyStar dotC, RE.alts [RE.str "зі".data, RE.str "з".data],
          ws1, RE.alts [RE.str "сніданку".data, RE.str "вечері".data,
            RE.str "обіду".data],
          ws1, RE.opt quoteAlt, .grp 1 (.rep dC 1 (some 2) true),
          RE.opt quoteAlt, ws1, .grp 2 (RE.plus wC), ws1,
          .grp 3 (.rep dC 4 (some 4) true)]

/-- `з\s+''(\d{1,2})''\s+(\w+)(?:\s+по\s+''(?:\d{1,2})''.*?|\s+по)`
(case-sensitive). -/
def vacStartRE : RE :=
  RE.cat [RE.str "з".data, ws1, apos2, .grp 1 (.rep dC 1 (some 2) true),
          apos2, ws1, .grp 2 (RE.plus wC),
          RE.alts [RE.cat [ws1, RE.str "по".data, ws1, apos2,
                     .rep dC 1 (some 2) true, apos2, RE.lazyStar dotC],
                   RE.cat [ws1, RE.str "по".data]]]

/-- `(\d{4})\s+року` (case-sensitive). -/
def yearRokuRE : RE :=
  RE.cat [.grp 1 (.rep dC 4 (some 4) true), ws1, RE.str "року".data]

/-- `departure_processor.process_departure_to_vacation`. -/
def process_departure_to_vacation (section_text : Str) (rm : RankMap)
    (lt : LocTriggers) (pp? : Option PP) (vacation_type : Option Str) :
    List PRecord × PP :=
  let ppd0 := ppToDict pp?
  let cause :=
    if !truthyS vacation_type then "У відпустку".data
    else
      let vt := vacation_type.getD []
      if containsSub (pyLower vt) "щорічної".data then
        "У відпустку щорічна".data
      else if containsSub (pyLower vt) "лікування".data then
        "У відпустку лікування".data
      else vt
  let subs := split_section_into_subsections section_text
  let (results, ppd) := subs.foldl
    (fun (acc : List PRecord × PPDict) sub =>
      sub.2.foldl (fun (acc : List PRecord × PPDict) paragraph =>
        let persons := extract_military_personnel paragraph rm
        if persons = [] then acc
        else
          let (meal_type, meal_date) := extract_meal_info paragraph
            (some "зі сніданку".data)
          let departure_date : Option Str :=
            match reSearch vacExclDateRE paragraph with
            | some m =>
              parse_date (((matchGroup paragraph m 1).getD []) ++ ' ' ::
                ((matchGroup paragraph m 2).getD []) ++ ' ' ::
                ((matchGroup paragraph m 3).getD []))
            | none =>
              match reSearch vacStartRE paragraph with
              | some m =>
                let year :=
                  match reSearch yearRokuRE paragraph with
                  | some my => (matchGroup paragraph my 1).getD []
                  | none => "2025".data
                parse_date (((matchGroup paragraph m 1).getD []) ++ ' ' ::
                  ((matchGroup paragraph m 2).getD []) ++ ' ' :: year)
              | none => meal_date
          persons.foldl (fun (acc : List PRecord × PPDict) p =>
            let os_type := determine_personnel_type paragraph
            let location :=
              pyOrStr (determine_paragraph_location paragraph lt) "ППД".data
            let person_id := p.rank ++ '_' :: p.name
            if is_person_duplicate person_id (.dict acc.2)
                (some "виключити".data) departure_date then acc
            else
              let r0 := create_personnel_record p.rank p.name
                (some "А1890".data) location os_type
                (pyOrS departure_date meal_date)
                (some (pyOrStr meal_type "зі сніданку".data)) cause
              let r1 := { r0 with action := some "виключити".data }
              (acc.1 ++ [r1], dictSet acc.2 (pyLower person_id)
                ⟨some "виключити".data, departure_date⟩)) acc) acc)
    ([], ppd0)
  (results, ppWrap pp? ppd)

/-- `до\s+([^,\.]+(?:лікарн|госпітал|шпиталь)[^,\.]+)` (IGNORECASE). -/
def depHospNameRE : RE :=
  RE.cat [RE.strCI "до".data, ws1,
          .grp 1 (RE.cat [RE.plus (.cls (fun c => c ≠ ',' && c ≠ '.')),
            RE.alts [RE.strCI "лікарн".data, RE.strCI "госпітал".data,
                     RE.strCI "шпиталь".data],
            RE.plus (.cls (fun c => c ≠ ',' && c ≠ '.'))])]

/-- `departure_processor.process_departure_to_hospital` (its
`hospital_name` is computed but never used in the records). -/
def process_departure_to_hospital (section_text : Str) (rm : RankMap)
    (lt : LocTriggers) (pp? : Option PP) : List PRecord × PP :=
  let ppd0 := ppToDict pp?
  let subs := split_section_into_subsections section_text
  let (results, ppd) := subs.foldl
    (fun (acc : List PRecord × PPDict) sub =>
      match sub.2 with
      | [] => acc
      | first_paragraph :: _ =>
        let _hospital_name :=
          match reSearch depHospNameRE first_paragraph with
          | some m => pyStrip ((matchGroup first_paragraph m 1).getD [])
          | none => "невідомий лікувальний заклад".data
        sub.2.foldl (fun (acc : List PRecord × PPDict) paragraph =>
          let persons := extract_military_personnel paragraph rm
          if persons = [] then acc
          else
            let (meal_type, meal_date) := extract_meal_info paragraph
              (some "зі сніданку".data)
            let departure_date :=
              pyOrS (extract_section_date paragraph none) meal_date
            persons.foldl (fun (acc : List PRecord × PPDict) p =>
              let os_type := determine_personnel_type paragraph
              let vch :=
                match reSearch transferVchRE paragraph with
                | some m => (matchGroup paragraph m 1).getD []
                | none => "А1890".data
              let person_id := p.rank ++ '_' :: p.name
              if is_person_duplicate person_id (.dict acc.2)
                  (some "виключити".data) departure_date then acc
              else
                let r0 := create_personnel_record p.rank p.name (some vch)
                  (pyOrStr (determine_paragraph_location paragraph lt)
                    "ППД".data)
                  os_type (pyOrS departure_date meal_date)
                  (some (pyOrStr meal_type "зі сніданку".data))
                  "Шпиталь".data
                let r1 := { r0 with action := some "виключити".data }
                (acc.1 ++ [r1], dictSet acc.2 (pyLower person_id)
                  ⟨some "виключити".data, departure_date⟩)) acc) acc)
    ([], ppd0)
  (results, ppWrap pp? ppd)

/-- The class `[А-ЯІЇЄҐЁёҐґІіЇїЄє'-]` of the A1890 name group. -/
def clsName1890 (c : Char) : Bool :=
  isCyrBaseU c || isUkrExtraU c || isUkrExtraL c || c = 'Ё' || c = 'ё' ||
  c = '\x27' || c = '-'

/-- The A1890 subitem pattern (IGNORECASE | DOTALL), groups 1–10. -/
def a1890SubitemRE : RE :=
  RE.cat [.grp 1 (RE.cat [RE.plus dC, .ch '.', RE.plus dC, .ch '.',
            RE.plus dC]),
          ws1,
          RE.alts [RE.strCI "військовослужбовця".data,
                   RE.strCI "військовослужбовців".data],
          ws1, RE.strCI "військової".data, ws1, RE.strCI "частини".data,
          ws1,
          .grp 2 (RE.cat [ciCls (fun c => c.toNat = 0x410 || c = 'A'),
            RE.plus dC]),
          ws0, .ch ':', ws0,
          .grp 3 (.rep (.cls (fun c => clsUkrAny c || isPySpace c))
            1 none false),
          ws1,
          .grp 4 (RE.cat [RE.plus (ciCls clsName1890),
            RE.plus (RE.cat [ws1, RE.plus (ciCls clsName1890)])]),
          RE.lazyStar dotAll,
          .grp 5 (RE.cat [RE.strCI "виключити".data, ws1, RE.strCI "з".data,
            ws1, RE.strCI "котлового".data, ws1,
            RE.strCI "забезпечення".data, RE.lazyStar dotAll, .ch ' ',
            .grp 6 (RE.alts [RE.strCI "з".data, RE.strCI "зі".data]), ws1,
            .grp 7 (RE.plus (ciCls clsUkrLow)), ws1, quoteAlt,
            .grp 8 (.rep dC 1 (some 2) true), quoteAlt, ws1,
            .grp 9 (RE.plus (ciCls clsUkrLow)), ws1,
            .grp 10 (.rep dC 4 (some 4) true)])]

/-- The A1890 fallback header pattern (IGNORECASE). -/
def a1890HeaderRE : RE :=
  RE.cat [RE.alts [RE.strCI "військовослужбовців".data,
                   RE.strCI "військовослужбовця".data],
          .ch ',', ws1, RE.strCI "які".data, ws1,
          RE.strCI "перебували".data, ws1, RE.strCI "у".data, ws1,
          RE.strCI "відрядженні".data, RE.lazyStar dotC,
          RE.strCI "вважати".data, ws1, RE.strCI "такими,".data, ws1,
          RE.strCI "що".data, ws1, RE.strCI "вибули:".data]

/-- `(з|зі)\s+([а-яіїєґ]+).*?(?:|")(\d{1,2})(?:|")\s+([а-яіїєґ]+)\s+(\d{4})`
(case-sensitive).  In the source the raw string's doubled apostrophes
terminate and reopen the literal, so each quote alternative is
`(?:|\")` — empty first. -/
def a1890MealDateRE : RE :=
  RE.cat [.grp 1 (RE.alts [RE.str "з".data, RE.str "зі".data]), ws1,
          .grp 2 (RE.plus (.cls clsUkrLow)), RE.lazyStar dotC,
          RE.alts [RE.eps, .ch '"'], .grp 3 (.rep dC 1 (some 2) true),
          RE.alts [RE.eps, .ch '"'], ws1,
          .grp 4 (RE.plus (.cls clsUkrLow)), ws1,
          .grp 5 (.rep dC 4 (some 4) true)]

/-- `виключити.*?з\s+(?:сніданку|вечері|обіду).*?(?:''|\")(\d{1,2})(?:''|\")\s+([а-яіїєґ]+)\s+(\d{4})`
(case-sensitive). -/
def a1890ExclDateRE : RE :=
  RE.cat [RE.str "виключити".data, RE.lazyStar dotC, RE.str "з".data, ws1,
          RE.alts [RE.str "сніданку".data, RE.str "вечері".data,
                   RE.str "обіду".data],
          RE.lazyStar dotC, quoteAlt, .grp 1 (.rep dC 1 (some 2) true),
          quoteAlt, ws1, .grp 2 (RE.plus (.cls clsUkrLow)), ws1,
          .grp 3 (.rep dC 4 (some 4) true)]

/-- `(?:''|\")(\d{1,2})(?:''|\")\s+([а-яіїєґ]+)\s+(\d{4})` (IGNORECASE). -/
def a1890StandaloneRE : RE :=
  RE.cat [quoteAlt, .grp 1 (.rep dC 1 (some 2) true), quoteAlt, ws1,
          .grp 2 (RE.plus (ciCls clsUkrLow)), ws1,
          .grp 3 (.rep dC 4 (some 4) true)]

/-- `departure_processor.process_personnel_on_assignment_a1890`. -/
def process_personnel_on_assignment_a1890 (today : Str)
    (section_text : Str) (rm : RankMap) (pp? : Option PP) :
    List PRecord × PP :=
  let ppd0 := ppToDict pp?
  let subitem_matches := reFinditer a1890SubitemRE section_text
  let (results, ppd) :=
    if subitem_matches.isEmpty then
      -- fallback: lines after the section header
      let numbered_paragraphs :=
        match reSearch a1890HeaderRE section_text with
        | none => []
        | some hm =>
          ((pySplitlines (pyStrip (sliceFrom section_text hm.mend))).map
            pyStrip).filter (fun l => l ≠ [])
      numbered_paragraphs.foldl (fun (acc : List PRecord × PPDict) paragraph =>
        let origin_vch := extract_military_unit paragraph
        let persons :=
          let mp := extract_military_personnel paragraph rm
          if mp ≠ [] then mp.map (fun p => (p.rank, p.name))
          else
            match extract_rank_and_name paragraph rm with
            | (some r, some n) => if r ≠ [] && n ≠ [] then [(r, n)] else []
            | _ => []
        if persons = [] then acc
        else
          let (departure_date, meal) :
              Option Str × Str :=
            match reSearch a1890MealDateRE paragraph with
            | some m =>
              let mealPref := (matchGroup paragraph m 1).getD []
              let meal_type_str := (matchGroup paragraph m 2).getD []
              (parse_date (((matchGroup paragraph m 3).getD []) ++ ' ' ::
                 ((matchGroup paragraph m 4).getD []) ++ ' ' ::
                 ((matchGroup paragraph m 5).getD [])),
               mealPref ++ ' ' :: meal_type_str)
            | none =>
              match reSearch a1890ExclDateRE paragraph with
              | some m =>
                (parse_date (((matchGroup paragraph m 1).getD []) ++ ' ' ::
                   ((matchGroup paragraph m 2).getD []) ++ ' ' ::
                   ((matchGroup paragraph m 3).getD [])),
                 "зі сніданку".data)
              | none => (none, "зі сніданку".data)
          let departure_date :=
            if truthyS departure_date then departure_date
            else
              match (reFinditer a1890StandaloneRE paragraph).getLast? with
              | some lastm =>
                parse_date (((matchGroup paragraph lastm 1).getD []) ++ ' ' ::
                  ((matchGroup paragraph lastm 2).getD []) ++ ' ' ::
                  ((matchGroup paragraph lastm 3).getD []))
              | none => some today
          persons.foldl (fun (acc : List PRecord × PPDict) rn =>
            let (rank, name) := rn
            let person_id := rank ++ '_' :: name
            if is_person_duplicate person_id (.dict acc.2)
                (some "виключити".data) departure_date then acc
            else
              let r0 := create_personnel_record rank name
                (some (pyOrStr origin_vch "А1890".data)) "ППД".data
                "Постійний склад".data departure_date (some meal)
                "перебували у відрядженні 1890".data
              let r1 := { r0 with action := some "виключити".data }
              (acc.1 ++ [r1], dictSet acc.2 (pyLower person_id)
                ⟨some "виключити".data, departure_date⟩)) acc) ([], ppd0)
    else
      subitem_matches.foldl (fun (acc : List PRecord × PPDict) m =>
        let vch_raw := (matchGroup section_text m 2).getD []
        let rank_raw := pyLower (pyStrip ((matchGroup section_text m 3).getD []))
        let name := pyStrip ((matchGroup section_text m 4).getD [])
        let rank := rmGetD rm rank_raw rank_raw
        let full_context := sliceStr section_text m.mstart m.mend
        let vch := pyOrStr (extract_military_unit full_context) vch_raw
        let meal := ((matchGroup section_text m 6).getD []) ++ ' ' ::
          ((matchGroup section_text m 7).getD [])
        let departure_date := parse_date
          (((matchGroup section_text m 8).getD []) ++ ' ' ::
           ((matchGroup section_text m 9).getD []) ++ ' ' ::
           ((matchGroup section_text m 10).getD []))
        let person_id := rank ++ '_' :: name
        if is_person_duplicate person_id (.dict acc.2)
            (some "виключити".data) departure_date then acc
        else
          let r0 := create_personnel_record rank name
            (some (if vch ≠ [] then vch else "А1890".data)) "ППД".data
            "Постійний склад".data departure_date (some meal)
            "перебували у відрядженні 1890".data
          let r1 := { r0 with action := some "виключити".data }
          (acc.1 ++ [r1], dictSet acc.2 (pyLower person_id)
            ⟨some "виключити".data, departure_date⟩)) ([], ppd0)
  (results, ppWrap pp? ppd)

/-- `Для\s+подальшого\s+проходження\s+служби:` (IGNORECASE). -/
def furtherServiceHdrRE : RE :=
  RE.cat [RE.strCI "Для".data, ws1, RE.strCI "подальшого".data, ws1,
          RE.strCI "проходження".data, ws1, RE.strCI "служби:".data]

/-- `У\s+звільнення\s+в\s+запас:` (IGNORECASE). -/
def reserveHdrRE : RE :=
  RE.cat [RE.strCI "У".data, ws1, RE.strCI "звільнення".data, ws1,
          RE.strCI "в".data, ws1, RE.strCI "запас:".data]

/-- `У\s+відрядження:` (IGNORECASE). -/
def assignmentHdrRE : RE :=
  RE.cat [RE.strCI "У".data, ws1, RE.strCI "відрядження:".data]

/-- `У\s+частину\s+щорічної\s+основної\s+відпустки` (IGNORECASE). -/
def vacationHdrRE : RE :=
  RE.cat [RE.strCI "У".data, ws1, RE.strCI "частину".data, ws1,
          RE.strCI "щорічної".data, ws1, RE.strCI "основної".data, ws1,
          RE.strCI "відпустки".data]

/-- `У\s+відпустку\s+для\s+лікування\s+у\s+зв'язку\s+з\s+хворобою:`
(IGNORECASE). -/
def sickLeaveHdrRE : RE :=
  RE.cat [RE.strCI "У".data, ws1, RE.strCI "відпустку".data, ws1,
          RE.strCI "для".data, ws1, RE.strCI "лікування".data, ws1,
          RE.strCI "у".data, ws1, RE.strCI "зв\x27язку".data, ws1,
          RE.strCI "з".data, ws1, RE.strCI "хворобою:".data]

/-- `У\s+лікувальний\s+заклад:` (IGNORECASE). -/
def hospitalHdrRE : RE :=
  RE.cat [RE.strCI "У".data, ws1, RE.strCI "лікувальний".data, ws1,
          RE.strCI "заклад:".data]

/-- The numbered A1890 subsection header of `process_departure`
(IGNORECASE). -/
def a1890HdrRE : RE :=
  RE.cat [RE.plus dC, .ch '.', RE.plus dC, .ch '.', ws0,
          RE.strCI "Нижчепойменованих".data, ws1,
          RE.strCI "військовослужбовців,".data, ws1, RE.strCI "які".data,
          ws1, RE.strCI "перебували".data, ws1, RE.strCI "у".data, ws1,
          RE.strCI "відрядженні".data, ws1, RE.strCI "у".data, ws1,
          RE.strCI "військовій".data, ws1, RE.strCI "частині".data, ws1,
          RE.strCI "А1890,".data, ws1, RE.strCI "вважати".data, ws1,
          RE.strCI "такими,".data, ws1, RE.strCI "що".data, ws1,
          RE.strCI "вибули".data]

/-- The ordered subsection-header table of `process_departure`. -/
def depSubsectionPatterns : List (RE × Str) :=
  [(furtherServiceHdrRE, "Для подальшого проходження служби".data),
   (reserveHdrRE, "У звільнення в запас".data),
   (assignmentHdrRE, "У відрядження".data),
   (vacationHdrRE, "У відпустку".data),
   (sickLeaveHdrRE, "У відпустку для лікування".data),
   (hospitalHdrRE, "У лікувальний заклад".data),
   (a1890HdrRE, "Військовослужбовці у відрядженні А1890".data)]

/-- The state threaded through `process_departure`: collected results,
the `processed_unique_keys` set and the (dict-shaped) dedup store. -/
structure DepSt where
  results : List PRecord
  keys : List Str
  ppd : PPDict

/-- `add_result_avoiding_duplicates`. -/
def depAdd (st : DepSt) (r : PRecord) : DepSt :=
  let key := r.rank ++ '|' :: r.name ++ '|' :: optIdStr r.action ++
    '|' :: optIdStr r.date_k
  if st.keys.contains key then st
  else { st with results := st.results ++ [r], keys := st.keys ++ [key] }

/-- Re-extract the dict from a sub-processor's returned state (they are
always called with a dict here, so the `set` case keeps the old dict). -/
def depDict (old : PPDict) : PP → PPDict
  | .dict m => m
  | .set _ => old

/-- `departure_processor.process_departure`. -/
def process_departure (pfn : Str → Option Str) (today : Str)
    (section_text : Str) (rm : RankMap) (lt : LocTriggers)
    (pp? : Option PP) : List PRecord × PP :=
  let ppd0 := ppToDict pp?
  let st0 : DepSt := ⟨[], [], ppd0⟩
  -- transfer-shaped paragraphs, run through the transfer processor with
  -- every exception swallowed
  let paragraphs := splitSub "\n\n".data section_text
  let transfer_paragraphs := paragraphs.filter (fun p =>
    containsSub (pyLower p) "виключити з котлового забезпечення".data &&
    containsSub (pyLower p) "зарахувати на котлове забезпечення".data)
  let st1 :=
    if transfer_paragraphs.isEmpty then st0
    else
      let transfer_text := List.intercalate "\n\n".data transfer_paragraphs
      match process_transfer_records pfn today transfer_text rm lt
          (some (.dict st0.ppd)) with
      | .error (_, pp') => { st0 with ppd := depDict st0.ppd pp' }
      | .ok (trs, pp') =>
        trs.foldl depAdd { st0 with ppd := depDict st0.ppd pp' }
  -- headed subsections
  let subsection_starts :=
    stableSortBy (fun a b => a.1 ≤ b.1)
      (depSubsectionPatterns.flatMap (fun pt =>
        (reFinditer pt.1 section_text).map (fun m => (m.mstart, pt.2))))
  let n := subsection_starts.length
  let subsections := (List.range n).map (fun i =>
    let s := subsection_starts.getD i (0, [])
    let e := if i < n - 1 then (subsection_starts.getD (i + 1) (0, [])).1
      else section_text.length
    (s.2, sliceStr section_text s.1 e))
  let subsection_ranges := (List.range n).map (fun i =>
    let s := (subsection_starts.getD i (0, [])).1
    let e := if i < n - 1 then (subsection_starts.getD (i + 1) (0, [])).1
      else section_text.length
    (s, e))
  -- text outside the headed subsections
  let texts_for_direct :=
    if subsection_starts.isEmpty then [section_text]
    else
      let first_start := (subsection_starts.getD 0 (0, [])).1
      let before :=
        if 0 < first_start then
          let tb := sliceStr section_text 0 first_start
          if pyStrip tb ≠ [] then [tb] else []
        else []
      let gaps := (List.range (subsection_ranges.length - 1)).filterMap
        (fun i =>
          let gs := (subsection_ranges.getD i (0, 0)).2
          let ge := (subsection_ranges.getD (i + 1) (0, 0)).1
          if gs < ge then
            let gt := sliceStr section_text gs ge
            if pyStrip gt ≠ [] then some gt else none
          else none)
      let after :=
        match subsection_ranges.getLast? with
        | some r =>
          if r.2 < section_text.length then
            let ta := sliceFrom section_text r.2
            if pyStrip ta ≠ [] then [ta] else []
          else []
        | none => []
      before ++ gaps ++ after
  let st2 := texts_for_direct.foldl (fun (st : DepSt) frag =>
    let (drs, pp') := process_direct_departure_entries today frag rm
      (some (.dict st.ppd))
    drs.foldl depAdd { st with ppd := depDict st.ppd pp' }) st1
  -- dispatch the headed subsections
  let st3 := subsections.foldl (fun (st : DepSt) sub =>
    let (ty, stext) := sub
    let (srs, pp') :=
      if ty = "Для подальшого проходження служби".data then
        process_departure_for_further_service today stext rm
          (some (.dict st.ppd))
      else if ty = "У звільнення в запас".data then
        process_departure_to_reserve today stext rm lt (some (.dict st.ppd))
      else if ty = "У відрядження".data then
        process_departure_to_assignment stext rm (some (.dict st.ppd))
      else if ty = "У відпустку".data ||
          ty = "У відпустку для лікування".data then
        process_departure_to_vacation stext rm lt (some (.dict st.ppd))
          (some ty)
      else if ty = "У лікувальний заклад".data then
        process_departure_to_hospital stext rm lt (some (.dict st.ppd))
      else if ty = "Військовослужбовці у відрядженні А1890".data then
        process_personnel_on_assignment_a1890 today stext rm
          (some (.dict st.ppd))
      else ([], .dict st.ppd)
    srs.foldl depAdd { st with ppd := depDict st.ppd pp' }) st2
  (st3.results, ppWrap pp? st3.ppd)

/-! ### `main.process_military_order` -/

/-- `Вважати\s+такими,\s+що\s+прибули\s+та\s+приступили\s+до\s+виконання\s+службових\s+обов'язків\s*:?`
(IGNORECASE). -/
def startPatternRE : RE :=
  RE.cat [RE.strCI "Вважати".data, ws1, RE.strCI "такими,".data, ws1,
          RE.strCI "що".data, ws1, RE.strCI "прибули".data, ws1,
          RE.strCI "та".data, ws1, RE.strCI "приступили".data, ws1,
          RE.strCI "до".data, ws1, RE.strCI "виконання".data, ws1,
          RE.strCI "службових".data, ws1, RE.strCI "обов\x27язків".data,
          ws0, RE.opt (.ch ':')]

/-- `Вважати\s+такими,\s+що\s+вибули\s*:?` (IGNORECASE). -/
def endPatternRE : RE :=
  RE.cat [RE.strCI "Вважати".data, ws1, RE.strCI "такими,".data, ws1,
          RE.strCI "що".data, ws1, RE.strCI "вибули".data, ws0,
          RE.opt (.ch ':')]

/-- `Командир\s+військової\s+частини\s+А1890` (IGNORECASE). -/
def commanderRE : RE :=
  RE.cat [RE.strCI "Командир".data, ws1, RE.strCI "військової".data, ws1,
          RE.strCI "частини".data, ws1, RE.strCI "А1890".data]

/-- `main.py`'s `specific_section_markers` (marker, type) table.  The
regex-looking markers are passed through `re.escape` by `find_sections`,
so their `\d`, `\s`, `(?:...)` fragments only ever match literally. -/
def specificSectionMarkers : List (Str × Str) :=
  [("\\d+\\.\\d+\\.\\s*Відповідно до мобілізаційного призначення".data,
    "ППОС".data),
   ("Відповідно до мобілізаційного призначення".data, "ППОС".data),
   ("\\d+\\.\\d+\\.\\d+\\s+з військової частини".data,
    "Повернення з відрядження".data),
   ("\\d+\\.\\d+\\.\\s*З відрядження".data, "Повернення з відрядження".data),
   ("З відрядження".data, "Повернення з відрядження".data),
   ("\\d+\\.\\d+\\.\\s*З частини щорічної основної відпустки".data,
    "Відпустка щорічна".data),
   ("З частини щорічної основної відпустки".data, "Відпустка щорічна".data),
   ("\\d+\\.\\d+\\.\\s*З відпустки за сімейними обставинами".data,
    "Відпустка сімейна".data),
   ("З відпустки за сімейними обставинами".data, "Відпустка сімейна".data),
   ("\\d+\\.\\d+\\.\\s*З відпустки для лікування".data,
    "Відпустка лікування".data),
   ("З відпустки для лікування".data, "Відпустка лікування".data),
   ("\\d+\\.\\d+\\.\\d+\\s+з.*?лікувального закладу".data, "Лікарня".data),
   ("з лікувального закладу".data, "Лікарня".data),
   ("\\d+\\.\\d+\\.\\s*Нижчепойменованих військовослужбовців вважати такими, що прибули у службове відрядження".data,
    "Прибуття у відрядження".data),
   ("Нижчепойменованих військовослужбовців вважати такими, що прибули у службове відрядження до".data,
    "Прибуття у відрядження".data),
   ("Нижчепойменованих військовослужбовців вважати такими, що прибули у службове відрядження".data,
    "Прибуття у відрядження".data),
   ("\\d+\\.\\d+\\.\\s*Нижчепойменовані військовослужбовці, які були звільнені від виконання службових обов\x27язків".data,
    "Хвороба".data),
   ("Нижчепойменовані військовослужбовці, які були звільнені від виконання службових обов\x27язків у зв\x27язку з хворобою".data,
    "Хвороба".data),
   ("\\d+\\.\\d+\\.\\d+\\s+військовослужбов.*?А1890.*?вважати такими, що вибули".data,
    "Відрядження А1890".data),
   ("Нижчепойменованих військовослужбовців, які перебували у відрядженні у військовій частині А1890, вважати такими, що вибули".data,
    "Відрядження А1890".data),
   ("до \\d+ навчального батальйону (?:школи )?(?:індивідуальної підготовки)?".data,
    "Переведення між локаціями".data)]

/-- The `cause` canonicalization rules applied by `process_military_order`
to every record. -/
def applyCauseRules (c : Str) : Str :=
  if isPrefixB "ППОС".data c then "ППОС".data
  else if c = "повернення з відрядження".data then "З відрядження".data
  else if containsSub (pyLower c) "повернення з".data &&
      containsSub (pyLower c) "відпустки".data then "Відпустка".data
  else if c = "Поверненя з лікувального закладу".data then "Шпиталь".data
  else if c = "Прибуття у відрядження для навчання".data then
    "Відрядження (навчання)".data
  else if c = "Прибуття у відрядження для виконання службового завдання".data
    then "Відрядження (завдання)".data
  else if isPrefixB "повернення з відрядження".data (pyLower c) ||
      pyLower c = "з відрядження".data then "З відрядження".data
  else if isPrefixB "повернення з лікувального закладу".data (pyLower c) then
    "Шпиталь".data
  else c

/-- One dispatch step of `process_military_order`: run the processor for
one found section. -/
def dispatchSection (pfn : Str → Option Str) (today : Str) (rm : RankMap)
    (lt : LocTriggers) (acc : List PRecord × PP)
    (sec : Str × Str × Nat) : Except PyErr (List PRecord × PP) := do
  let (section_type, section_text_raw, _) := sec
  let pp := acc.2
  let (section_results, pp') ←
    if section_type = "Прибуття у відрядження (навчання)".data then
      process_arrival_at_training section_text_raw rm lt none
        (some "зі сніданку".data) pp
    else if section_type = "Прибуття у відрядження".data then
      if containsSub (pyLower (section_text_raw.take 500)) "навчальн".data ||
         containsSub (pyLower (section_text_raw.take 500)) "школи".data then
        process_arrival_at_training section_text_raw rm lt none
          (some "зі сніданку".data) pp
      else
        process_arrival_at_assignment section_text_raw rm lt none
          (some "зі сніданку".data) pp
    else if section_type = "Лікарня".data then
      process_hospital_return section_text_raw rm lt pp none
    else if section_type = "Повернення з відрядження".data then
      process_return_from_assignment section_text_raw rm lt none none pp
    else if section_type = "ППОС".data then
      process_mobilization section_text_raw rm lt none none pp
    else if section_type = "Хвороба".data then
      process_hospital_return section_text_raw rm lt pp
        (some "Звільнення від обов\x27язків через хворобу".data)
    else if section_type = "Відпустка щорічна".data ||
        section_type = "Відпустка сімейна".data ||
        section_type = "Відпустка лікування".data then
      process_vacation_return section_text_raw rm lt none none pp
    else if section_type = "Відпустка".data then
      process_vacation_return section_text_raw rm lt none none pp
    else if section_type = "Відрядження (завдання)".data then
      process_return_from_assignment section_text_raw rm lt none none pp
    else if section_type = "СЗЧ".data then
      process_szch_section section_text_raw rm (some pp)
    else if section_type = "Відрядження А1890".data then
      pure (process_personnel_on_assignment_a1890 today section_text_raw rm
        (some pp))
    else if section_type = "Переведення між локаціями".data then
      match process_transfer_records pfn today section_text_raw rm lt
          (some pp) with
      | .error (e, _) => throw e
      | .ok v => pure v
    else
      -- auto-detection for section types with no explicit handler
      let low := pyLower section_text_raw
      if containsSub low "до навчального батальйону".data ||
         (containsSub low "виключити з котлового забезпечення".data &&
          containsSub low "зарахувати на котлове забезпечення".data) then
        match process_transfer_records pfn today section_text_raw rm lt
            (some pp) with
        | .error (e, _) => throw e
        | .ok v => pure v
      else if containsSub low "лікуваль".data ||
          containsSub low "лікарн".data then
        process_hospital_return section_text_raw rm lt pp none
      else if containsSub low "відпустк".data then
        process_vacation_return section_text_raw rm lt none none pp
      else if containsSub low "відрядженн".data then
        if containsSub low "повернення".data ||
            containsSub low "з відрядження".data then
          process_return_from_assignment section_text_raw rm lt none none pp
        else if containsSub low "навчання".data ||
            containsSub low "навчальн".data then
          process_arrival_at_training section_text_raw rm lt none
            (some "зі сніданку".data) pp
        else
          process_arrival_at_assignment section_text_raw rm lt none
            (some "зі сніданку".data) pp
      else if containsSub low "мобілізаці".data then
        process_mobilization section_text_raw rm lt none none pp
      else if containsSub low "самовільним залишенням частини".data then
        process_szch_section section_text_raw rm (some pp)
      else pure ([], pp)
  return (acc.1 ++ section_results, pp')

/-- `main.process_military_order`.  `pfn` models the external
`process_full_name` collaborator (`none` = it raised), `today` the
ambient `datetime.now().strftime("%d.%m.%Y")`. -/
def process_military_order (pfn : Str → Option Str) (today : Str)
    (text : Str) (rm : RankMap) (lt : LocTriggers) :
    Except PyErr (List PRecord) := do
  let raw_full_text := text
  -- СЗЧ discovery over the whole document
  let szch_sections := find_szch_sections raw_full_text rm
  let st ← szch_sections.foldlM (fun (acc : List PRecord × PP) sec => do
    let (_, section_text_raw, _) := sec
    let (section_results, pp') ← process_szch_section section_text_raw rm
      (some acc.2)
    pure (acc.1 ++ section_results, pp')) (([] : List PRecord), PP.set [])
  -- the main window between the phrase markers
  let start_matches := reFinditer startPatternRE raw_full_text
  let end_matches := reFinditer endPatternRE raw_full_text
  let text_to_process_raw :=
    match start_matches with
    | [] => raw_full_text
    | m0 :: _ =>
      let sp := m0.mend
      match end_matches.find? (fun m => sp < m.mstart) with
      | some me => sliceStr raw_full_text sp me.mstart
      | none => sliceFrom raw_full_text sp
  let st? ←
    if pyStrip text_to_process_raw = [] then pure none
    else
      let all_sections := find_sections text_to_process_raw
        specificSectionMarkers
      if all_sections.isEmpty then pure none
      else
        some <$> all_sections.foldlM (dispatchSection pfn today rm lt) st
  match st? with
  | none =>
    -- the source's early `return results` paths skip the final passes
    return st.1
  | some st =>
    -- the departure section after the end marker
    let st : List PRecord × PP :=
      match end_matches with
      | [] => st
      | e0 :: _ =>
        let dstart := e0.mend
        let dend :=
          match (reFinditer commanderRE raw_full_text).find?
              (fun (m : RMatch) => dstart < m.mstart) with
          | some m => m.mstart
          | none => raw_full_text.length
        let dtext := sliceStr raw_full_text dstart dend
        if pyStrip dtext ≠ [] then
          let (drs, pp') := process_departure pfn today dtext rm lt
            (some st.2)
          (st.1 ++ drs, pp')
        else st
    -- action defaulting, cause rules, name normalization
    let results := st.1.map (fun (r : PRecord) =>
      if r.action = none then { r with action := some "зарахувати".data }
      else r)
    let results := results.map (fun (r : PRecord) =>
      { r with cause := applyCauseRules r.cause })
    let results := results.map (fun (r : PRecord) =>
      if r.name ≠ [] then { r with name_normal := (pfn r.name).getD r.name }
      else { r with name_normal := r.name })
    return results

/-! ## Concrete inputs used by the verification theorems -/

/-- Meal-info input holding both a standalone keyword (`з обіду`) and a
date-bearing pattern whose context names a different meal (`з вечері`). -/
def c2Text : Str :=
  "виключити з обіду. зарахувати на котлове забезпечення частини з вечері \x27\x2710\x27\x27 квітня 2025".data

/-- A text block in which no configured section marker matches. -/
def c5Text : Str := "Текст наказу без маркерів розділів.".data

/-- Rank vocabulary for the СЗЧ discovery runs. -/
def c3Rm : RankMap := [("солдата".data, "солдат".data)]

/-- A candidate unauthorized-absence entry (a numbered point that
qualifies by the keyword scan). -/
def c3Entry : Str :=
  "1. солдата ІВАНЕНКА Івана Івановича, який самовільно залишив військову частину".data

/-- Rank vocabulary for the transfer-processor runs. -/
def c6Rm : RankMap := [("солдата".data, "солдат".data)]

/-- A transfer-shaped paragraph: person P, origin `2 НБ` with an
exclusion clause and date, destination `5 НБ` with an enrollment clause
and date. -/
def c6Para : Str :=
  ("солдата за призовом по мобілізації ПЕТРЕНКА Петра Петровича виключити з котлового " ++
   "забезпечення 2 навчального батальйону зі сніданку \x27\x2710\x27\x27 березня 2025 року та зарахувати " ++
   "на котлове забезпечення 5 навчального батальйону з обіду \x27\x2711\x27\x27 березня 2025 року").data

/-- Rank vocabulary for the special-format transfer run. -/
def c4Rm : RankMap := [("солдата".data, "солдат".data)]

/-- A special-format transfer document: first paragraph with exclusion
info, second with enrollment info, then a matching personnel line. -/
def c4Text : Str :=
  ("Виключити з котлового забезпечення військовослужбовців 2 навчального батальйону зі сніданку \x27\x2710\x27\x27 березня 2025 року" ++
   "\n\n" ++
   "Зарахувати на котлове забезпечення військовослужбовців 5 навчального батальйону з обіду \x27\x2711\x27\x27 березня 2025 року" ++
   "\n\n" ++
   "1. А1890 солдата ІВАНОВ Іван Іванович" ++
   "\n\n" ++ "Кінець").data

/-- Text containing the temporary-duty exclusion phrase next to a full
rank-and-name pattern. -/
def c8Text : Str :=
  "тимчасове виконання обов\x27язків покласти на солдата ПЕТРЕНКА Петра Петровича".data

/-- Rank vocabulary for the exclusion-phrase runs. -/
def c8Rm : RankMap := [("солдата".data, "солдат".data)]

/-- `re` fails to match at any all-space position, whatever the
continuation: the regex's first mandatory atom rejects the space
character. -/
def SpaceFail (re : RE) : Prop :=
  ∀ (next? : Option MFun) (st : MSt) (caps : Caps) (k : MSt → Caps → MRes),
    (∀ c ∈ st.right, c = ' ') → matchS next? re st caps k = none

/-- The entry shape `processed_persons` entries get when a caller's set is
converted to the transfer processor's local dict. -/
def c6Fm : Str → (Str × PPInfo) := fun p => (p, ⟨none, none⟩)

/-- The person mentioned by `c6Para`. -/
def c6Name : Str := "ПЕТРЕНКА Петра Петровича".data

/-- The exclusion-side dedup id for `c6Para`. -/
def c6IdEx : Str := "солдат_ПЕТРЕНКА Петра Петровича_exclusion_10.03.2025".data

/-- The enrollment-side dedup id for `c6Para`. -/
def c6IdEn : Str := "солдат_ПЕТРЕНКА Петра Петровича_enrollment_11.03.2025".data

/-- The remove-action record `c6Para` produces (origin `2 НБ`). -/
def c6RecEx : PRecord :=
  { rank := "солдат".data, name := c6Name, name_normal := [],
    vch := "А1890".data, location := "2 НБ".data,
    os := "Постійний склад".data, date_k := some "10.03.2025".data,
    meal := some "зі сніданку".data, cause := "Переміщення".data,
    action := some "виключити".data }

/-- The enroll-action record `c6Para` produces (destination `5 НБ`). -/
def c6RecEn : PRecord :=
  { rank := "солдат".data, name := c6Name, name_normal := [],
    vch := "А1890".data, location := "5 НБ".data,
    os := "Постійний склад".data, date_k := some "11.03.2025".data,
    meal := some "з обіду".data, cause := "Переміщення".data,
    action := some "зарахувати".data }

/-- The loop state of the general transfer path after the exclusion half
of `c6Para` (written with its duplicate test still visible). -/
def c6St2 (pp : List Str) : TransferSt :=
  if is_person_duplicate c6IdEx (.dict (pp.map c6Fm)) (some "виключити".data)
      (some "10.03.2025".data) then
    ⟨[], pp.map c6Fm, some "5 НБ".data, 0⟩
  else
    ⟨[c6RecEx], dictSet (pp.map c6Fm) (pyLower c6IdEx)
      ⟨some "виключити".data, some "10.03.2025".data⟩, some "5 НБ".data, 1⟩

/-- The loop state of the general transfer path after both halves of
`c6Para`. -/
def c6Final (pp : List Str) : TransferSt :=
  if is_person_duplicate c6IdEn (.dict (c6St2 pp).ppd) (some "зарахувати".data)
      (some "11.03.2025".data) then c6St2 pp
  else
    { (c6St2 pp) with
      results := (c6St2 pp).results ++ [c6RecEn],
      ppd := dictSet (c6St2 pp).ppd (pyLower c6IdEn)
        ⟨some "зарахувати".data, some "11.03.2025".data⟩,
      total_found := (c6St2 pp).total_found + 1 }

/-- Order document whose departure section routes one person through the
reserve processor while the location-triggers config carries an
empty-string location key. -/
def c7Doc : Str :=
  ("Вважати такими, що прибули та приступили до виконання службових обов\x27язків:\n" ++
   "текст\n" ++
   "Вважати такими, що вибули:\n" ++
   "У звільнення в запас:\n" ++
   "солдата за призовом по мобілізації СЕМЕНЦОВА Івана Петровича x").data

/-- Rank vocabulary for the `c7Doc` run. -/
def c7Rm : RankMap := [("солдата".data, "солдат".data)]

/-- A location-triggers config with an empty location key whose trigger
word occurs in `c7Doc`. -/
def c7Lt : LocTriggers := [([], ["x".data])]

/-- The full output of `process_military_order` on `c7Doc`: one record
whose `location` is the empty string. -/
def c7Out : List PRecord :=
  [{ rank := "солдат".data, name := "СЕМЕНЦОВА Івана Петровича".data,
     name_normal := "СЕМЕНЦОВА Івана Петровича".data, vch := "А1890".data,
     location := [], os := "Постійний склад".data,
     date_k := some "12.10.2026".data, meal := some "зі сніданку".data,
     cause := "Звільнення в запас".data, action := some "виключити".data }]

/-- The literal text of the colon-stripped between-locations transfer
marker, as `find_sections` matches it after `re.escape`. -/
def c1M : Str :=
  "до \\d+ навчального батальйону (?школи )?(?індивідуальної підготовки)?".data

/-- A transfer paragraph whose `тво` prefix routes rank extraction through
the cheap fallback path. -/
def c1P : Str :=
  "тво сержанта за призовом по мобілізації Коваль Олег Олегович".data

/-- Order document with the same transfer section repeated twice. -/
def c1Doc : Str :=
  "Вважати такими, що прибули та приступили до виконання службових обов\x27язків:\n".data ++
  c1M ++ '\n' :: c1P ++ '\n' :: c1M ++ '\n' :: c1P

/-- Rank vocabulary for the `c1Doc` run. -/
def c1Rm : RankMap := [("сержанта".data, "сержант".data)]

/-- The remove-action record each of the two identical transfer sections
of `c1Doc` produces. -/
def c1RecEx : PRecord :=
  { rank := "сержант".data, name := "Коваль Олег Олегович".data,
    name_normal := "Коваль Олег Олегович".data, vch := "А1890".data,
    location := "ППД".data, os := "Постійний склад".data,
    date_k := some "12.10.2026".data, meal := some "зі сніданку".data,
    cause := "Переміщення".data, action := some "виключити".data }

/-- The enroll-action twin of `c1RecEx`. -/
def c1RecEn : PRecord :=
  { c1RecEx with action := some "зарахувати".data }

/-- The full output of `process_military_order` on `c1Doc`: the same two
records twice. -/
def c1Out : List PRecord := [c1RecEx, c1RecEn, c1RecEx, c1RecEn]

/-- The dedup identity of a record, `rank_name`. -/
def recId (r : PRecord) : Str := r.rank ++ '_' :: r.name

/-- Invariant of the mobilization-processor loop: every emitted record's
identity is registered in the dedup structure, and the emitted records
carry pairwise distinct identities. -/
def MobInv (acc : List PRecord × PP) : Prop :=
  (∀ r ∈ acc.1, ppMem acc.2 (recId r) = true) ∧
  acc.1.Pairwise (fun a b => recId a ≠ recId b)

/-- No two adjacent characters are both horizontal whitespace (the shape
`re.sub(r'[ \t]+', ' ')` leaves behind). -/
def htOK : Str → Bool
  | [] => true
  | [_] => true
  | c :: d :: r => !(isHT c && isHT d) && htOK (d :: r)

/-- A line of `normalize_text` output: non-empty, free of line breaks,
carriage returns and tabs, without adjacent horizontal whitespace,
quote-normalized and stripped. -/
def LineOK (l : Str) : Prop :=
  l ≠ [] ∧ (∀ c ∈ l, c ≠ '\n' ∧ c ≠ '\r' ∧ c ≠ '\t' ∧ normQuoteCh c = c) ∧
  htOK l = true ∧ pyStrip l = l

/-! ## Verification -/

/-- `isPrefixB` is preserved by mapping a character function over both
strings. -/
theorem isPrefixB_map (f : Char → Char) :
    ∀ (p s : Str), isPrefixB p s = true →
      isPrefixB (p.map f) (s.map f) = true
  | [], _, _ => rfl
  | p :: ps, [], h => absurd h (by simp [isPrefixB])
  | p :: ps, c :: cs, h => by
    simp only [isPrefixB, Bool.and_eq_true, decide_eq_true_eq] at h
    simp only [List.map_cons, isPrefixB, Bool.and_eq_true, decide_eq_true_eq]
    exact ⟨by rw [h.1], isPrefixB_map f ps cs h.2⟩

/-- Substring containment is preserved by mapping a character function
over both strings. -/
theorem containsSub_map (f : Char → Char) :
    ∀ (s pat : Str), containsSub s pat = true →
      containsSub (s.map f) (pat.map f) = true
  | [], pat, h => by
    cases pat with
    | nil => rfl
    | cons p ps => exact absurd h (by simp [containsSub, isPrefixB])
  | c :: rest, pat, h => by
    simp only [containsSub, Bool.or_eq_true] at h
    simp only [List.map_cons, containsSub, Bool.or_eq_true]
    cases h with
    | inl h => exact Or.inl (by
        have := isPrefixB_map f pat (c :: rest) h
        simpa using this)
    | inr h => exact Or.inr (containsSub_map f rest pat h)

/-- A prefix test against `u ++ v` entails the prefix test against `u`. -/
theorem isPrefixB_append_left :
    ∀ (u v s : Str), isPrefixB (u ++ v) s = true → isPrefixB u s = true
  | [], _, _, _ => rfl
  | a :: u, v, [], h => absurd h (by simp [isPrefixB])
  | a :: u, v, c :: s, h => by
    simp only [List.cons_append, isPrefixB, Bool.and_eq_true] at h
    simp only [isPrefixB, Bool.and_eq_true]
    exact ⟨h.1, isPrefixB_append_left u v s h.2⟩

/-- Containment of a concatenation entails containment of its left
part. -/
theorem containsSub_append_left :
    ∀ (s u v : Str), containsSub s (u ++ v) = true → containsSub s u = true
  | [], u, v, h => by
    cases u with
    | nil => rfl
    | cons a u => exact absurd h (by simp [containsSub, isPrefixB])
  | c :: rest, u, v, h => by
    simp only [containsSub, Bool.or_eq_true] at h
    simp only [containsSub, Bool.or_eq_true]
    cases h with
    | inl h => exact Or.inl (isPrefixB_append_left u v _ h)
    | inr h => exact Or.inr (containsSub_append_left rest u v h)

/-- Any exclusion phrase found (lowercased) in the lowercased input makes
`extract_military_personnel` return no personnel at all. -/
theorem emp_excluded (text : Str) (rm : RankMap) (p : Str)
    (hp : p ∈ exclusionPhrases)
    (h : containsSub (pyLower text) (pyLower p) = true) :
    extract_military_personnel text rm = [] := by
  have hany : exclusionPhrases.any
      (fun q => containsSub (pyLower text) (pyLower q)) = true :=
    List.any_eq_true.mpr ⟨p, hp, h⟩
  unfold extract_military_personnel
  rw [if_pos hany]

/-- C10: the exclusion filter of `extract_military_personnel` tests each
exclusion phrase as a bare lowercase substring of the whole input, and the
phrase list includes the three-letter string `тво`; hence for every rank
vocabulary and every input containing the character sequence `тво`
anywhere — also inside an unrelated word — the function returns the empty
list. -/
theorem C10_theorem (rm : RankMap) (text : Str)
    (h : containsSub text "тво".data = true) :
    extract_military_personnel text rm = [] := by
  apply emp_excluded text rm "тво".data (by decide)
  exact containsSub_map pyLowerCh text "тво".data h

/-- C10 at a concrete input: `керівництво` contains `тво` only as part of
an unrelated word, yet extraction is abandoned. -/
theorem C10_witness :
    containsSub "керівництво".data "тво".data = true ∧
    extract_military_personnel "керівництво".data c8Rm = [] :=
  ⟨by decide, C10_theorem c8Rm "керівництво".data (by decide)⟩

/-- C8: every input containing the phrase
`тимчасове виконання обов'язків покласти на` yields zero extracted
personnel, for every rank vocabulary, regardless of rank-and-name
patterns also present. -/
theorem C8_theorem (rm : RankMap) (text : Str)
    (h : containsSub text
      "тимчасове виконання обов\x27язків покласти на".data = true) :
    extract_military_personnel text rm = [] := by
  apply emp_excluded text rm "тимчасове виконання обов\x27язків".data
    (by decide)
  have h2 := containsSub_map pyLowerCh text
    "тимчасове виконання обов\x27язків покласти на".data h
  have h3 : ("тимчасове виконання обов\x27язків покласти на".data).map pyLowerCh
      = ("тимчасове виконання обов\x27язків".data).map pyLowerCh ++
        (" покласти на".data).map pyLowerCh := by decide
  rw [h3] at h2
  exact containsSub_append_left _ _ _ h2

/-- C8 at a concrete input that also holds a full rank-and-name pattern. -/
theorem C8_witness :
    containsSub c8Text
      "тимчасове виконання обов\x27язків покласти на".data = true ∧
    extract_military_personnel c8Text c8Rm = [] :=
  ⟨by decide, C8_theorem c8Rm c8Text (by decide)⟩

/-- C2 counterexample: `c2Text` holds both the standalone keyword
`з обіду` and a date-bearing meal pattern (`mealP1`, the first pattern
tried) whose own matched context names `з вечері` and not `з обіду`; yet
`extract_meal_info` returns the standalone keyword `з обіду` as the meal
type.  So the date-bearing pattern does not override the standalone
keyword search — the precedence is the other way round. -/
theorem C2_counterexample :
    extract_meal_info c2Text none =
      (some "з обіду".data, some "10.04.2025".data) ∧
    (reSearch mealP1 c2Text).map (fun m =>
      containsSub (pyLower ((matchGroup c2Text m 0).getD []))
        "з вечері".data) = some true ∧
    (reSearch mealP1 c2Text).map (fun m =>
      containsSub (pyLower ((matchGroup c2Text m 0).getD []))
        "з обіду".data) = some false :=
  ⟨rfl, rfl, rfl⟩

/-- C2 (amended): in `extract_meal_info` the standalone keyword search
takes precedence.  Whenever the lowercased input contains a standalone
meal keyword, the returned meal type is that keyword (priority breakfast,
then lunch, then dinner), regardless of any date-bearing pattern; the
context of a date-bearing match determines the meal type only when no
standalone keyword was found. -/
theorem C2_amended (text : Str) (d : Option Str) :
    (containsSub (pyLower text) "зі сніданку".data = true →
      (extract_meal_info text d).1 = some "зі сніданку".data) ∧
    (containsSub (pyLower text) "зі сніданку".data = false →
     containsSub (pyLower text) "з обіду".data = true →
      (extract_meal_info text d).1 = some "з обіду".data) ∧
    (containsSub (pyLower text) "зі сніданку".data = false →
     containsSub (pyLower text) "з обіду".data = false →
     containsSub (pyLower text) "з вечері".data = true →
      (extract_meal_info text d).1 = some "з вечері".data) := by
  refine ⟨fun h1 => ?_, fun h1 h2 => ?_, fun h1 h2 h3 => ?_⟩
  · unfold extract_meal_info
    simp only [h1, if_true]
    cases hf : mealDatePatterns.findSome? (fun p =>
        (reSearch p text).map (fun m => m)) with
    | none => simp [hf]
    | some m => simp [hf]
  · unfold extract_meal_info
    simp only [h1, h2]
    cases hf : mealDatePatterns.findSome? (fun p =>
        (reSearch p text).map (fun m => m)) with
    | none => simp [hf]
    | some m => simp [hf]
  · unfold extract_meal_info
    simp only [h1, h2, h3]
    cases hf : mealDatePatterns.findSome? (fun p =>
        (reSearch p text).map (fun m => m)) with
    | none => simp [hf]
    | some m => simp [hf]

/-- C2 amended at a concrete input: the lunch keyword is present, no
breakfast keyword, and the returned meal type is the lunch keyword. -/
theorem C2_witness :
    containsSub (pyLower "з обіду прибув".data) "зі сніданку".data = false ∧
    containsSub (pyLower "з обіду прибув".data) "з обіду".data = true ∧
    (extract_meal_info "з обіду прибув".data none).1 = some "з обіду".data :=
  ⟨by decide, by decide,
   (C2_amended "з обіду прибув".data none).2.1 (by decide) (by decide)⟩

/-- C5 counterexample: on a block where no configured marker matches,
`find_sections` does return a single whole-block section and does not
fail, but that section is not untyped — it carries the tag `ППОС`, which
is a specific transition-type tag also produced by the configured
markers. -/
theorem C5_counterexample :
    find_sections c5Text specificSectionMarkers =
      [("ППОС".data, c5Text, 0)] ∧
    "ППОС".data ∈ specificSectionMarkers.map (fun ms => ms.2) :=
  ⟨rfl, by decide⟩

/-- C5 (amended): when none of the section markers match (the marker scan
finds no section start), `find_sections` does not fail: it returns exactly
one section spanning the whole block, tagged with the specific arrival
type `ППОС`; and `find_sections` never returns an empty list. -/
theorem C5_amended (text : Str) (sm : List (Str × Str)) :
    (sectionStarts text sm = [] →
      find_sections text sm = [("ППОС".data, text, 0)]) ∧
    find_sections text sm ≠ [] := by
  constructor
  · intro h
    unfold find_sections
    rw [h]
    rfl
  · unfold find_sections
    cases h : sectionStarts text sm with
    | nil => simp
    | cons a l => simp [h]

/-- C5 amended at a concrete input where the marker scan finds nothing. -/
theorem C5_witness :
    sectionStarts c5Text specificSectionMarkers = [] ∧
    find_sections c5Text specificSectionMarkers =
      [("ППОС".data, c5Text, 0)] ∧
    find_sections c5Text specificSectionMarkers ≠ [] :=
  ⟨rfl, (C5_amended c5Text specificSectionMarkers).1 rfl,
   (C5_amended c5Text specificSectionMarkers).2⟩

set_option maxRecDepth 8000 in
/-- C4: on a special-format transfer document (first paragraph with
exclusion info, second with enrollment info, at least three paragraphs,
and a matching `N. VCH rank NAME` personnel line), the special-format
branch of `process_transfer_records` reads the never-initialised counter
`total_found` at its first increment and raises `UnboundLocalError`
instead of completing; the record append and dict item assignment that
precede the increment have already mutated the dedup dict. -/
theorem C4_theorem :
    process_transfer_records (fun _ => none) "01.01.2025".data c4Text c4Rm
      [] (some (.dict [])) =
    .error (.unboundLocal, .dict
      [("солдата_іванов іван іванович_exclusion_10.03.2025".data,
        ⟨some "виключити".data, some "10.03.2025".data⟩)]) :=
  rfl

/-- A character class that rejects the space character fails on all-space
input. -/
theorem sf_cls (p : Char → Bool) (hp : p ' ' = false) : SpaceFail (.cls p) := by
  intro next? st caps k h
  cases hr : st.right with
  | nil => simp [matchS, hr]
  | cons c rest =>
    have hc : c = ' ' := h c (by rw [hr]; exact List.mem_cons_self c rest)
    simp [matchS, hr, hc, hp]

/-- A sequence fails on all-space input when its first part does. -/
theorem sf_seq_left (a b : RE) (ha : SpaceFail a) : SpaceFail (.seq a b) := by
  intro next? st caps k h
  simp only [matchS]
  exact ha next? st caps _ h

/-- A group fails on all-space input when its body does. -/
theorem sf_grp (i : Nat) (a : RE) (ha : SpaceFail a) : SpaceFail (.grp i a) := by
  intro next? st caps k h
  simp only [matchS]
  exact ha next? st caps _ h

/-- A repetition with a positive lower bound fails on all-space input when
its body does. -/
theorem sf_rep (a : RE) (lo : Nat) (hi : Option Nat) (g : Bool)
    (ha : SpaceFail a) : SpaceFail (.rep a (lo + 1) hi g) := by
  intro next? st caps k h
  simp only [matchS, matchRep]
  exact ha next? st caps _ h

/-- `tryAt` finds nothing at an all-space position for a space-failing
regex. -/
theorem sf_tryAt (re : RE) (hre : SpaceFail re) (st : MSt)
    (h : ∀ c ∈ st.right, c = ' ') : tryAt re st = none := by
  have hm : ∀ (f : Nat) (k : MSt → Caps → MRes), matchR f re st [] k = none := by
    intro f k
    cases f with
    | zero => exact hre none st [] k h
    | succ n => exact hre (some (matchR n)) st [] k h
  unfold tryAt
  rw [hm]

/-- `searchFrom` finds nothing in all-space remaining input for a
space-failing regex. -/
theorem sf_searchFrom (re : RE) (hre : SpaceFail re) :
    ∀ (right left : Str) (pos : Nat), (∀ c ∈ right, c = ' ') →
      searchFrom re left right pos = none
  | [], left, pos, h => by
    unfold searchFrom
    exact sf_tryAt re hre ⟨left, [], pos⟩
      (fun c hc => absurd hc (List.not_mem_nil c))
  | c :: rest, left, pos, h => by
    unfold searchFrom
    rw [sf_tryAt re hre ⟨left, c :: rest, pos⟩ h]
    exact sf_searchFrom re hre rest (c :: left) (pos + 1)
      (fun d hd => h d (List.mem_cons_of_mem c hd))

/-- `reFinditer` finds nothing in an all-space string for a space-failing
regex. -/
theorem sf_finditer (re : RE) (hre : SpaceFail re) (s : Str)
    (h : ∀ c ∈ s, c = ' ') : reFinditer re s = [] := by
  have h1 : searchAux re ⟨[], s, 0⟩ = none := sf_searchFrom re hre s [] 0 h
  unfold reFinditer
  simp [finditAux, h1]

/-- Phase 1 of the СЗЧ discovery finds nothing in an all-space string. -/
theorem szch_phase1_spaces (rm : RankMap) (s : Str)
    (hs : ∀ c ∈ s, c = ' ') : szchFindNumbered rm s = ⟨[], []⟩ := by
  have hn : SpaceFail szchNumberedRE :=
    sf_seq_left _ _ (sf_grp _ _ (sf_rep _ _ _ _ (sf_cls _ (by decide))))
  unfold szchFindNumbered
  rewrite [sf_finditer _ hn s hs]
  rfl

set_option maxRecDepth 8000 in
/-- Phase 2 of the СЗЧ discovery changes nothing on an all-space string:
every keyword begins with a non-space letter. -/
theorem szch_phase2_spaces (rm : RankMap) (s : Str)
    (hs : ∀ c ∈ s, c = ' ') (st0 : SzchFind) :
    szchFindByKeywords rm s st0 = st0 := by
  have hk : ∀ k ∈ szchKeys, reFinditer (RE.strCI k) s = [] := by
    intro k hkm
    have hsf : SpaceFail (RE.strCI k) := by
      fin_cases hkm <;> exact sf_seq_left _ _ (sf_cls _ (by decide))
    exact sf_finditer _ hsf s hs
  unfold szchFindByKeywords
  simp only [szchKeys] at hk ⊢
  simp only [List.foldl_cons, List.foldl_nil]
  rw [hk _ (by simp), hk _ (by simp), hk _ (by simp), hk _ (by simp),
      hk _ (by simp), hk _ (by simp), hk _ (by simp), hk _ (by simp),
      hk _ (by simp), hk _ (by simp), hk _ (by simp), hk _ (by simp),
      hk _ (by simp)]
  rfl

/-- Phase 3 of the СЗЧ discovery changes nothing on an all-space string:
every general pattern begins with a non-space letter. -/
theorem szch_phase3_spaces (rm : RankMap) (s : Str)
    (hs : ∀ c ∈ s, c = ' ') :
    szchFindGeneral rm s ⟨[], []⟩ = ⟨[], []⟩ := by
  have hk : ∀ p ∈ szchGeneralPatterns, reFinditer p s = [] := by
    intro p hp
    have hsf : SpaceFail p := by
      fin_cases hp <;>
        exact sf_seq_left _ _ (sf_seq_left _ _ (sf_cls _ (by decide)))
    exact sf_finditer _ hsf s hs
  unfold szchFindGeneral
  simp only [szchGeneralPatterns] at hk ⊢
  simp only [List.foldl_cons, List.foldl_nil]
  rw [hk _ (by simp), hk _ (by simp), hk _ (by simp)]
  rfl

/-- When every discovery phase comes up empty on the truncated search
text, `find_szch_sections` returns no sections. -/
theorem find_szch_sections_empty (text : Str) (rm : RankMap)
    (h1 : szchFindNumbered rm (text.take 100000) = ⟨[], []⟩)
    (h2 : szchFindByKeywords rm (text.take 100000) ⟨[], []⟩ = ⟨[], []⟩)
    (h3 : szchFindGeneral rm (text.take 100000) ⟨[], []⟩ = ⟨[], []⟩) :
    find_szch_sections text rm = [] := by
  simp only [find_szch_sections]
  rewrite [h1]
  rewrite [if_pos (show (SzchFind.mk [] []).sections = [] from rfl)]
  rewrite [h2]
  rewrite [if_pos (show (SzchFind.mk [] []).sections.length < 3 by decide)]
  rewrite [h3]
  rfl

/-- C3 counterexample: СЗЧ discovery does not examine the whole document.
The same candidate absence entry that is found on its own is missed
entirely when it sits after the first 100000 characters, because
`find_szch_sections` only searches `text[:100000]`.  So position alone can
cause an entry to be missed. -/
theorem C3_counterexample :
    find_szch_sections (List.replicate 100000 ' ' ++ c3Entry) c3Rm = [] ∧
    find_szch_sections c3Entry c3Rm ≠ [] := by
  constructor
  · have htake : (List.replicate 100000 ' ' ++ c3Entry).take 100000 =
        List.replicate 100000 ' ' := by
      have h := List.take_left (List.replicate 100000 ' ') c3Entry
      rwa [List.length_replicate] at h
    have hs : ∀ c ∈ List.replicate 100000 ' ', c = ' ' :=
      fun c hc => List.eq_of_mem_replicate hc
    exact find_szch_sections_empty _ c3Rm
      (by rewrite [htake]; exact szch_phase1_spaces c3Rm _ hs)
      (by rewrite [htake]; exact szch_phase2_spaces c3Rm _ hs ⟨[], []⟩)
      (by rewrite [htake]; exact szch_phase3_spaces c3Rm _ hs)
  · decide

/-- C3 (amended): СЗЧ discovery looks only at the first 100000 characters
of the document: `find_szch_sections` gives the same result on the full
text as on `text[:100000]`.  Within that window its multi-strategy search
runs on the whole window (not only the primary processing window), but an
entry beyond the 100000-character cut-off is invisible to it. -/
theorem C3_amended (text : Str) (rm : RankMap) :
    find_szch_sections text rm = find_szch_sections (text.take 100000) rm := by
  unfold find_szch_sections
  rw [List.take_take, Nat.min_self]

/-- C3 amended at a concrete input. -/
theorem C3_witness :
    find_szch_sections c3Entry c3Rm =
      find_szch_sections (c3Entry.take 100000) c3Rm :=
  C3_amended c3Entry c3Rm

/-- A dict whose entries at the looked-up key all carry no action is never
a duplicate for an action-carrying query. -/
theorem ipd_none_entries (id a : Str) (d : Option Str) (m : PPDict)
    (h : ∀ kv ∈ m, kv.1 = pyLower id → kv.2.action = none) :
    is_person_duplicate id (.dict m) (some a) d = false := by
  have e : is_person_duplicate id (.dict m) (some a) d =
      (match m.find? (fun kv => kv.1 = pyLower id) with
       | none => false
       | some kv =>
         match kv.2.action with
         | none => false
         | some ia => if ia ≠ a then false
             else match d, kv.2.date with
               | some dd, some idd => if idd ≠ dd then false else true
               | _, _ => true) := rfl
  cases hf : m.find? (fun kv => kv.1 = pyLower id) with
  | none => simp only [e, hf]
  | some kv =>
    have hmem : kv ∈ m := List.mem_of_find?_eq_some hf
    have hkey : kv.1 = pyLower id := by
      have := List.find?_some hf
      simpa using this
    simp only [e, hf, h kv hmem hkey]

/-- Membership in a dict after item assignment: an old entry or the new
pair. -/
theorem mem_dictSet (m : PPDict) (k : Str) (v : PPInfo) (kv : Str × PPInfo)
    (h : kv ∈ dictSet m k v) : kv ∈ m ∨ kv = (k, v) := by
  unfold dictSet at h
  split at h
  · rcases List.mem_map.mp h with ⟨kv2, hkv2, heq⟩
    by_cases hk : kv2.1 = k
    · right
      rw [← heq, if_pos hk]
    · left
      rwa [← heq, if_neg hk]
  · rcases List.mem_append.mp h with hm | hone
    · exact Or.inl hm
    · exact Or.inr (List.mem_singleton.mp hone)

set_option maxRecDepth 16000 in
/-- One step of the general transfer path on `c6Para`, reduced up to its
two duplicate tests. -/
theorem c6_e1 (today : Str) (pp : List Str) :
    transferParagraph today c6Rm ⟨[], pp.map c6Fm, none, 0⟩ c6Para =
      c6Final pp := rfl

set_option maxRecDepth 16000 in
/-- C6: for the transfer-shaped paragraph `c6Para` mentioning person P
with origin `2 НБ` and destination `5 НБ`, `process_transfer_records`
emits exactly two records for P — one remove-action record at the origin
and one enroll-action record at the destination, sharing rank, name and
military unit — whatever the ambient date, the name-conversion
collaborator and the caller's dedup set (P's dedup keys come back with no
action recorded, so the converted dict never reports a duplicate). -/
theorem C6_theorem (pfn : Str → Option Str) (today : Str) (pp : List Str) :
    process_transfer_records pfn today c6Para c6Rm [] (some (.set pp)) =
      .ok ([{ c6RecEx with name_normal := (pfn c6Name).getD c6Name },
            { c6RecEn with name_normal := (pfn c6Name).getD c6Name }],
           .set pp) := by
  have hdup1 : is_person_duplicate c6IdEx (.dict (pp.map c6Fm))
      (some "виключити".data) (some "10.03.2025".data) = false := by
    apply ipd_none_entries
    intro kv hkv _
    rcases List.mem_map.mp hkv with ⟨p, _, rfl⟩
    rfl
  have hdup2 : is_person_duplicate c6IdEn
      (.dict (dictSet (pp.map c6Fm) (pyLower c6IdEx)
        ⟨some "виключити".data, some "10.03.2025".data⟩))
      (some "зарахувати".data) (some "11.03.2025".data) = false := by
    apply ipd_none_entries
    intro kv hkv hkey
    rcases mem_dictSet _ _ _ _ hkv with hm | hkv1
    · rcases List.mem_map.mp hm with ⟨p, _, rfl⟩
      rfl
    · rw [hkv1] at hkey
      exact absurd hkey (by decide)
  have h2 : c6St2 pp = ⟨[c6RecEx], dictSet (pp.map c6Fm) (pyLower c6IdEx)
      ⟨some "виключити".data, some "10.03.2025".data⟩,
      some "5 НБ".data, 1⟩ := by
    unfold c6St2
    simp [hdup1]
  have h3 : (c6Final pp).results = [c6RecEx, c6RecEn] := by
    unfold c6Final
    rw [h2]
    simp [hdup2]
  have e0 : process_transfer_records pfn today c6Para c6Rm [] (some (.set pp)) =
      .ok (normalizeNames pfn (transferParagraph today c6Rm
        ⟨[], pp.map c6Fm, none, 0⟩ c6Para).results, .set pp) := rfl
  rw [e0, c6_e1 today pp, h3]
  rfl

/-- C6 at concrete inputs. -/
theorem C6_witness :
    process_transfer_records (fun _ => none) "01.01.2025".data c6Para c6Rm
      [] (some (.set [])) =
    .ok ([{ c6RecEx with name_normal := c6Name },
          { c6RecEn with name_normal := c6Name }], .set []) :=
  C6_theorem (fun _ => none) "01.01.2025".data []

set_option maxRecDepth 32000 in
/-- C7 counterexample: a full `process_military_order` run whose output
holds a record with an empty `location` field.  The reserve departure
processor takes its location from `get_location_from_config`, which
returns a location-triggers key verbatim — here the empty string — so
locations are not always defaulted to a non-empty constant. -/
theorem C7_counterexample :
    process_military_order (fun _ => none) "12.10.2026".data c7Doc c7Rm c7Lt =
      .ok c7Out ∧
    c7Out.any (fun r => r.location = []) = true :=
  ⟨rfl, by decide⟩

/-- C7 (amended): `create_personnel_record` always produces a non-empty
military-unit field (unresolved units default to `А1890`), but it passes
the `location` argument through unchanged — the non-emptiness of the
location field is up to each caller, and callers that read it from the
location-triggers config can produce an empty one. -/
theorem C7_amended (rank name : Str) (vch : Option Str)
    (location os_type : Str) (date_k meal : Option Str) (cause : Str) :
    (create_personnel_record rank name vch location os_type date_k meal
      cause).vch ≠ [] ∧
    (create_personnel_record rank name vch location os_type date_k meal
      cause).location = location := by
  constructor
  · cases vch with
    | none => simp [create_personnel_record]
    | some v =>
      simp only [create_personnel_record]
      split
      · rename_i h
        simp at h
        exact h.1
      · decide
  · rfl

/-- C7 amended at concrete inputs: an absent unit is defaulted, an empty
location is passed through. -/
theorem C7_witness :
    (create_personnel_record "солдат".data "СЕМЕНЦОВА Івана Петровича".data
      none [] "Постійний склад".data none none
      "Звільнення в запас".data).vch ≠ [] ∧
    (create_personnel_record "солдат".data "СЕМЕНЦОВА Івана Петровича".data
      none [] "Постійний склад".data none none
      "Звільнення в запас".data).location = [] :=
  C7_amended "солдат".data "СЕМЕНЦОВА Івана Петровича".data none []
    "Постійний склад".data none none "Звільнення в запас".data


set_option maxRecDepth 32000 in
/-- C1 counterexample: a full `process_military_order` run on a document
with the same transfer section twice.  The two sections produce the same
two records again, so the output holds two identical record pairs
(indices 0 and 2, and 1 and 3): equal rank, name, action and date, yet
both survive.  The document-level dedup structure is a Python set the
transfer processor converts to a fresh local dict; the caller's set is
never updated, so nothing is deduplicated across sections. -/
theorem C1_counterexample :
    process_military_order (fun _ => none) "12.10.2026".data c1Doc c1Rm [] =
      .ok c1Out ∧
    c1Out.get? 0 = c1Out.get? 2 ∧
    c1Out.get? 1 = c1Out.get? 3 ∧
    c1Out.get? 0 ≠ none ∧ c1Out.get? 1 ≠ none :=
  ⟨rfl, rfl, rfl, by decide, by decide⟩

/-- An `Except` fold preserves any invariant its step preserves. -/
theorem foldlM_invariant {α β ε : Type} (I : β → Prop)
    (g : β → α → Except ε β)
    (hg : ∀ acc x acc2, I acc → g acc x = .ok acc2 → I acc2) :
    ∀ (xs : List α) (acc out : β), I acc →
      List.foldlM g acc xs = .ok out → I out
  | [], acc, out, hI, h => by
    simp only [List.foldlM] at h
    exact (Except.ok.inj h) ▸ hI
  | x :: xs, acc, out, hI, h => by
    simp only [List.foldlM] at h
    cases hgx : g acc x with
    | error e =>
      rw [hgx] at h
      exact Except.noConfusion h
    | ok acc2 =>
      rw [hgx] at h
      exact foldlM_invariant I g hg xs acc2 out (hg acc x acc2 hI hgx) h

/-- Set membership of the dedup structure, in list form. -/
theorem ppMem_set_iff (s : List Str) (k : Str) :
    ppMem (.set s) k = true ↔ k ∈ s := by
  simp [ppMem, List.contains]

/-- C1 (amended): within one `process_mobilization` call over a live set,
the dedup tracking works — any two records of the output differ in
`(rank, name)`.  (Across sections the guarantee fails, because the
processors replace a set by a fresh local dict and never write back:
see the counterexample.) -/
theorem C1_amended (section_text : Str) (rm : RankMap) (lt : LocTriggers)
    (dd dm : Option Str) (s : List Str) (out : List PRecord × PP)
    (h : process_mobilization section_text rm lt dd dm (.set s) = .ok out) :
    out.1.Pairwise (fun a b => ¬(a.rank = b.rank ∧ a.name = b.name)) := by
  simp only [process_mobilization] at h
  have hout : MobInv out := by
    refine foldlM_invariant MobInv _ ?_ _ ([], PP.set s) out
      ⟨fun r hr => absurd hr (List.not_mem_nil r), List.Pairwise.nil⟩ h
    intro acc pt acc2 hI hstep
    split at hstep
    · exact (Except.ok.inj hstep) ▸ hI
    · refine foldlM_invariant MobInv _ ?_ _ acc acc2 hI hstep
      intro acc3 p acc4 hI3 hstep2
      split at hstep2
      · exact (Except.ok.inj hstep2) ▸ hI3
      · rename_i hm
        cases hpp : acc3.2 with
        | dict m =>
          rw [hpp] at hstep2
          exact Except.noConfusion hstep2
        | set t =>
          rw [hpp] at hstep2
          rw [hpp] at hm
          have hnotmem : (p.rank ++ '_' :: p.name) ∉ t := by
            intro hmem
            exact hm ((ppMem_set_iff t _).mpr hmem)
          have he := Except.ok.inj hstep2
          rw [if_neg (show ¬ (t.contains (p.rank ++ '_' :: p.name) = true)
            from fun hc => hnotmem ((ppMem_set_iff t _).mp hc))] at he
          subst he
          constructor
          · intro r hr
            rcases List.mem_append.mp hr with hold | hnew
            · have := hI3.1 r hold
              rw [hpp] at this
              have hmem := (ppMem_set_iff t _).mp this
              exact (ppMem_set_iff _ _).mpr (List.mem_append.mpr (Or.inl hmem))
            · rw [List.mem_singleton.mp hnew]
              exact (ppMem_set_iff _ _).mpr
                (List.mem_append.mpr (Or.inr (List.mem_singleton.mpr rfl)))
          · refine List.pairwise_append.mpr
              ⟨hI3.2, List.pairwise_singleton _ _, ?_⟩
            intro a ha b hb
            rw [List.mem_singleton.mp hb]
            intro heq
            apply hnotmem
            have heq2 : recId a = p.rank ++ '_' :: p.name := heq
            rw [← heq2]
            have := hI3.1 a ha
            rw [hpp] at this
            exact (ppMem_set_iff t _).mp this
  exact hout.2.imp (fun hab hcon => hab (by
    show _ ++ '_' :: _ = _ ++ '_' :: _
    rw [hcon.1, hcon.2]))

/-- C1 amended at a concrete input. -/
theorem C1_witness :
    process_mobilization [] [] [] none none (.set []) = .ok ([], .set []) ∧
    ([] : List PRecord).Pairwise
      (fun a b => ¬(a.rank = b.rank ∧ a.name = b.name)) :=
  ⟨rfl, C1_amended [] [] [] none none [] ([], .set []) rfl⟩

theorem band_true {a b : Bool} (h : (a && b) = true) :
    a = true ∧ b = true := by
  simp at h
  exact h

theorem band_intro {a b : Bool} (h1 : a = true) (h2 : b = true) :
    (a && b) = true := by
  simp [h1, h2]

theorem bor_elim {a b : Bool} (h : (a || b) = true) :
    a = true ∨ b = true := by
  simpa using h

theorem replaceNewlines_cons (c0 : Char) (rest : Str) (hc : c0 ≠ '\r') :
    replaceNewlines (c0 :: rest) = c0 :: replaceNewlines rest := by
  conv_lhs => unfold replaceNewlines
  split
  · rename_i heq
    exact absurd heq (by simp)
  · rename_i heq
    injection heq with h1 h2
    exact absurd h1 hc
  · rename_i heq
    injection heq with h1 h2
    exact absurd h1 hc
  · rename_i heq
    injection heq with h1 h2
    rw [h1, h2]

theorem replaceNewlines_cr2 (d : Char) (r : Str) (hd : d ≠ '\n') :
    replaceNewlines ('\r' :: d :: r) = '\n' :: replaceNewlines (d :: r) := by
  conv_lhs => unfold replaceNewlines
  split
  · rename_i heq
    exact absurd heq (by simp)
  · rename_i heq
    injection heq with h1 h2
    injection h2 with h3 h4
    exact absurd h3 hd
  · rename_i heq
    injection heq with h1 h2
    rw [h2]
  · rename_i hnot1 hnot2 heq
    injection heq with h1 h2
    exact absurd h1.symm hnot2

theorem rn_no_cr : ∀ (s : Str) (c : Char), c ∈ replaceNewlines s → c ≠ '\r' := by
  intro s
  induction s with
  | nil => intro c h; exact absurd h (List.not_mem_nil c)
  | cons c0 rest ih =>
    intro c h
    by_cases hc0 : c0 = '\r'
    · subst hc0
      cases rest with
      | nil =>
        rw [show replaceNewlines ['\r'] = ['\n'] from rfl] at h
        rcases List.mem_singleton.mp h with rfl
        decide
      | cons d r =>
        by_cases hd : d = '\n'
        · subst hd
          rw [show replaceNewlines ('\r' :: '\n' :: r) =
            '\n' :: replaceNewlines r from rfl] at h
          rcases List.mem_cons.mp h with rfl | h2
          · decide
          · exact ih c (by
              rw [replaceNewlines_cons '\n' r (by decide)]
              exact List.mem_cons_of_mem _ h2)
        · rw [replaceNewlines_cr2 d r hd] at h
          rcases List.mem_cons.mp h with rfl | h2
          · decide
          · exact ih c h2
    · rw [replaceNewlines_cons c0 rest hc0] at h
      rcases List.mem_cons.mp h with rfl | h2
      · exact hc0
      · exact ih c h2

theorem replaceNewlines_id : ∀ (s : Str), (∀ c ∈ s, c ≠ '\r') →
    replaceNewlines s = s
  | [], _ => rfl
  | c0 :: rest, h => by
    rw [replaceNewlines_cons c0 rest (h c0 (List.mem_cons_self c0 rest)),
        replaceNewlines_id rest (fun d hd => h d (List.mem_cons_of_mem c0 hd))]

theorem htOK_cons (c : Char) (l : Str) :
    htOK (c :: l) = (l.head?.all (fun d => !(isHT c && isHT d)) && htOK l) := by
  cases l <;> rfl

theorem htOK_tail (c : Char) (l : Str) (h : htOK (c :: l) = true) :
    htOK l = true := by
  rw [htOK_cons] at h
  exact (band_true h).2

theorem cws_tab : ∀ (s : Str),
    (∀ c ∈ collapseWS s, c ≠ '\t') ∧ (∀ c ∈ skipHT s, c ≠ '\t') := by
  intro s
  induction s with
  | nil => exact ⟨fun c h => absurd h (List.not_mem_nil c),
      fun c h => absurd h (List.not_mem_nil c)⟩
  | cons c0 rest ih =>
    constructor
    · intro c h
      rw [show collapseWS (c0 :: rest) =
        if isHT c0 then ' ' :: skipHT rest else c0 :: collapseWS rest
        from rfl] at h
      by_cases h0 : isHT c0 = true
      · rw [if_pos h0] at h
        rcases List.mem_cons.mp h with rfl | h2
        · decide
        · exact ih.2 c h2
      · rw [if_neg (by simpa using h0)] at h
        rcases List.mem_cons.mp h with rfl | h2
        · intro he
          subst he
          exact h0 (by decide)
        · exact ih.1 c h2
    · intro c h
      rw [show skipHT (c0 :: rest) =
        if isHT c0 then skipHT rest else c0 :: collapseWS rest from rfl] at h
      by_cases h0 : isHT c0 = true
      · rw [if_pos h0] at h
        exact ih.2 c h
      · rw [if_neg (by simpa using h0)] at h
        rcases List.mem_cons.mp h with rfl | h2
        · intro he
          subst he
          exact h0 (by decide)
        · exact ih.1 c h2

theorem cws_mem : ∀ (s : Str) (c : Char),
    (c ∈ collapseWS s → c = ' ' ∨ c ∈ s) ∧
    (c ∈ skipHT s → c = ' ' ∨ c ∈ s) := by
  intro s c
  induction s with
  | nil => exact ⟨fun h => absurd h (List.not_mem_nil c),
      fun h => absurd h (List.not_mem_nil c)⟩
  | cons c0 rest ih =>
    constructor
    · intro h
      rw [show collapseWS (c0 :: rest) =
        if isHT c0 then ' ' :: skipHT rest else c0 :: collapseWS rest
        from rfl] at h
      by_cases h0 : isHT c0 = true
      · rw [if_pos h0] at h
        rcases List.mem_cons.mp h with rfl | h2
        · exact Or.inl rfl
        · rcases ih.2 h2 with h3 | h3
          · exact Or.inl h3
          · exact Or.inr (List.mem_cons_of_mem c0 h3)
      · rw [if_neg (by simpa using h0)] at h
        rcases List.mem_cons.mp h with hceq | h2
        · exact Or.inr (hceq ▸ List.mem_cons_self c0 rest)
        · rcases ih.1 h2 with h3 | h3
          · exact Or.inl h3
          · exact Or.inr (List.mem_cons_of_mem c0 h3)
    · intro h
      rw [show skipHT (c0 :: rest) =
        if isHT c0 then skipHT rest else c0 :: collapseWS rest from rfl] at h
      by_cases h0 : isHT c0 = true
      · rw [if_pos h0] at h
        rcases ih.2 h with h3 | h3
        · exact Or.inl h3
        · exact Or.inr (List.mem_cons_of_mem c0 h3)
      · rw [if_neg (by simpa using h0)] at h
        rcases List.mem_cons.mp h with hceq | h2
        · exact Or.inr (hceq ▸ List.mem_cons_self c0 rest)
        · rcases ih.1 h2 with h3 | h3
          · exact Or.inl h3
          · exact Or.inr (List.mem_cons_of_mem c0 h3)

theorem cws_htOK : ∀ (s : Str),
    htOK (collapseWS s) = true ∧ htOK (skipHT s) = true ∧
    (∀ d, (skipHT s).head? = some d → isHT d = false) := by
  intro s
  induction s with
  | nil => exact ⟨rfl, rfl, fun d h => by cases h⟩
  | cons c0 rest ih =>
    refine ⟨?_, ?_, ?_⟩
    · rw [show collapseWS (c0 :: rest) =
        if isHT c0 then ' ' :: skipHT rest else c0 :: collapseWS rest
        from rfl]
      by_cases h0 : isHT c0 = true
      · rw [if_pos h0, htOK_cons]
        refine band_intro ?_ ih.2.1
        cases hh : (skipHT rest).head? with
        | none => rfl
        | some d =>
          simp only [Option.all_some]
          rw [ih.2.2 d hh]
          decide
      · rw [if_neg (by simpa using h0), htOK_cons]
        refine band_intro ?_ ih.1
        cases hh : (collapseWS rest).head? with
        | none => rfl
        | some d =>
          simp only [Option.all_some]
          have h0f : isHT c0 = false := by simpa using h0
          rw [h0f]
          rfl
    · rw [show skipHT (c0 :: rest) =
        if isHT c0 then skipHT rest else c0 :: collapseWS rest from rfl]
      by_cases h0 : isHT c0 = true
      · rw [if_pos h0]
        exact ih.2.1
      · rw [if_neg (by simpa using h0), htOK_cons]
        refine band_intro ?_ ih.1
        cases hh : (collapseWS rest).head? with
        | none => rfl
        | some d =>
          simp only [Option.all_some]
          have h0f : isHT c0 = false := by simpa using h0
          rw [h0f]
          rfl
    · rw [show skipHT (c0 :: rest) =
        if isHT c0 then skipHT rest else c0 :: collapseWS rest from rfl]
      by_cases h0 : isHT c0 = true
      · rw [if_pos h0]
        exact ih.2.2
      · rw [if_neg (by simpa using h0)]
        intro d hd
        rw [show (c0 :: collapseWS rest).head? = some c0 from rfl] at hd
        injection hd with hd
        rw [← hd]
        simpa using h0

theorem skipHT_eq_cws (s : Str)
    (h : ∀ d, s.head? = some d → isHT d = false) : skipHT s = collapseWS s := by
  cases s with
  | nil => rfl
  | cons d r =>
    have hd := h d rfl
    rw [show skipHT (d :: r) = if isHT d then skipHT r else d :: collapseWS r
        from rfl,
        show collapseWS (d :: r) =
          if isHT d then ' ' :: skipHT r else d :: collapseWS r from rfl,
        if_neg (by simp [hd]), if_neg (by simp [hd])]

theorem cws_id : ∀ (s : Str), (∀ c ∈ s, c ≠ '\t') → htOK s = true →
    collapseWS s = s
  | [], _, _ => rfl
  | c0 :: rest, h, hok => by
    rw [show collapseWS (c0 :: rest) =
      if isHT c0 then ' ' :: skipHT rest else c0 :: collapseWS rest from rfl]
    have htl : htOK rest = true := htOK_tail c0 rest hok
    have hrest := cws_id rest (fun d hd => h d (List.mem_cons_of_mem c0 hd)) htl
    by_cases h0 : isHT c0 = true
    · have hc0 : c0 = ' ' := by
        have hnt := h c0 (List.mem_cons_self c0 rest)
        have h0x : (decide (c0 = ' ') || decide (c0 = '	')) = true := h0
        rcases bor_elim h0x with h3 | h3
        · exact of_decide_eq_true h3
        · exact absurd (of_decide_eq_true h3) hnt
      have hhead : ∀ d, rest.head? = some d → isHT d = false := by
        intro d hd
        rw [htOK_cons, hd] at hok
        have := (band_true hok).1
        rw [h0] at this
        simpa using this
      rw [if_pos h0, skipHT_eq_cws rest hhead, hrest, hc0]
    · rw [if_neg (by simpa using h0), hrest]

theorem splitCh_no_sep (sep : Char) :
    ∀ (s : Str), ∀ l ∈ splitCh sep s, ∀ c ∈ l, c ≠ sep := by
  intro s
  induction s with
  | nil =>
    intro l hl c hc
    rcases List.mem_singleton.mp hl with rfl
    exact absurd hc (List.not_mem_nil c)
  | cons c0 rest ih =>
    intro l hl c hc
    rw [show splitCh sep (c0 :: rest) =
      if c0 = sep then [] :: splitCh sep rest
      else match splitCh sep rest with
        | [] => [[c0]]
        | l :: ls => (c0 :: l) :: ls from rfl] at hl
    by_cases h0 : c0 = sep
    · rw [if_pos h0] at hl
      rcases List.mem_cons.mp hl with hleq | h2
      · subst hleq
        exact absurd hc (List.not_mem_nil c)
      · exact ih l h2 c hc
    · rw [if_neg h0] at hl
      cases hs : splitCh sep rest with
      | nil =>
        rw [hs] at hl
        rcases List.mem_singleton.mp hl with rfl
        rcases List.mem_singleton.mp hc with rfl
        exact h0
      | cons l0 ls =>
        rw [hs] at hl
        rcases List.mem_cons.mp hl with hleq | h2
        · subst hleq
          rcases List.mem_cons.mp hc with rfl | h3
          · exact h0
          · exact ih l0 (hs ▸ List.mem_cons_self l0 ls) c h3
        · exact ih l (hs ▸ List.mem_cons_of_mem l0 h2) c hc

theorem splitCh_mem_subset (sep : Char) :
    ∀ (s : Str), ∀ l ∈ splitCh sep s, ∀ c ∈ l, c ∈ s := by
  intro s
  induction s with
  | nil =>
    intro l hl c hc
    rcases List.mem_singleton.mp hl with rfl
    exact absurd hc (List.not_mem_nil c)
  | cons c0 rest ih =>
    intro l hl c hc
    rw [show splitCh sep (c0 :: rest) =
      if c0 = sep then [] :: splitCh sep rest
      else match splitCh sep rest with
        | [] => [[c0]]
        | l :: ls => (c0 :: l) :: ls from rfl] at hl
    by_cases h0 : c0 = sep
    · rw [if_pos h0] at hl
      rcases List.mem_cons.mp hl with hleq | h2
      · subst hleq
        exact absurd hc (List.not_mem_nil c)
      · exact List.mem_cons_of_mem c0 (ih l h2 c hc)
    · rw [if_neg h0] at hl
      cases hs : splitCh sep rest with
      | nil =>
        rw [hs] at hl
        rcases List.mem_singleton.mp hl with rfl
        rcases List.mem_singleton.mp hc with rfl
        exact List.mem_cons_self c rest
      | cons l0 ls =>
        rw [hs] at hl
        rcases List.mem_cons.mp hl with hleq | h2
        · subst hleq
          rcases List.mem_cons.mp hc with hceq | h3
          · exact hceq ▸ List.mem_cons_self c0 rest
          · exact List.mem_cons_of_mem c0
              (ih l0 (hs ▸ List.mem_cons_self l0 ls) c h3)
        · exact List.mem_cons_of_mem c0
            (ih l (hs ▸ List.mem_cons_of_mem l0 h2) c hc)

theorem splitCh_single (sep : Char) :
    ∀ (l : Str), (∀ c ∈ l, c ≠ sep) → splitCh sep l = [l]
  | [], _ => rfl
  | c0 :: rest, h => by
    rw [show splitCh sep (c0 :: rest) =
      if c0 = sep then [] :: splitCh sep rest
      else match splitCh sep rest with
        | [] => [[c0]]
        | l :: ls => (c0 :: l) :: ls from rfl,
      if_neg (h c0 (List.mem_cons_self c0 rest)),
      splitCh_single sep rest (fun d hd => h d (List.mem_cons_of_mem c0 hd))]

theorem splitCh_append (sep : Char) :
    ∀ (l t : Str), (∀ c ∈ l, c ≠ sep) →
      splitCh sep (l ++ sep :: t) = l :: splitCh sep t
  | [], t, _ => by
    rw [show (([] : Str) ++ sep :: t) = sep :: t from rfl,
      show splitCh sep (sep :: t) =
        if sep = sep then [] :: splitCh sep t
        else match splitCh sep t with
          | [] => [[sep]]
          | l :: ls => (sep :: l) :: ls from rfl,
      if_pos rfl]
  | c0 :: rest, t, h => by
    rw [show ((c0 :: rest) ++ sep :: t) = c0 :: (rest ++ sep :: t) from rfl,
      show splitCh sep (c0 :: (rest ++ sep :: t)) =
        if c0 = sep then [] :: splitCh sep (rest ++ sep :: t)
        else match splitCh sep (rest ++ sep :: t) with
          | [] => [[c0]]
          | l :: ls => (c0 :: l) :: ls from rfl,
      if_neg (h c0 (List.mem_cons_self c0 rest)),
      splitCh_append sep rest t (fun d hd => h d (List.mem_cons_of_mem c0 hd))]

theorem splitCh_joinCh (sep : Char) :
    ∀ (L : List Str), L ≠ [] → (∀ l ∈ L, ∀ c ∈ l, c ≠ sep) →
      splitCh sep (joinCh sep L) = L
  | [], h, _ => absurd rfl h
  | [l], _, hl => by
    rw [show joinCh sep [l] = l from rfl,
      splitCh_single sep l (hl l (List.mem_singleton.mpr rfl))]
  | l :: l2 :: ls, _, hl => by
    rw [show joinCh sep (l :: l2 :: ls) = l ++ sep :: joinCh sep (l2 :: ls)
        from rfl,
      splitCh_append sep l (joinCh sep (l2 :: ls))
        (hl l (List.mem_cons_self _ _)),
      splitCh_joinCh sep (l2 :: ls) (by simp)
        (fun l3 hl3 => hl l3 (List.mem_cons_of_mem l hl3))]

theorem joinCh_mem (sep : Char) :
    ∀ (L : List Str) (c : Char), c ∈ joinCh sep L →
      c = sep ∨ ∃ l ∈ L, c ∈ l
  | [], c, h => absurd h (List.not_mem_nil c)
  | [l], c, h => Or.inr ⟨l, List.mem_singleton.mpr rfl, h⟩
  | l :: l2 :: ls, c, h => by
    rw [show joinCh sep (l :: l2 :: ls) = l ++ sep :: joinCh sep (l2 :: ls)
        from rfl] at h
    rcases List.mem_append.mp h with h2 | h2
    · exact Or.inr ⟨l, List.mem_cons_self _ _, h2⟩
    · rcases List.mem_cons.mp h2 with rfl | h3
      · exact Or.inl rfl
      · rcases joinCh_mem sep (l2 :: ls) c h3 with h4 | ⟨l4, hl4, hc4⟩
        · exact Or.inl h4
        · exact Or.inr ⟨l4, List.mem_cons_of_mem l hl4, hc4⟩

theorem joinCh_map (f : Char → Char) (sep : Char) (hf : f sep = sep) :
    ∀ (L : List Str),
      (joinCh sep L).map f = joinCh sep (L.map (List.map f))
  | [] => rfl
  | [l] => rfl
  | l :: l2 :: ls => by
    rw [show joinCh sep (l :: l2 :: ls) = l ++ sep :: joinCh sep (l2 :: ls)
        from rfl, List.map_append, List.map_cons, hf,
      joinCh_map f sep hf (l2 :: ls)]
    rfl

theorem joinCh_ne_nil (sep : Char) (l : Str) (ls : List Str) (h : l ≠ []) :
    joinCh sep (l :: ls) ≠ [] := by
  cases ls with
  | nil => exact h
  | cons l2 ls2 =>
    rw [show joinCh sep (l :: l2 :: ls2) = l ++ sep :: joinCh sep (l2 :: ls2)
        from rfl]
    cases l with
    | nil => exact absurd rfl h
    | cons c r => simp

theorem joinCh_head? (sep : Char) (l : Str) (ls : List Str) (h : l ≠ []) :
    (joinCh sep (l :: ls)).head? = l.head? := by
  cases ls with
  | nil => rfl
  | cons l2 ls2 =>
    rw [show joinCh sep (l :: l2 :: ls2) = l ++ sep :: joinCh sep (l2 :: ls2)
        from rfl]
    cases l with
    | nil => exact absurd rfl h
    | cons c r => rfl

theorem getLast?_append_ne (t l : Str) (h : t ≠ []) :
    (l ++ t).getLast? = t.getLast? := by
  rw [← List.head?_reverse, ← List.head?_reverse, List.reverse_append]
  cases ht : t.reverse with
  | nil => exact absurd (by simpa using ht) h
  | cons c r => rfl

theorem joinCh_getLast? (sep : Char) :
    ∀ (ls : List Str) (l : Str), (∀ l2 ∈ l :: ls, l2 ≠ []) →
      ∃ last ∈ l :: ls, (joinCh sep (l :: ls)).getLast? = last.getLast?
  | [], l, _ => ⟨l, List.mem_singleton.mpr rfl, rfl⟩
  | l2 :: ls2, l, h => by
    rcases joinCh_getLast? sep ls2 l2
      (fun x hx => h x (List.mem_cons_of_mem l hx)) with ⟨last, hlast, hlg⟩
    refine ⟨last, List.mem_cons_of_mem l hlast, ?_⟩
    rw [show joinCh sep (l :: l2 :: ls2) = l ++ sep :: joinCh sep (l2 :: ls2)
        from rfl]
    rw [getLast?_append_ne _ _ (by simp)]
    rw [show (sep :: joinCh sep (l2 :: ls2) : Str) =
      [sep] ++ joinCh sep (l2 :: ls2) from rfl]
    rw [getLast?_append_ne _ _ (joinCh_ne_nil sep l2 ls2
      (h l2 (List.mem_cons_of_mem l (List.mem_cons_self _ _))))]
    exact hlg

theorem dw_head (p : Char → Bool) :
    ∀ (l : Str) (c : Char), (l.dropWhile p).head? = some c → p c = false := by
  intro l
  induction l with
  | nil => intro c h; cases h
  | cons c0 rest ih =>
    intro c h
    by_cases h0 : p c0 = true
    · rw [List.dropWhile_cons_of_pos h0] at h
      exact ih c h
    · rw [List.dropWhile_cons_of_neg h0] at h
      injection h with h
      rw [← h]
      simpa using h0

theorem dw_id_of_head (p : Char → Bool) (l : Str)
    (h : ∀ c, l.head? = some c → p c = false) : l.dropWhile p = l := by
  cases l with
  | nil => rfl
  | cons c0 rest =>
    rw [List.dropWhile_cons_of_neg (by rw [h c0 rfl]; exact Bool.false_ne_true)]

theorem pyStrip_id (s : Str)
    (h1 : ∀ c, s.head? = some c → isPySpace c = false)
    (h2 : ∀ c, s.getLast? = some c → isPySpace c = false) :
    pyStrip s = s := by
  unfold pyStrip
  rw [dw_id_of_head isPySpace s h1]
  rw [dw_id_of_head isPySpace s.reverse
    (fun c hc => h2 c (by rwa [List.head?_reverse] at hc))]
  exact List.reverse_reverse s

theorem pyStrip_front (s : Str) :
    ∀ c, (pyStrip s).head? = some c → isPySpace c = false := by
  intro c hc
  rw [show pyStrip s =
    ((s.dropWhile isPySpace).reverse.dropWhile isPySpace).reverse from rfl,
    List.head?_reverse] at hc
  rcases hd : (s.dropWhile isPySpace).reverse.dropWhile isPySpace
    with _ | ⟨d, r⟩
  · rw [hd] at hc
    cases hc
  · have hsfx : (s.dropWhile isPySpace).reverse.dropWhile isPySpace <:+
        (s.dropWhile isPySpace).reverse := List.dropWhile_suffix _
    rcases hsfx with ⟨pre, hpre⟩
    have h2 : ((s.dropWhile isPySpace).reverse).getLast? = some c := by
      rw [← hpre, getLast?_append_ne _ _ (by rw [hd]; simp)]
      exact hc
    rw [List.getLast?_reverse] at h2
    exact dw_head isPySpace s c h2

theorem pyStrip_back (s : Str) :
    ∀ c, (pyStrip s).getLast? = some c → isPySpace c = false := by
  intro c hc
  unfold pyStrip at hc
  rw [← List.head?_reverse, List.reverse_reverse] at hc
  exact dw_head isPySpace _ c hc

theorem pyStrip_idem (s : Str) : pyStrip (pyStrip s) = pyStrip s :=
  pyStrip_id (pyStrip s) (pyStrip_front s) (pyStrip_back s)

theorem pyStrip_chunk (s : Str) : pyStrip s <:+: s := by
  have h1 : (s.dropWhile isPySpace).reverse.dropWhile isPySpace <:+
      (s.dropWhile isPySpace).reverse := List.dropWhile_suffix _
  have h2 : s.dropWhile isPySpace <:+ s := List.dropWhile_suffix _
  rcases h1 with ⟨pre, hpre⟩
  rcases h2 with ⟨pre2, hpre2⟩
  refine ⟨pre2, pre.reverse, ?_⟩
  rw [show pyStrip s =
    ((s.dropWhile isPySpace).reverse.dropWhile isPySpace).reverse from rfl]
  have h3 : ((s.dropWhile isPySpace).reverse.dropWhile isPySpace).reverse ++
      pre.reverse = s.dropWhile isPySpace := by
    have h4 := congrArg List.reverse hpre
    rw [List.reverse_append, List.reverse_reverse] at h4
    exact h4
  rw [List.append_assoc, h3, hpre2]

theorem pyStrip_subset (s : Str) (c : Char) (h : c ∈ pyStrip s) : c ∈ s :=
  (pyStrip_chunk s).subset h

theorem htOK_append_right : ∀ (l t : Str), htOK (l ++ t) = true →
    htOK t = true
  | [], _, h => h
  | [c], t, h => htOK_tail c t (by simpa using h)
  | c :: d :: r, t, h => by
    have e : htOK ((c :: d :: r) ++ t) =
        (!(isHT c && isHT d) && htOK ((d :: r) ++ t)) := rfl
    rw [e] at h
    exact htOK_append_right (d :: r) t (band_true h).2

theorem htOK_append_left : ∀ (l t : Str), htOK (l ++ t) = true →
    htOK l = true
  | [], _, _ => rfl
  | [_], _, _ => rfl
  | c :: d :: r, t, h => by
    have e : htOK ((c :: d :: r) ++ t) =
        (!(isHT c && isHT d) && htOK ((d :: r) ++ t)) := rfl
    rw [e] at h
    have hp := band_true h
    have e2 : htOK (c :: d :: r) = (!(isHT c && isHT d) && htOK (d :: r)) := rfl
    rw [e2]
    exact band_intro hp.1 (htOK_append_left (d :: r) t hp.2)

theorem htOK_chunk (l s : Str) (h : l <:+: s) (hs : htOK s = true) :
    htOK l = true := by
  rcases h with ⟨pre, post, hps⟩
  rw [← hps, List.append_assoc] at hs
  exact htOK_append_left _ _ (htOK_append_right _ _ hs)

theorem htOK_append_sep (sep : Char) (hsep : isHT sep = false) :
    ∀ (l t : Str), htOK l = true → htOK t = true →
      htOK (l ++ sep :: t) = true
  | [], t, _, ht => by
    rw [List.nil_append, htOK_cons]
    refine band_intro ?_ ht
    cases t with
    | nil => rfl
    | cons d r => simp [hsep]
  | [c], t, _, ht => by
    have e : htOK (([c] : Str) ++ sep :: t) =
        (!(isHT c && isHT sep) && htOK (sep :: t)) := rfl
    rw [e]
    refine band_intro ?_ (htOK_append_sep sep hsep [] t rfl ht)
    rw [hsep]
    simp
  | c :: d :: r, t, hl, ht => by
    have e0 : htOK (c :: d :: r) = (!(isHT c && isHT d) && htOK (d :: r)) := rfl
    rw [e0] at hl
    have hp := band_true hl
    have e : htOK ((c :: d :: r) ++ sep :: t) =
        (!(isHT c && isHT d) && htOK ((d :: r) ++ sep :: t)) := rfl
    rw [e]
    exact band_intro hp.1 (htOK_append_sep sep hsep (d :: r) t hp.2 ht)

theorem htOK_join (sep : Char) (hsep : isHT sep = false) :
    ∀ (L : List Str), (∀ l ∈ L, htOK l = true) →
      htOK (joinCh sep L) = true
  | [], _ => rfl
  | [l], h => h l (List.mem_singleton.mpr rfl)
  | l :: l2 :: ls, h => by
    rw [show joinCh sep (l :: l2 :: ls) = l ++ sep :: joinCh sep (l2 :: ls)
        from rfl]
    exact htOK_append_sep sep hsep l _ (h l (List.mem_cons_self _ _))
      (htOK_join sep hsep (l2 :: ls)
        (fun l3 hl3 => h l3 (List.mem_cons_of_mem l hl3)))

theorem chunk_cons (c : Char) (l s : Str) (h : l <:+: s) : l <:+: c :: s := by
  rcases h with ⟨p, q, hpq⟩
  exact ⟨c :: p, q, by rw [show (c :: p) ++ l ++ q = c :: (p ++ l ++ q)
    from rfl, hpq]⟩

theorem splitCh_head_prefix (sep : Char) :
    ∀ (s : Str) (l0 : Str) (ls : List Str),
      splitCh sep s = l0 :: ls → l0 <+: s
  | [], l0, ls, h => by
    injection h with h1 h2
    rw [← h1]
  | c :: rest, l0, ls, h => by
    rw [show splitCh sep (c :: rest) =
      if c = sep then [] :: splitCh sep rest
      else match splitCh sep rest with
        | [] => [[c]]
        | l :: ls => (c :: l) :: ls from rfl] at h
    by_cases h0 : c = sep
    · rw [if_pos h0] at h
      injection h with h1 h2
      rw [← h1]
      exact List.nil_prefix
    · rw [if_neg h0] at h
      cases hs : splitCh sep rest with
      | nil =>
        rw [hs] at h
        injection h with h1 h2
        rw [← h1]
        exact ⟨rest, rfl⟩
      | cons m ms =>
        rw [hs] at h
        injection h with h1 h2
        rcases splitCh_head_prefix sep rest m ms hs with ⟨t, ht⟩
        rw [← h1]
        exact ⟨t, by rw [show (c :: m) ++ t = c :: (m ++ t) from rfl, ht]⟩

theorem splitCh_chunk (sep : Char) :
    ∀ (s : Str), ∀ l ∈ splitCh sep s, l <:+: s := by
  intro s
  induction s with
  | nil =>
    intro l hl
    rcases List.mem_singleton.mp hl with rfl
    exact ⟨[], [], rfl⟩
  | cons c rest ih =>
    intro l hl
    rw [show splitCh sep (c :: rest) =
      if c = sep then [] :: splitCh sep rest
      else match splitCh sep rest with
        | [] => [[c]]
        | l :: ls => (c :: l) :: ls from rfl] at hl
    by_cases h0 : c = sep
    · rw [if_pos h0] at hl
      rcases List.mem_cons.mp hl with hleq | h2
      · rw [hleq]
        exact ⟨[], c :: rest, rfl⟩
      · exact chunk_cons c l rest (ih l h2)
    · rw [if_neg h0] at hl
      cases hs : splitCh sep rest with
      | nil =>
        rw [hs] at hl
        rcases List.mem_singleton.mp hl with rfl
        exact ⟨[], rest, rfl⟩
      | cons m ms =>
        rw [hs] at hl
        rcases List.mem_cons.mp hl with hleq | h2
        · rcases splitCh_head_prefix sep rest m ms hs with ⟨t, ht⟩
          rw [hleq]
          exact ⟨[], t, by rw [show ([] : Str) ++ (c :: m) ++ t =
            c :: (m ++ t) from rfl, ht]⟩
        · exact chunk_cons c l rest (ih l (hs ▸ List.mem_cons_of_mem m h2))

theorem isQuote_char (c : Char) (h : isQuoteCh c = true) :
    c = '«' ∨ c = '»' ∨ c = '"' ∨ c = '„' := by
  have h2 : (decide (c.toNat = 0xab) || decide (c.toNat = 0xbb) ||
      decide (c.toNat = 0x22) || decide (c.toNat = 0x201e)) = true := h
  have conv : ∀ (k : Nat), c.toNat = k → c = Char.ofNat k := by
    intro k hk
    rw [← Char.ofNat_toNat c, hk]
  rcases bor_elim h2 with h3 | h3
  · rcases bor_elim h3 with h4 | h4
    · rcases bor_elim h4 with h5 | h5
      · exact Or.inl (by rw [conv 0xab (of_decide_eq_true h5)])
      · exact Or.inr (Or.inl (by rw [conv 0xbb (of_decide_eq_true h5)]))
    · exact Or.inr (Or.inr (Or.inl
        (by rw [conv 0x22 (of_decide_eq_true h4)])))
  · exact Or.inr (Or.inr (Or.inr
      (by rw [conv 0x201e (of_decide_eq_true h3)])))

theorem nq_nq (c : Char) : normQuoteCh (normQuoteCh c) = normQuoteCh c := by
  by_cases h : isQuoteCh c = true
  · have e1 : normQuoteCh c = '"' := by
      unfold normQuoteCh
      rw [if_pos h]
    rw [e1]
    unfold normQuoteCh
    rw [if_pos (by decide)]
  · have e1 : normQuoteCh c = c := by
      unfold normQuoteCh
      rw [if_neg h]
    rw [e1]
    exact e1

theorem nq_class (c : Char) :
    isPySpace (normQuoteCh c) = isPySpace c ∧
    isHT (normQuoteCh c) = isHT c ∧
    (normQuoteCh c = '\n' → c = '\n') ∧
    (normQuoteCh c = '\r' → c = '\r') ∧
    (normQuoteCh c = '\t' → c = '\t') := by
  by_cases h : isQuoteCh c = true
  · rcases isQuote_char c h with rfl | rfl | rfl | rfl <;>
      exact ⟨by decide, by decide, by decide, by decide, by decide⟩
  · have e : normQuoteCh c = c := by
      unfold normQuoteCh
      rw [if_neg h]
    rw [e]
    exact ⟨rfl, rfl, fun x => x, fun x => x, fun x => x⟩

theorem map_id_of (f : Char → Char) :
    ∀ (l : Str), (∀ c ∈ l, f c = c) → l.map f = l
  | [], _ => rfl
  | c :: r, h => by
    rw [List.map_cons, h c (List.mem_cons_self c r),
      map_id_of f r (fun d hd => h d (List.mem_cons_of_mem c hd))]

theorem stripped_front (l : Str) (h : pyStrip l = l) :
    ∀ c, l.head? = some c → isPySpace c = false :=
  fun c hc => pyStrip_front l c (by rw [h]; exact hc)

theorem stripped_back (l : Str) (h : pyStrip l = l) :
    ∀ c, l.getLast? = some c → isPySpace c = false :=
  fun c hc => pyStrip_back l c (by rw [h]; exact hc)

theorem htOK_map (f : Char → Char) (hf : ∀ c, isHT (f c) = isHT c) :
    ∀ (l : Str), htOK l = true → htOK (l.map f) = true
  | [], _ => rfl
  | [_], _ => rfl
  | c :: d :: r, h => by
    have e0 : htOK (c :: d :: r) = (!(isHT c && isHT d) && htOK (d :: r)) := rfl
    rw [e0] at h
    have hp := band_true h
    have e : htOK ((c :: d :: r).map f) =
        (!(isHT (f c) && isHT (f d)) && htOK ((d :: r).map f)) := rfl
    rw [e, hf c, hf d]
    exact band_intro hp.1 (htOK_map f hf (d :: r) hp.2)

theorem getLast?_map (f : Char → Char) (l : Str) :
    (l.map f).getLast? = l.getLast?.map f := by
  rw [← List.head?_reverse, ← List.map_reverse, List.head?_map,
    List.head?_reverse]

theorem nt_canonical (L : List Str) (hL : L ≠ [])
    (h : ∀ l ∈ L, LineOK l) :
    normalize_text (joinCh '\n' L) = joinCh '\n' L := by
  obtain ⟨l0, ls, rfl⟩ : ∃ l0 ls, L = l0 :: ls := by
    cases L with
    | nil => exact absurd rfl hL
    | cons a b => exact ⟨a, b, rfl⟩
  have hl0 := h l0 (List.mem_cons_self _ _)
  have hyne : joinCh '\n' (l0 :: ls) ≠ [] := joinCh_ne_nil '\n' l0 ls hl0.1
  have e0 : normalize_text (joinCh '\n' (l0 :: ls)) =
      pyStrip (List.map normQuoteCh (joinCh '\n'
        (List.filter (fun l => decide (l ≠ [])) (List.map pyStrip
          (splitCh '\n' (collapseWS (replaceNewlines
            (joinCh '\n' (l0 :: ls))))))))) := by
    unfold normalize_text
    rw [if_neg hyne]
  have hmemy := joinCh_mem '\n' (l0 :: ls)
  have hnoCR : ∀ c ∈ joinCh '\n' (l0 :: ls), c ≠ '\r' := by
    intro c hc
    rcases hmemy c hc with rfl | ⟨l, hl, hcl⟩
    · decide
    · exact ((h l hl).2.1 c hcl).2.1
  have hnoTab : ∀ c ∈ joinCh '\n' (l0 :: ls), c ≠ '\t' := by
    intro c hc
    rcases hmemy c hc with rfl | ⟨l, hl, hcl⟩
    · decide
    · exact ((h l hl).2.1 c hcl).2.2.1
  have hrn := replaceNewlines_id (joinCh '\n' (l0 :: ls)) hnoCR
  have hht : htOK (joinCh '\n' (l0 :: ls)) = true :=
    htOK_join '\n' (by decide) (l0 :: ls) (fun l hl => (h l hl).2.2.1)
  have hcws := cws_id (joinCh '\n' (l0 :: ls)) hnoTab hht
  have hsplit : splitCh '\n' (joinCh '\n' (l0 :: ls)) = l0 :: ls :=
    splitCh_joinCh '\n' (l0 :: ls) (by simp)
      (fun l hl c hc => ((h l hl).2.1 c hc).1)
  have hmapstrip : (l0 :: ls).map pyStrip = l0 :: ls := by
    have h1 : (l0 :: ls).map pyStrip = (l0 :: ls).map id :=
      List.map_congr_left (fun l hl => (h l hl).2.2.2)
    rw [h1, List.map_id]
  have hfilter : (l0 :: ls).filter (fun l => decide (l ≠ [])) = l0 :: ls :=
    List.filter_eq_self.mpr (fun l hl => decide_eq_true (h l hl).1)
  have hmapnq : (joinCh '\n' (l0 :: ls)).map normQuoteCh =
      joinCh '\n' (l0 :: ls) := by
    apply map_id_of
    intro c hc
    rcases hmemy c hc with rfl | ⟨l, hl, hcl⟩
    · decide
    · exact ((h l hl).2.1 c hcl).2.2.2
  have hps : pyStrip (joinCh '\n' (l0 :: ls)) = joinCh '\n' (l0 :: ls) := by
    apply pyStrip_id
    · intro c hc
      rw [joinCh_head? '\n' l0 ls hl0.1] at hc
      exact stripped_front l0 hl0.2.2.2 c hc
    · intro c hc
      rcases joinCh_getLast? '\n' ls l0 (fun l2 hl2 => (h l2 hl2).1)
        with ⟨last, hlast, hlg⟩
      rw [hlg] at hc
      exact stripped_back last (h last hlast).2.2.2 c hc
  rw [e0, hrn, hcws, hsplit, hmapstrip, hfilter, hmapnq, hps]

theorem nt_shape (x : Str) : normalize_text x = [] ∨
    ∃ L, L ≠ [] ∧ (∀ l ∈ L, LineOK l) ∧ normalize_text x = joinCh '\n' L := by
  by_cases hx : x = []
  · left
    rw [hx]
    rfl
  · have e0 : normalize_text x =
        pyStrip (List.map normQuoteCh (joinCh '\n'
          (List.filter (fun l => decide (l ≠ [])) (List.map pyStrip
            (splitCh '\n' (collapseWS (replaceNewlines x))))))) := by
      unfold normalize_text
      rw [if_neg hx]
    cases hL0 : List.filter (fun l => decide (l ≠ [])) (List.map pyStrip
        (splitCh '\n' (collapseWS (replaceNewlines x)))) with
    | nil =>
      left
      rw [e0, hL0]
      rfl
    | cons m0 ms =>
      right
      have hpre : ∀ l ∈ m0 :: ms, l ≠ [] ∧
          (∀ c ∈ l, c ≠ '\n' ∧ c ≠ '\r' ∧ c ≠ '\t') ∧
          htOK l = true ∧ pyStrip l = l := by
        intro l hl
        have hl2 := List.mem_filter.mp (hL0 ▸ hl)
        have hlne : l ≠ [] := of_decide_eq_true hl2.2
        rcases List.mem_map.mp hl2.1 with ⟨l1, hl1, hps1⟩
        refine ⟨hlne, ?_, ?_, ?_⟩
        · intro c hc
          have hcl1 : c ∈ l1 := pyStrip_subset l1 c (hps1 ▸ hc)
          have hccws : c ∈ collapseWS (replaceNewlines x) :=
            splitCh_mem_subset '\n' _ l1 hl1 c hcl1
          refine ⟨splitCh_no_sep '\n' _ l1 hl1 c hcl1, ?_,
            (cws_tab (replaceNewlines x)).1 c hccws⟩
          intro hcr
          rcases (cws_mem (replaceNewlines x) c).1 hccws with he | hr
          · exact absurd (hcr ▸ he) (by decide)
          · exact rn_no_cr x c hr hcr
        · have h1 : htOK l1 = true :=
            htOK_chunk l1 _ (splitCh_chunk '\n' _ l1 hl1)
              (cws_htOK (replaceNewlines x)).1
          exact hps1 ▸ htOK_chunk (pyStrip l1) l1 (pyStrip_chunk l1) h1
        · exact hps1 ▸ pyStrip_idem l1
      have hmok : ∀ l2 ∈ (m0 :: ms).map (List.map normQuoteCh), LineOK l2 := by
        intro l2 hl2
        rcases List.mem_map.mp hl2 with ⟨l, hl, rfl⟩
        rcases hpre l hl with ⟨hlne, hchars, hht, hpsl⟩
        refine ⟨by simpa using hlne, ?_, htOK_map normQuoteCh
          (fun c => (nq_class c).2.1) l hht, ?_⟩
        · intro c hc
          rcases List.mem_map.mp hc with ⟨c0, hc0, rfl⟩
          rcases hchars c0 hc0 with ⟨hn, hr, ht⟩
          refine ⟨?_, ?_, ?_, nq_nq c0⟩
          · intro he
            exact hn ((nq_class c0).2.2.1 he)
          · intro he
            exact hr ((nq_class c0).2.2.2.1 he)
          · intro he
            exact ht ((nq_class c0).2.2.2.2 he)
        · apply pyStrip_id
          · intro c hc
            rw [List.head?_map] at hc
            cases hh : l.head? with
            | none => rw [hh] at hc; cases hc
            | some c0 =>
              rw [hh] at hc
              injection hc with hc
              rw [← hc, (nq_class c0).1]
              exact stripped_front l hpsl c0 hh
          · intro c hc
            rw [getLast?_map] at hc
            cases hh : l.getLast? with
            | none => rw [hh] at hc; cases hc
            | some c0 =>
              rw [hh] at hc
              injection hc with hc
              rw [← hc, (nq_class c0).1]
              exact stripped_back l hpsl c0 hh
      refine ⟨(m0 :: ms).map (List.map normQuoteCh), by simp, hmok, ?_⟩
      rw [e0, hL0]
      rw [joinCh_map normQuoteCh '\n' (by decide) (m0 :: ms)]
      have hm0 := hmok (List.map normQuoteCh m0)
        (List.mem_map.mpr ⟨m0, List.mem_cons_self _ _, rfl⟩)
      apply pyStrip_id
      · intro c hc
        rw [show (m0 :: ms).map (List.map normQuoteCh) =
          List.map normQuoteCh m0 :: ms.map (List.map normQuoteCh)
          from rfl] at hc
        rw [joinCh_head? '\n' _ _ hm0.1] at hc
        exact stripped_front _ hm0.2.2.2 c hc
      · intro c hc
        rw [show (m0 :: ms).map (List.map normQuoteCh) =
          List.map normQuoteCh m0 :: ms.map (List.map normQuoteCh)
          from rfl] at hc
        rcases joinCh_getLast? '\n' (ms.map (List.map normQuoteCh))
          (List.map normQuoteCh m0)
          (fun l2 hl2 => (hmok l2 hl2).1) with ⟨last, hlast, hlg⟩
        rw [hlg] at hc
        exact stripped_back last (hmok last hlast).2.2.2 c hc

/-- C9: `normalize_text` is idempotent — normalizing twice equals
normalizing once, for every input text. -/
theorem C9_theorem (x : Str) :
    normalize_text (normalize_text x) = normalize_text x := by
  rcases nt_shape x with h | ⟨L, hL, hlok, h⟩
  · rw [h]
    rfl
  · rw [h]
    exact nt_canonical L hL hlok

/-- C9 at a concrete input with stray whitespace, a carriage return, an
empty line and a tab. -/
theorem C9_witness :
    normalize_text (normalize_text "  Наказ  №5\x0d\n\nтекст\t наказу ".data) =
      normalize_text "  Наказ  №5\x0d\n\nтекст\t наказу ".data :=
  C9_theorem "  Наказ  №5\x0d\n\nтекст\t наказу ".data

end AOC
